import Mathlib

/-! # Vehicle stoppage detection: trip segmentation and detection strategies

A shallow embedding of the trajectory pipeline of `src/app.js`
(class `AdvancedStoppageDetector`) and theorems about it.

Modelling conventions.

* JavaScript numbers that hold measurements (latitude, longitude, speed,
  minutes, metres, scores) are elements of an arbitrary linearly ordered
  field `α`; arithmetic is exact, and `NaN` and the infinities do not occur.
  With `α := ℚ` every definition is executable; with `α := ℝ` the haversine
  distance `calculateDistance` can be passed for the parameter `dist`.
* The detection methods take the distance function as the parameter `dist`
  (the source calls `this.calculateDistance`); their theorems hold for every
  distance function.
* Epoch milliseconds (`eventGeneratedTime`) and `Date` objects (`timestamp`,
  `startTime`, `endTime`) are integers, a `Date` being its time value; the
  range limit of `Date` is not modelled.
* The speed of a fix is a number (`parseCSV` stores `parseFloat(v) || 0`).
* The grouping object `equipmentGroups` is a JavaScript object literal: its keys
  are enumerated in the order of `Object.keys`, and a key that names a property
  of `Object.prototype` makes the grouping loop throw; `segmentTrips` returns
  an `Option` for that reason.
* `this.parameters` and `this.tripColors` are passed as arguments, and the
  arrays a method pushes to are returned.
* The row loop of `parseCSV` is modelled on the objects it builds
  (`parsePoint`, `isValidPoint`, `parseCSVRows`); the built-ins `trim`,
  `parseFloat` and `parseInt` are parameters, the parse functions returning
  `none` for `NaN`. A `Fix` is a row that loop kept, of a file with a `speed`
  column; the statements after the loop are `parseCSVPreprocess`.
-/

namespace StoppageDetector

/-! ## Data model -/

/-- One GPS row as `parseCSV` builds it. `EquipmentId` is `none` when the
column is absent (`undefined` in the source). -/
structure Fix (α : Type) where
  EquipmentId : Option String
  latitude : α
  longitude : α
  speed : α
  eventGeneratedTime : Int
  timestamp : Int
deriving DecidableEq, Repr

/-- The object pushed to `this.trips` by `segmentTrips`. -/
structure Trip (α : Type) where
  id : String
  equipmentId : String
  tripNumber : Nat
  points : List (Fix α)
  color : String
  startTime : Int
  endTime : Int
  totalDistance : α
  avgSpeed : α
deriving DecidableEq, Repr

/-- The object pushed to a `stoppages` array by the detection methods. -/
structure Stoppage (α : Type) where
  id : String
  algorithm : String
  startTime : Int
  endTime : Int
  duration : α
  latitude : α
  longitude : α
  confidence : α
  type : String
deriving DecidableEq, Repr

/-- `this.parameters.timeGap`. -/
structure TimeGapParams (α : Type) where
  minGapMinutes : α
  maxDistanceMeters : α

/-- `this.parameters.speed`. -/
structure SpeedParams (α : Type) where
  maxSpeedKmh : α
  minDurationMinutes : α
  distanceToleranceMeters : α

/-- `this.parameters.clustering`. -/
structure ClusteringParams (α : Type) where
  clusterRadiusMeters : α
  minPointsInCluster : α
  minDurationMinutes : α

/-- `this.parameters.hybrid`. -/
structure HybridParams (α : Type) where
  speedWeight : α
  timeWeight : α
  locationWeight : α
  confidenceThreshold : α

/-- `this.parameters`. -/
structure Parameters (α : Type) where
  tripSegmentationThreshold : α
  timeGap : TimeGapParams α
  speed : SpeedParams α
  clustering : ClusteringParams α
  hybrid : HybridParams α

/-- The palette `this.tripColors` of the constructor. -/
def tripColors : List String :=
  ["#e74c3c", "#3498db", "#2ecc71", "#f39c12", "#9b59b6", "#1abc9c", "#34495e", "#e67e22"]

section Core

variable {α : Type} [LinearOrderedField α]

/-! ## Helpers shared by the methods -/

/-- The comparator `(a, b) => a.eventGeneratedTime - b.eventGeneratedTime`
read as an order: `a` may stay before `b`. -/
def timeLE (a b : Fix α) : Prop := a.eventGeneratedTime ≤ b.eventGeneratedTime

instance timeLE_decidable : DecidableRel (timeLE : Fix α → Fix α → Prop) :=
  fun a b => inferInstanceAs (Decidable (a.eventGeneratedTime ≤ b.eventGeneratedTime))

/-- `Array.prototype.sort` with the time comparator: a stable sort. -/
def sortByTime (points : List (Fix α)) : List (Fix α) :=
  List.insertionSort timeLE points

/-- The gap in minutes `(b.eventGeneratedTime - a.eventGeneratedTime) / (1000 * 60)`. -/
def minutesBetween (a b : Fix α) : α :=
  ((b.eventGeneratedTime - a.eventGeneratedTime : Int) : α) / (1000 * 60)

/-- `calculateTripDistance`: the sum of the distances of consecutive points. -/
def calculateTripDistance (dist : α → α → α → α → α) : List (Fix α) → α
  | [] => 0
  | [_] => 0
  | p :: q :: rest =>
      dist p.latitude p.longitude q.latitude q.longitude + calculateTripDistance dist (q :: rest)

/-- `calculateAvgSpeed`: the mean of the non-negative speeds, `0` when there is none. -/
def calculateAvgSpeed (points : List (Fix α)) : α :=
  let validSpeeds := points.filter (fun p => decide (0 ≤ p.speed))
  if validSpeeds.length = 0 then 0
  else (validSpeeds.foldl (fun sum p => sum + p.speed) 0) / (validSpeeds.length : α)

/-! ## Trip segmentation -/

/-- `point.EquipmentId || 'Unknown'`: a missing or empty id is `'Unknown'`. -/
def equipIdOf (p : Fix α) : String :=
  match p.EquipmentId with
  | some s => if s = "" then "Unknown" else s
  | none => "Unknown"

/-- The property names every object literal inherits from `Object.prototype`.
For such a key `equipmentGroups[equipId]` is truthy before any assignment, so
no array is created and `equipmentGroups[equipId].push(point)` throws a
`TypeError`. -/
def objectPrototypeKeys : List String :=
  ["constructor", "__defineGetter__", "__defineSetter__", "hasOwnProperty",
   "__lookupGetter__", "__lookupSetter__", "isPrototypeOf", "propertyIsEnumerable",
   "toString", "valueOf", "__proto__", "toLocaleString"]

/-- The keys of `equipmentGroups` in creation order: the ids in order of first
occurrence. -/
def insertionKeys : List String → List String
  | [] => []
  | k :: ks => k :: (insertionKeys ks).filter (fun x => decide (x ≠ k))

/-- The number a string of decimal digits denotes. -/
def digitsValue (cs : List Char) : Nat :=
  cs.foldl (fun n c => 10 * n + (c.toNat - 48)) 0

/-- A key is an array index when it is the canonical decimal form (digits only,
no leading zero) of an integer below `2^32 - 1`. -/
def arrayIndex? (s : String) : Option Nat :=
  let cs := s.data
  if cs ≠ [] ∧ cs.all Char.isDigit = true ∧ (cs.head? ≠ some '0' ∨ cs.length = 1)
      ∧ digitsValue cs < 2 ^ 32 - 1 then
    some (digitsValue cs)
  else none

/-- The order of `Object.keys`: array-index keys in ascending numeric order,
then the other keys in creation order. -/
def objectKeys (keys : List String) : List String :=
  (List.insertionSort (fun a b => (arrayIndex? a).getD 0 ≤ (arrayIndex? b).getD 0)
      (keys.filter (fun k => (arrayIndex? k).isSome)))
    ++ keys.filter (fun k => !(arrayIndex? k).isSome)

/-- The object literal pushed to `this.trips` for the buffer `currentTrip`. -/
def mkTrip (dist : α → α → α → α → α) (equipId : String) (equipIndex tripCounter : Nat)
    (currentTrip : List (Fix α)) : Trip α :=
  { id := equipId ++ "_Trip" ++ toString tripCounter
    equipmentId := equipId
    tripNumber := tripCounter
    points := currentTrip
    color := tripColors.getD ((equipIndex * 3 + tripCounter - 1) % tripColors.length) ""
    startTime := (currentTrip.head?.map (fun p => p.eventGeneratedTime)).getD 0
    endTime := (currentTrip.getLast?.map (fun p => p.eventGeneratedTime)).getD 0
    totalDistance := calculateTripDistance dist currentTrip
    avgSpeed := calculateAvgSpeed currentTrip }

/-- The state of the walk over one equipment group. -/
structure SegState (α : Type) where
  currentTrip : List (Fix α)
  tripCounter : Nat
  trips : List (Trip α)

/-- The callback of `points.forEach` for an index `> 0`; `prev` is
`points[index - 1]`. -/
def segmentStep (dist : α → α → α → α → α) (threshold : α) (equipId : String)
    (equipIndex : Nat) (st : SegState α) (prev point : Fix α) : SegState α :=
  let timeDiffMinutes := minutesBetween prev point
  if threshold < timeDiffMinutes then
    { currentTrip := [point]
      tripCounter := st.tripCounter + 1
      trips :=
        if 1 < st.currentTrip.length then
          st.trips ++ [mkTrip dist equipId equipIndex st.tripCounter st.currentTrip]
        else st.trips }
  else
    { st with currentTrip := st.currentTrip ++ [point] }

/-- The iterations of `points.forEach` after the one at `prev`. -/
def segmentWalk (dist : α → α → α → α → α) (threshold : α) (equipId : String)
    (equipIndex : Nat) : SegState α → Fix α → List (Fix α) → SegState α
  | st, _, [] => st
  | st, prev, point :: rest =>
      segmentWalk dist threshold equipId equipIndex
        (segmentStep dist threshold equipId equipIndex st prev point) point rest

/-- The trips pushed while one equipment group is processed (the body of
`Object.keys(equipmentGroups).forEach`); `group` is `equipmentGroups[equipId]`. -/
def segmentGroup (dist : α → α → α → α → α) (threshold : α) (equipId : String)
    (equipIndex : Nat) (group : List (Fix α)) : List (Trip α) :=
  let st : SegState α :=
    match sortByTime group with
    | [] => { currentTrip := [], tripCounter := 1, trips := [] }
    | first :: rest =>
        segmentWalk dist threshold equipId equipIndex
          { currentTrip := [first], tripCounter := 1, trips := [] } first rest
  if 1 < st.currentTrip.length then
    st.trips ++ [mkTrip dist equipId equipIndex st.tripCounter st.currentTrip]
  else st.trips

/-- The array `equipmentGroups[equipId]`: the points of that id in input order. -/
def equipmentGroup (gpsData : List (Fix α)) (equipId : String) : List (Fix α) :=
  gpsData.filter (fun p => decide (equipIdOf p = equipId))

/-- The trips of the groups `keys`, the first of which has index `equipIndex`. -/
def segmentGroups (dist : α → α → α → α → α) (threshold : α) (gpsData : List (Fix α)) :
    Nat → List String → List (Trip α)
  | _, [] => []
  | equipIndex, equipId :: keys =>
      segmentGroup dist threshold equipId equipIndex (equipmentGroup gpsData equipId)
        ++ segmentGroups dist threshold gpsData (equipIndex + 1) keys

/-- `segmentTrips`: the value of `this.trips` afterwards, or `none` when the
grouping loop throws (an id that names a property of `Object.prototype`). -/
def segmentTrips (dist : α → α → α → α → α) (threshold : α) (gpsData : List (Fix α)) :
    Option (List (Trip α)) :=
  if gpsData.any (fun p => decide (equipIdOf p ∈ objectPrototypeKeys)) then none
  else
    some (segmentGroups dist threshold gpsData 0
      (objectKeys (insertionKeys (gpsData.map equipIdOf))))

/-! ## Time-Gap detection -/

/-- The object pushed by `detectTimeGapStoppages` at index `i`. -/
def mkTimeGapStoppage (tripId : String) (i : Nat) (previous current : Fix α) : Stoppage α :=
  let timeGapMinutes := minutesBetween previous current
  { id := "timegap_" ++ tripId ++ "_" ++ toString i
    algorithm := "Time-Gap"
    startTime := previous.timestamp
    endTime := current.timestamp
    duration := timeGapMinutes
    latitude := (previous.latitude + current.latitude) / 2
    longitude := (previous.longitude + current.longitude) / 2
    confidence := min 1 (timeGapMinutes / 10)
    type := "Time Gap" }

/-- The iterations `i, i + 1, ...` of the `for` loop of `detectTimeGapStoppages`;
`previous` is `trip.points[i - 1]` and the list holds `trip.points[i], ...`. -/
def timeGapLoop (dist : α → α → α → α → α) (params : TimeGapParams α) (tripId : String) :
    List (Stoppage α) → Nat → Fix α → List (Fix α) → List (Stoppage α)
  | stoppages, _, _, [] => stoppages
  | stoppages, i, previous, current :: rest =>
      let timeGapMinutes := minutesBetween previous current
      let distance := dist previous.latitude previous.longitude current.latitude current.longitude
      timeGapLoop dist params tripId
        (if params.minGapMinutes ≤ timeGapMinutes ∧ distance ≤ params.maxDistanceMeters then
          stoppages ++ [mkTimeGapStoppage tripId i previous current]
        else stoppages)
        (i + 1) current rest

/-- `detectTimeGapStoppages(trip)`. -/
def detectTimeGapStoppages (dist : α → α → α → α → α) (params : TimeGapParams α)
    (trip : Trip α) : List (Stoppage α) :=
  match trip.points with
  | [] => []
  | first :: rest => timeGapLoop dist params trip.id [] 1 first rest

/-! ## Speed-threshold detection -/

/-- The local variables of `detectSpeedBasedStoppages`. -/
structure SpeedState (α : Type) where
  currentStopStart : Option (Fix α)
  stopPoints : List (Fix α)
  stoppages : List (Stoppage α)

/-- The object pushed by `detectSpeedBasedStoppages` when `point` ends the run
`stopPoints` that began at `currentStopStart`. -/
def mkSpeedStoppage (tripId : String) (count : Nat) (currentStopStart : Fix α)
    (stopPoints : List (Fix α)) (point : Fix α) : Stoppage α :=
  let duration := minutesBetween currentStopStart point
  { id := "speed_" ++ tripId ++ "_" ++ toString count
    algorithm := "Speed-Based"
    startTime := currentStopStart.timestamp
    endTime := point.eventGeneratedTime
    duration := duration
    latitude := stopPoints.foldl (fun sum p => sum + p.latitude) 0 / (stopPoints.length : α)
    longitude := stopPoints.foldl (fun sum p => sum + p.longitude) 0 / (stopPoints.length : α)
    confidence := min 1 (duration / 10)
    type := "Low Speed" }

/-- One iteration of the `for` loop of `detectSpeedBasedStoppages`. -/
def speedStep (params : SpeedParams α) (tripId : String) (st : SpeedState α)
    (point : Fix α) : SpeedState α :=
  if point.speed ≤ params.maxSpeedKmh then
    match st.currentStopStart with
    | none => { st with currentStopStart := some point, stopPoints := [point] }
    | some _ => { st with stopPoints := st.stopPoints ++ [point] }
  else
    { currentStopStart := none
      stopPoints := []
      stoppages :=
        match st.currentStopStart with
        | some start =>
            if 1 < st.stopPoints.length then
              if params.minDurationMinutes ≤ minutesBetween start point then
                st.stoppages ++
                  [mkSpeedStoppage tripId st.stoppages.length start st.stopPoints point]
              else st.stoppages
            else st.stoppages
        | none => st.stoppages }

/-- `detectSpeedBasedStoppages(trip)`. -/
def detectSpeedBasedStoppages (params : SpeedParams α) (trip : Trip α) : List (Stoppage α) :=
  (trip.points.foldl (speedStep params trip.id)
    { currentStopStart := none, stopPoints := [], stoppages := [] }).stoppages

/-! ## Spatial clustering detection -/

/-- An element of the local array `clusters` of `detectClusteringStoppages`. -/
structure Cluster (α : Type) where
  centerLat : α
  centerLng : α
  points : List (Fix α)

/-- The update of a cluster that `point` joins: push, then recompute the centre. -/
def addToCluster (cluster : Cluster α) (point : Fix α) : Cluster α :=
  let points := cluster.points ++ [point]
  { centerLat := points.foldl (fun sum p => sum + p.latitude) 0 / (points.length : α)
    centerLng := points.foldl (fun sum p => sum + p.longitude) 0 / (points.length : α)
    points := points }

/-- The `for (const cluster of clusters)` loop: the first cluster whose centre is
within the radius takes the point (`break`); `none` when `assignedCluster`
stays `false`. -/
def assignToCluster (dist : α → α → α → α → α) (params : ClusteringParams α)
    (point : Fix α) : List (Cluster α) → Option (List (Cluster α))
  | [] => none
  | cluster :: rest =>
      if dist point.latitude point.longitude cluster.centerLat cluster.centerLng
          ≤ params.clusterRadiusMeters then
        some (addToCluster cluster point :: rest)
      else (assignToCluster dist params point rest).map (fun cs => cluster :: cs)

/-- The callback of `trip.points.forEach` in `detectClusteringStoppages`. -/
def clusterStep (dist : α → α → α → α → α) (params : ClusteringParams α)
    (clusters : List (Cluster α)) (point : Fix α) : List (Cluster α) :=
  match assignToCluster dist params point clusters with
  | some clusters' => clusters'
  | none =>
      clusters ++ [{ centerLat := point.latitude, centerLng := point.longitude, points := [point] }]

/-- The array `clusters` after the first loop of `detectClusteringStoppages`. -/
def buildClusters (dist : α → α → α → α → α) (params : ClusteringParams α)
    (points : List (Fix α)) : List (Cluster α) :=
  points.foldl (clusterStep dist params) []

/-- The object pushed by `detectClusteringStoppages` for the cluster number
`index`; `first` and `last` are `sortedPoints[0]` and the last element of
`sortedPoints`. -/
def mkClusterStoppage (tripId : String) (index : Nat) (cluster : Cluster α)
    (first last : Fix α) : Stoppage α :=
  let duration := minutesBetween first last
  { id := "cluster_" ++ tripId ++ "_" ++ toString index
    algorithm := "Location Clustering"
    startTime := first.timestamp
    endTime := last.timestamp
    duration := duration
    latitude := cluster.centerLat
    longitude := cluster.centerLng
    confidence := min 1 ((cluster.points.length : α) / 10)
    type := "Cluster" }

/-- The callback of `clusters.forEach((cluster, index) => ...)`. A cluster always
has a member, so `sortedPoints[0]` and the last element exist. -/
def clusterToStoppage (params : ClusteringParams α) (tripId : String)
    (stoppages : List (Stoppage α)) (index : Nat) (cluster : Cluster α) : List (Stoppage α) :=
  if params.minPointsInCluster ≤ (cluster.points.length : α) then
    let sortedPoints := sortByTime cluster.points
    match sortedPoints.head?, sortedPoints.getLast? with
    | some first, some last =>
        let duration := minutesBetween first last
        if params.minDurationMinutes ≤ duration then
          stoppages ++ [mkClusterStoppage tripId index cluster first last]
        else stoppages
    | _, _ => stoppages
  else stoppages

/-- The second loop of `detectClusteringStoppages`, from cluster `index` on. -/
def clustersToStoppages (params : ClusteringParams α) (tripId : String) :
    List (Stoppage α) → Nat → List (Cluster α) → List (Stoppage α)
  | stoppages, _, [] => stoppages
  | stoppages, index, cluster :: rest =>
      clustersToStoppages params tripId
        (clusterToStoppage params tripId stoppages index cluster) (index + 1) rest

/-- `detectClusteringStoppages(trip)`. -/
def detectClusteringStoppages (dist : α → α → α → α → α) (params : ClusteringParams α)
    (trip : Trip α) : List (Stoppage α) :=
  clustersToStoppages params trip.id [] 0 (buildClusters dist params trip.points)

/-! ## Hybrid detection -/

/-- `getAverageSpeedNearLocation`. -/
def getAverageSpeedNearLocation (dist : α → α → α → α → α) (lat lng : α)
    (startTime endTime : Int) (trip : Trip α) : α :=
  let nearbyPoints := trip.points.filter (fun p =>
    decide (dist lat lng p.latitude p.longitude ≤ 200) &&
      (decide (startTime ≤ p.timestamp) && decide (p.timestamp ≤ endTime)))
  if nearbyPoints.length = 0 then 0
  else nearbyPoints.foldl (fun sum p => sum + p.speed) 0 / (nearbyPoints.length : α)

/-- `getLocationSignificanceScore`. -/
def getLocationSignificanceScore (dist : α → α → α → α → α) (lat lng : α)
    (trip : Trip α) : α :=
  let nearbyCount := (trip.points.filter (fun p =>
    decide (dist lat lng p.latitude p.longitude ≤ 100))).length
  min 1 ((nearbyCount : α) / 5)

/-- The value of `score` when `detectHybridStoppages` tests it for `stop`. -/
def hybridScore (dist : α → α → α → α → α) (params : HybridParams α) (trip : Trip α)
    (stop : Stoppage α) : α :=
  let avgSpeed := getAverageSpeedNearLocation dist stop.latitude stop.longitude
    stop.startTime stop.endTime trip
  let speedScore := max 0 (1 - avgSpeed / 10)
  let timeScore := min 1 (stop.duration / 20)
  let locationScore := getLocationSignificanceScore dist stop.latitude stop.longitude trip
  0 + speedScore * params.speedWeight + timeScore * params.timeWeight
    + locationScore * params.locationWeight

/-- The callback of `potentialStops.forEach` in `detectHybridStoppages`. -/
def hybridStep (dist : α → α → α → α → α) (params : HybridParams α) (trip : Trip α)
    (stoppages : List (Stoppage α)) (stop : Stoppage α) : List (Stoppage α) :=
  let score := hybridScore dist params trip stop
  if params.confidenceThreshold ≤ score then
    stoppages ++
      [{ stop with
         id := "hybrid_" ++ trip.id ++ "_" ++ toString stoppages.length
         algorithm := "Hybrid Multi-Criteria"
         confidence := score
         type := "Multi-Criteria" }]
  else stoppages

/-- The array `potentialStops` of `detectHybridStoppages`. -/
def potentialStops (dist : α → α → α → α → α) (params : Parameters α) (trip : Trip α) :
    List (Stoppage α) :=
  detectTimeGapStoppages dist params.timeGap trip
    ++ detectSpeedBasedStoppages params.speed trip
    ++ detectClusteringStoppages dist params.clustering trip

/-- `detectHybridStoppages(trip)`. -/
def detectHybridStoppages (dist : α → α → α → α → α) (params : Parameters α)
    (trip : Trip α) : List (Stoppage α) :=
  (potentialStops dist params trip).foldl (hybridStep dist params.hybrid trip) []

/-! ## Properties used to state the theorems -/

/-- What every emitted trip satisfies: two fixes or more, one asset id, and
consecutive fixes in time order with a gap of at most the threshold. -/
def TripOK (threshold : α) (t : Trip α) : Prop :=
  2 ≤ t.points.length ∧ (∀ p ∈ t.points, equipIdOf p = t.equipmentId) ∧
    t.points.Chain' (fun a b => timeLE a b ∧ minutesBetween a b ≤ threshold)

/-- The rest of the run that `prev` belongs to, and the runs after it: a new
run starts at each fix whose gap to its predecessor exceeds the threshold. -/
def contRuns (threshold : α) : Fix α → List (Fix α) → List (Fix α) × List (List (Fix α))
  | _, [] => ([], [])
  | prev, q :: rest =>
      let r := contRuns threshold q rest
      if threshold < minutesBetween prev q then ([], (q :: r.1) :: r.2)
      else (q :: r.1, r.2)

/-- The maximal runs of a list of fixes without a gap above the threshold. -/
def splitRuns (threshold : α) : List (Fix α) → List (List (Fix α))
  | [] => []
  | p :: rest => (p :: (contRuns threshold p rest).1) :: (contRuns threshold p rest).2

/-- The trips of the runs numbered from `n` on: a run of one fix takes a number
but gives no trip. -/
def emitRuns (dist : α → α → α → α → α) (equipId : String) (equipIndex : Nat) :
    Nat → List (List (Fix α)) → List (Trip α)
  | _, [] => []
  | n, run :: runs =>
      (if 1 < run.length then [mkTrip dist equipId equipIndex n run] else [])
        ++ emitRuns dist equipId equipIndex (n + 1) runs

/-- The numbers of the runs that become trips, the first run having number `n`. -/
def runNumbers : Nat → List (List (Fix α)) → List Nat
  | _, [] => []
  | n, run :: runs => (if 1 < run.length then [n] else []) ++ runNumbers (n + 1) runs

/-- The `// Add final trip` step after the walk. -/
def finishWalk (dist : α → α → α → α → α) (equipId : String) (equipIndex : Nat)
    (st : SegState α) : List (Trip α) :=
  if 1 < st.currentTrip.length then
    st.trips ++ [mkTrip dist equipId equipIndex st.tripCounter st.currentTrip]
  else st.trips

/-- The fields of a candidate the claims speak about: start, end, duration,
latitude, longitude and confidence. -/
def Stoppage.core (s : Stoppage α) : Int × Int × α × α × α × α :=
  (s.startTime, s.endTime, s.duration, s.latitude, s.longitude, s.confidence)

/-- The Time-Gap test on a consecutive pair. -/
def timeGapQualifies (dist : α → α → α → α → α) (params : TimeGapParams α)
    (pair : Fix α × Fix α) : Bool :=
  decide (params.minGapMinutes ≤ minutesBetween pair.1 pair.2 ∧
    dist pair.1.latitude pair.1.longitude pair.2.latitude pair.2.longitude
      ≤ params.maxDistanceMeters)


/-- `speedScore = max(0, 1 - avgSpeedNear / 10)`. -/
def speedScore (dist : α → α → α → α → α) (trip : Trip α) (stop : Stoppage α) : α :=
  max 0 (1 - getAverageSpeedNearLocation dist stop.latitude stop.longitude
    stop.startTime stop.endTime trip / 10)

/-- `timeScore = min(1, duration / 20)`. -/
def timeScore (stop : Stoppage α) : α := min 1 (stop.duration / 20)

/-- `locationScore = min(1, fixes within 100 m / 5)`. -/
def locationScore (dist : α → α → α → α → α) (trip : Trip α) (stop : Stoppage α) : α :=
  getLocationSignificanceScore dist stop.latitude stop.longitude trip

/-- The composite score as the spec writes it:
`speedWeight × speedScore + timeWeight × timeScore + locationWeight × locationScore`. -/
def compositeScore (dist : α → α → α → α → α) (params : HybridParams α) (trip : Trip α)
    (stop : Stoppage α) : α :=
  params.speedWeight * speedScore dist trip stop + params.timeWeight * timeScore stop
    + params.locationWeight * locationScore dist trip stop


/-- The cluster created for a fix that joins no cluster. -/
def singletonCluster (point : Fix α) : Cluster α :=
  { centerLat := point.latitude, centerLng := point.longitude, points := [point] }


/-- The mean latitude of a list of fixes. -/
def centroidLat (l : List (Fix α)) : α := (l.map (fun p => p.latitude)).sum / (l.length : α)

/-- The mean longitude of a list of fixes. -/
def centroidLng (l : List (Fix α)) : α := (l.map (fun p => p.longitude)).sum / (l.length : α)

/-- The cluster whose members are `l`, centred at their centroid. -/
def clusterOf (l : List (Fix α)) : Cluster α :=
  { centerLat := centroidLat l, centerLng := centroidLng l, points := l }

/-- Every fix of `rest` lies within `radius` of the centroid of the fixes before
it, `done` being the fixes before `rest`. -/
def JoinsRunningCentroid (dist : α → α → α → α → α) (radius : α) :
    List (Fix α) → List (Fix α) → Prop
  | _, [] => True
  | done, p :: rest =>
      dist p.latitude p.longitude (centroidLat done) (centroidLng done) ≤ radius ∧
        JoinsRunningCentroid dist radius (done ++ [p]) rest


/-! ## Point preprocessing -/

/-- A point of `this.gpsData` after `preprocessData`: the row and the fields the
two loops add to it (`none` is `undefined`). -/
structure PreprocessedFix (α : Type) where
  point : Fix α
  timeDiff : Option α
  distance : Option α
  calculatedSpeed : Option α
  isOutlier : Option Bool

/-- The iterations of the first `forEach` of `preprocessData` for the indices
`> 0`; `prev` is `this.gpsData[index - 1]`. -/
def preprocessWalk (dist : α → α → α → α → α) : Fix α → List (Fix α) → List (PreprocessedFix α)
  | _, [] => []
  | prev, point :: rest =>
      let timeDiff := ((point.eventGeneratedTime - prev.eventGeneratedTime : Int) : α) / 1000
      let distance := dist prev.latitude prev.longitude point.latitude point.longitude
      { point := point
        timeDiff := some timeDiff
        distance := some distance
        calculatedSpeed := some (if 0 < timeDiff then distance / timeDiff * 3.6 else 0)
        isOutlier := none } :: preprocessWalk dist point rest

/-- The first `forEach` of `preprocessData`: nothing is set on the point of index 0. -/
def computeMetrics (dist : α → α → α → α → α) : List (Fix α) → List (PreprocessedFix α)
  | [] => []
  | first :: rest =>
      { point := first, timeDiff := none, distance := none, calculatedSpeed := none
        isOutlier := none } :: preprocessWalk dist first rest

/-- The callback of the second `forEach`: `point.isOutlier = point.calculatedSpeed > 200`,
which is `false` when `calculatedSpeed` is `undefined`. -/
def markOutlier (p : PreprocessedFix α) : PreprocessedFix α :=
  { p with isOutlier := some (match p.calculatedSpeed with
      | some speed => decide (200 < speed)
      | none => false) }

/-- `preprocessData`: the value of `this.gpsData` afterwards. The rows carry the
columns of the data model only, so no derived field is set beforehand. -/
def preprocessData (dist : α → α → α → α → α) (gpsData : List (Fix α)) :
    List (PreprocessedFix α) :=
  (computeMetrics dist gpsData).map markOutlier

/-! ## Merging similar stoppages -/

/-- The test of the inner loop of `mergeSimilarStoppages`: within 100 m of the
seed `stop` and start times within 30 minutes. -/
def isSimilar (dist : α → α → α → α → α) (stop otherStop : Stoppage α) : Prop :=
  dist stop.latitude stop.longitude otherStop.latitude otherStop.longitude ≤ 100 ∧
    ((|stop.startTime - otherStop.startTime| : Int) : α) / (1000 * 60) ≤ 30

instance isSimilar_decidable (dist : α → α → α → α → α) :
    DecidableRel (isSimilar dist : Stoppage α → Stoppage α → Prop) :=
  fun _ _ => inferInstanceAs (Decidable (_ ∧ _))

/-- `Math.min(...xs)` for a non-empty array of time values. -/
def mathMin : List Int → Int
  | [] => 0
  | x :: xs => xs.foldl min x

/-- `Math.max(...xs)` for a non-empty array of time values. -/
def mathMax : List Int → Int
  | [] => 0
  | x :: xs => xs.foldl max x

/-- `Math.max(...xs)` for a non-empty array of numbers. -/
def mathMaxNum : List α → α
  | [] => 0
  | x :: xs => xs.foldl max x

/-- `[...new Set(xs)]`: the elements in the order in which the set first took them. -/
def setToArray (xs : List String) : List String :=
  xs.foldl (fun set x => if x ∈ set then set else set ++ [x]) []

/-- The element pushed to `merged` for the group `similar` seeded by `stop`, when
`merged` has `n` elements. -/
def mergeGroup (n : Nat) (stop : Stoppage α) (similar : List (Stoppage α)) : Stoppage α :=
  if similar.length = 1 then stop
  else
    let earliestStart := mathMin (similar.map (fun s => s.startTime))
    let latestEnd := mathMax (similar.map (fun s => s.endTime))
    let avgLat := similar.foldl (fun sum s => sum + s.latitude) 0 / (similar.length : α)
    let avgLng := similar.foldl (fun sum s => sum + s.longitude) 0 / (similar.length : α)
    let algorithms := setToArray (similar.map (fun s => s.algorithm))
    { id := "merged_" ++ toString n
      algorithm := " + ".intercalate algorithms
      startTime := earliestStart
      endTime := latestEnd
      duration := ((latestEnd - earliestStart : Int) : α) / (1000 * 60)
      latitude := avgLat
      longitude := avgLng
      confidence := mathMaxNum (similar.map (fun s => s.confidence))
      type := "Merged" }

/-- The array `similar` and the set `processed` during the inner loop. -/
structure SimilarState (α : Type) where
  similar : List (Stoppage α)
  processed : List Nat

/-- The iterations `otherIndex, otherIndex + 1, ...` of the inner
`stoppages.forEach((otherStop, otherIndex) => ...)` for the seed `stop` of index
`index`. -/
def similarLoop (dist : α → α → α → α → α) (stop : Stoppage α) (index : Nat) :
    Nat → List (Stoppage α) → SimilarState α → SimilarState α
  | _, [], st => st
  | otherIndex, otherStop :: rest, st =>
      similarLoop dist stop index (otherIndex + 1) rest
        (if otherIndex ≠ index ∧ otherIndex ∉ st.processed then
          if isSimilar dist stop otherStop then
            { similar := st.similar ++ [otherStop], processed := st.processed ++ [otherIndex] }
          else st
        else st)

/-- The array `similar` and the set `processed` after the inner loop for the seed
`stop` of index `index`. -/
def findSimilar (dist : α → α → α → α → α) (stoppages : List (Stoppage α))
    (processed : List Nat) (index : Nat) (stop : Stoppage α) : SimilarState α :=
  similarLoop dist stop index 0 stoppages
    { similar := [stop], processed := processed ++ [index] }

/-- The array `merged` and the set `processed` of `mergeSimilarStoppages`. -/
structure MergeState (α : Type) where
  merged : List (Stoppage α)
  processed : List Nat

/-- The iterations `index, index + 1, ...` of the outer
`stoppages.forEach((stop, index) => ...)`. -/
def mergeLoop (dist : α → α → α → α → α) (stoppages : List (Stoppage α)) :
    Nat → List (Stoppage α) → MergeState α → MergeState α
  | _, [], st => st
  | index, stop :: rest, st =>
      mergeLoop dist stoppages (index + 1) rest
        (if index ∈ st.processed then st
        else
          let found := findSimilar dist stoppages st.processed index stop
          { merged := st.merged ++ [mergeGroup st.merged.length stop found.similar]
            processed := found.processed })

/-- `mergeSimilarStoppages(stoppages)`. -/
def mergeSimilarStoppages (dist : α → α → α → α → α) (stoppages : List (Stoppage α)) :
    List (Stoppage α) :=
  (mergeLoop dist stoppages 0 stoppages { merged := [], processed := [] }).merged

/-- The outer loop of `mergeSimilarStoppages` recording, instead of the merged
element, the seed and the array `similar` of each group. -/
def groupLoop (dist : α → α → α → α → α) (stoppages : List (Stoppage α)) :
    Nat → List (Stoppage α) → List (Stoppage α × List (Stoppage α)) × List Nat →
      List (Stoppage α × List (Stoppage α)) × List Nat
  | _, [], st => st
  | index, stop :: rest, st =>
      groupLoop dist stoppages (index + 1) rest
        (if index ∈ st.2 then st
        else
          let found := findSimilar dist stoppages st.2 index stop
          (st.1 ++ [(stop, found.similar)], found.processed))

/-- The groups `mergeSimilarStoppages` forms, in the order of their seeds: each
seed with its array `similar`. -/
def mergeGroups (dist : α → α → α → α → α) (stoppages : List (Stoppage α)) :
    List (Stoppage α × List (Stoppage α)) :=
  (groupLoop dist stoppages 0 stoppages ([], [])).1

/-- One merged element per group, the first group being emitted when `merged`
has `n` elements. -/
def emitGroups : Nat → List (Stoppage α × List (Stoppage α)) → List (Stoppage α)
  | _, [] => []
  | n, group :: groups => mergeGroup n group.1 group.2 :: emitGroups (n + 1) groups

/-- The distinct elements of a list in the order of their first occurrence. -/
def distinctInOrder : List String → List String
  | [] => []
  | x :: xs => x :: (distinctInOrder xs).filter (fun y => decide (y ≠ x))

/-- The duration of a stoppage is the span from its start to its end in minutes. -/
def DurationIsSpan (s : Stoppage α) : Prop :=
  s.duration = ((s.endTime - s.startTime : Int) : α) / 60000

/-- The confidence of a stoppage lies in `[0, 1]`. -/
def ConfidenceInUnit (s : Stoppage α) : Prop := 0 ≤ s.confidence ∧ s.confidence ≤ 1

/-- The fixes of the runs that become trips (the runs of two fixes or more), in
order. -/
def coveredFixes : List (List (Fix α)) → List (Fix α)
  | [] => []
  | run :: runs => (if 1 < run.length then run else []) ++ coveredFixes runs

/-- A fix of asset `EQPT-1` reported at minute `m`. -/
def fixAtMinute (m : Int) : Fix α :=
  { EquipmentId := some "EQPT-1", latitude := 0, longitude := 0, speed := 0
    eventGeneratedTime := m * 60000, timestamp := m * 60000 }

/-- The grouping as the spec words it: the first candidate that is in no group yet
seeds a group, the group takes the later candidates in no group yet that are
within 100 m of the seed and start within 30 minutes of it, and the candidates
left over are grouped in the same way. -/
def groupLaterCandidates (dist : α → α → α → α → α) :
    List (Stoppage α) → List (Stoppage α × List (Stoppage α))
  | [] => []
  | seed :: later =>
      (seed, seed :: later.filter (fun c => decide (isSimilar dist seed c)))
        :: groupLaterCandidates dist
            (later.filter (fun c => !decide (isSimilar dist seed c)))
termination_by candidates => candidates.length
decreasing_by
  simp only [List.length_cons]
  exact Nat.lt_succ_of_le (List.length_filter_le _ _)

/-- The candidates of `rest`, which starts at index `k`, whose index is not in
`processed`. -/
def unprocessed (processed : List Nat) : Nat → List (Stoppage α) → List (Stoppage α)
  | _, [] => []
  | k, s :: rest =>
      if k ∈ processed then unprocessed processed (k + 1) rest
      else s :: unprocessed processed (k + 1) rest

/-! ## Ingestion -/

/-- The statements of `parseCSV` after its row loop that change `this.gpsData`:
the stable sort of all kept rows by `eventGeneratedTime`, then `preprocessData`.
`rows` are the rows the loop kept, in file order. -/
def parseCSVPreprocess (dist : α → α → α → α → α) (rows : List (Fix α)) :
    List (PreprocessedFix α) :=
  preprocessData dist (sortByTime rows)

/-- The previous fix of the same asset, in the spec's words: the last of the
fixes `earlier` that carries the asset id of `point`. -/
def previousOfSameAsset (earlier : List (Fix α)) (point : Fix α) : Option (Fix α) :=
  (earlier.filter (fun q => decide (equipIdOf q = equipIdOf point))).getLast?

/-! ## The row loop of `parseCSV` -/

/-- A value of a property of the object `point` that `parseCSV` builds for a line:
`undefined`, a number (`none` is `NaN`), a string, or a `Date` (of `NaN`: an
invalid date). -/
inductive JsValue (α : Type) where
  | undefined : JsValue α
  | number (x : Option α) : JsValue α
  | string (s : String) : JsValue α
  | date (ms : Option Int) : JsValue α

/-- The truth value of a property in a condition: `undefined`, `NaN`, `0` and the
empty string are falsy, every other value is truthy. -/
def JsValue.truthy : JsValue α → Bool
  | .undefined => false
  | .number none => false
  | .number (some x) => decide (x ≠ 0)
  | .string s => decide (s ≠ "")
  | .date _ => true

/-- The value of `point[key]` for an object given by its assignments, the latest
first; a key never assigned is `undefined`. -/
def getProp : List (String × JsValue α) → String → JsValue α
  | [], _ => .undefined
  | (k, v) :: rest, key => if k = key then v else getProp rest key

/-- The callback of `headers.forEach((header, index) => ...)`. `parseFloat` and
`parseInt` return `none` for `NaN`; of `undefined` (no such column in the line)
both are `NaN`. An assignment to `__proto__` of a string or of `undefined` leaves
the object as it is. -/
def setField (trim : String → String) (parseFloat : String → Option α)
    (parseInt : String → Option Int) (values : List String)
    (point : List (String × JsValue α)) (header : String) (index : Nat) :
    List (String × JsValue α) :=
  let value := values[index]?.map trim
  if header = "latitude" ∨ header = "longitude" then
    (header, .number (value.bind parseFloat)) :: point
  else if header = "speed" then
    (header, .number (some ((value.bind parseFloat).getD 0))) :: point
  else if header = "eventGeneratedTime" then
    ("timestamp", .date (value.bind parseInt))
      :: (header, .number ((value.bind parseInt).map (fun ms : Int => (ms : α)))) :: point
  else if header = "__proto__" then point
  else
    (header, match value with
      | some s => .string s
      | none => .undefined) :: point

/-- The object `point` after `headers.forEach` for the line split into `values`. -/
def parsePoint (trim : String → String) (parseFloat : String → Option α)
    (parseInt : String → Option Int) (headers values : List String) :
    List (String × JsValue α) :=
  headers.enum.foldl
    (fun point entry => setField trim parseFloat parseInt values point entry.2 entry.1) []

/-- The validity filter
`point.latitude && point.longitude && point.eventGeneratedTime`. -/
def isValidPoint (point : List (String × JsValue α)) : Bool :=
  (getProp point "latitude").truthy && (getProp point "longitude").truthy
    && (getProp point "eventGeneratedTime").truthy

/-- The row loop of `parseCSV`: the value of `this.gpsData` after it. The first
line gives the headers, blank lines are skipped, and a line is kept when its
`point` passes the validity filter. -/
def parseCSVRows (trim : String → String) (parseFloat : String → Option α)
    (parseInt : String → Option Int) (csvContent : String) :
    List (List (String × JsValue α)) :=
  let lines := csvContent.splitOn "\n"
  let headers := ((lines.headD "").splitOn ",").map trim
  ((lines.tail.filter (fun line => decide (trim line ≠ ""))).map
    (fun line => parsePoint trim parseFloat parseInt headers (line.splitOn ","))).filter
      isValidPoint

end Core

/-! ## Geo primitives -/

/-- `Math.atan2(y, x)`: the angle of the point `(x, y)`, in `(-π, π]`. -/
noncomputable def atan2 (y x : ℝ) : ℝ := Complex.arg ⟨x, y⟩

/-- `calculateDistance`: the haversine distance in metres on the sphere of
radius 6371000 m, in exact real arithmetic (the real sine, cosine and square
root are not computable, hence neither is this definition). In exact
arithmetic `0 ≤ a ≤ 1` for all coordinates (`haversineA_mem_unit`), so both
square roots are taken of non-negative numbers; rounding is not modelled. -/
noncomputable def calculateDistance (lat1 lon1 lat2 lon2 : ℝ) : ℝ :=
  let R : ℝ := 6371000
  let dLat := (lat2 - lat1) * Real.pi / 180
  let dLon := (lon2 - lon1) * Real.pi / 180
  let a := Real.sin (dLat / 2) * Real.sin (dLat / 2) +
    Real.cos (lat1 * Real.pi / 180) * Real.cos (lat2 * Real.pi / 180) *
      Real.sin (dLon / 2) * Real.sin (dLon / 2)
  let c := 2 * atan2 (Real.sqrt a) (Real.sqrt (1 - a))
  R * c

/-- The quantity `a` of `calculateDistance`: the haversine of the central angle. -/
noncomputable def haversineA (lat1 lon1 lat2 lon2 : ℝ) : ℝ :=
  Real.sin ((lat2 - lat1) * Real.pi / 180 / 2) * Real.sin ((lat2 - lat1) * Real.pi / 180 / 2) +
    Real.cos (lat1 * Real.pi / 180) * Real.cos (lat2 * Real.pi / 180) *
      Real.sin ((lon2 - lon1) * Real.pi / 180 / 2) * Real.sin ((lon2 - lon1) * Real.pi / 180 / 2)

/-! ## Concrete inputs -/

/-- A taxicab distance in metres on rational coordinates, used to run the
definitions on concrete inputs (the theorems hold for every distance function). -/
def flatDistance (lat1 lon1 lat2 lon2 : ℚ) : ℚ :=
  111000 * ((if lat1 ≤ lat2 then lat2 - lat1 else lat1 - lat2)
    + (if lon1 ≤ lon2 then lon2 - lon1 else lon1 - lon2))

/-- A fix of asset `e` at minute `m` with the given position and speed. -/
def fixAt (e : String) (m : Int) (lat lon speed : ℚ) : Fix ℚ :=
  { EquipmentId := some e, latitude := lat, longitude := lon, speed := speed
    eventGeneratedTime := m * 60000, timestamp := m * 60000 }

/-- One asset with the gaps 1, 2, 500 and 3 minutes. -/
def gapsData : List (Fix ℚ) :=
  [fixAt "EQPT-1" 0 10 20 0, fixAt "EQPT-1" 1 10 20 0, fixAt "EQPT-1" 3 10 20 0,
   fixAt "EQPT-1" 503 10 20 0, fixAt "EQPT-1" 506 10 20 0]

/-- The first trip of `gapsData` at threshold 60. -/
def gapsTrip1 : Trip ℚ :=
  mkTrip flatDistance "EQPT-1" 0 1
    [fixAt "EQPT-1" 0 10 20 0, fixAt "EQPT-1" 1 10 20 0, fixAt "EQPT-1" 3 10 20 0]

/-- The second trip of `gapsData` at threshold 60. -/
def gapsTrip2 : Trip ℚ :=
  mkTrip flatDistance "EQPT-1" 0 2 [fixAt "EQPT-1" 503 10 20 0, fixAt "EQPT-1" 506 10 20 0]

/-- The fixes of `gapsData` under the asset id `constructor`. -/
def constructorData : List (Fix ℚ) :=
  [fixAt "constructor" 0 10 20 0, fixAt "constructor" 1 10 20 0,
   fixAt "constructor" 3 10 20 0, fixAt "constructor" 503 10 20 0,
   fixAt "constructor" 506 10 20 0]

/-- One asset whose first fix is cut off by a gap of 100 minutes. -/
def skipData : List (Fix ℚ) :=
  [fixAt "EQPT-1" 0 10 20 0, fixAt "EQPT-1" 100 10 20 0, fixAt "EQPT-1" 101 10 20 0]

/-- The only trip of `skipData` at threshold 60. -/
def skipTrip : Trip ℚ :=
  mkTrip flatDistance "EQPT-1" 0 2 [fixAt "EQPT-1" 100 10 20 0, fixAt "EQPT-1" 101 10 20 0]

/-- The spec's speed example: speeds 0, 0, 0, 20 at a spacing of 2 minutes. -/
def speedTrip : Trip ℚ :=
  mkTrip flatDistance "EQPT-1" 0 1
    [fixAt "EQPT-1" 0 10 20 0, fixAt "EQPT-1" 2 10 20 0, fixAt "EQPT-1" 4 10 20 0,
     fixAt "EQPT-1" 6 10 20 20]

/-- The trip `speedTrip` followed by two fixes at speed 0. -/
def openRunTrip : Trip ℚ :=
  mkTrip flatDistance "EQPT-1" 0 1
    [fixAt "EQPT-1" 0 10 20 0, fixAt "EQPT-1" 2 10 20 0, fixAt "EQPT-1" 4 10 20 0,
     fixAt "EQPT-1" 6 10 20 20, fixAt "EQPT-1" 8 10 20 0, fixAt "EQPT-1" 10 10 20 0]

/-- Speed parameters `maxSpeedKmh = 5`, `minDurationMinutes = 2`. -/
def speedParams : SpeedParams ℚ :=
  { maxSpeedKmh := 5, minDurationMinutes := 2, distanceToleranceMeters := 100 }

/-- Five fixes one minute apart at positions 0.01 degrees of latitude apart
(more than a kilometre). -/
def spreadTrip : Trip ℚ :=
  mkTrip flatDistance "EQPT-1" 0 1
    [fixAt "EQPT-1" 0 10 20 0, fixAt "EQPT-1" 1 (1001 / 100) 20 0,
     fixAt "EQPT-1" 2 (1002 / 100) 20 0, fixAt "EQPT-1" 3 (1003 / 100) 20 0,
     fixAt "EQPT-1" 4 (1004 / 100) 20 0]

/-- Clustering parameters `clusterRadiusMeters = 150`, `minPointsInCluster = 3`,
`minDurationMinutes = 3`. -/
def clusteringParams : ClusteringParams ℚ :=
  { clusterRadiusMeters := 150, minPointsInCluster := 3, minDurationMinutes := 3 }

/-- A fix at latitude 60 and the given longitude at minute `m`. -/
noncomputable def fixAt60 (m : Int) (lon : ℝ) : Fix ℝ :=
  { EquipmentId := some "EQPT-1", latitude := 60, longitude := lon, speed := 0
    eventGeneratedTime := m * 60000, timestamp := m * 60000 }

/-- Five fixes one minute apart that alternate between longitude 179.99999 and
longitude -179.99999 at latitude 60: about 1.1 m on either side of the
antimeridian. -/
noncomputable def antimeridianPoints : List (Fix ℝ) :=
  [fixAt60 0 (17999999 / 100000), fixAt60 1 (-(17999999 / 100000)),
   fixAt60 2 (17999999 / 100000), fixAt60 3 (-(17999999 / 100000)),
   fixAt60 4 (17999999 / 100000)]

/-- The trip of `antimeridianPoints`. -/
noncomputable def antimeridianTrip : Trip ℝ :=
  mkTrip calculateDistance "EQPT-1" 0 1 antimeridianPoints

/-- Clustering parameters `clusterRadiusMeters = 150`, `minPointsInCluster = 3`,
`minDurationMinutes = 3` over the reals. -/
noncomputable def clusteringParamsReal : ClusteringParams ℝ :=
  { clusterRadiusMeters := 150, minPointsInCluster := 3, minDurationMinutes := 3 }


/-- Five fixes one minute apart at latitude 60 whose longitude alternates between
10 and 10.00001 degrees (about half a metre). -/
noncomputable def closeTrip : Trip ℝ :=
  mkTrip calculateDistance "EQPT-1" 0 1
    [fixAt60 0 10, fixAt60 1 (1000001 / 100000), fixAt60 2 10,
     fixAt60 3 (1000001 / 100000), fixAt60 4 10]


/-- A candidate with the given id, label, start and end minute, position and
confidence. -/
def candidateAt (id algorithm : String) (startMinute endMinute : Int) (lat lon confidence : ℚ) :
    Stoppage ℚ :=
  { id := id, algorithm := algorithm, startTime := startMinute * 60000
    endTime := endMinute * 60000, duration := ((endMinute - startMinute : Int) : ℚ)
    latitude := lat, longitude := lon, confidence := confidence, type := "Time Gap" }

/-- Three candidates at one place within a few minutes and one a degree of
latitude away. -/
def mergeInput : List (Stoppage ℚ) :=
  [candidateAt "a" "Time-Gap" 0 10 10 20 (1 / 2), candidateAt "b" "Speed-Based" 1 12 10 20 (3 / 4),
   candidateAt "c" "Location Clustering" 0 10 11 20 1, candidateAt "d" "Time-Gap" 2 5 10 20 (1 / 4)]

/-- The result of merging `mergeInput`. -/
def mergeOutput : List (Stoppage ℚ) :=
  [{ id := "merged_0", algorithm := "Time-Gap + Speed-Based", startTime := 0
     endTime := 720000, duration := 12, latitude := 10, longitude := 20
     confidence := 3 / 4, type := "Merged" },
   candidateAt "c" "Location Clustering" 0 10 11 20 1]


/-- The parameters the constructor sets. -/
def defaultParameters : Parameters ℚ :=
  { tripSegmentationThreshold := 60
    timeGap := { minGapMinutes := 5, maxDistanceMeters := 500 }
    speed := { maxSpeedKmh := 5, minDurationMinutes := 2, distanceToleranceMeters := 100 }
    clustering := { clusterRadiusMeters := 150, minPointsInCluster := 3, minDurationMinutes := 3 }
    hybrid := { speedWeight := 4 / 10, timeWeight := 3 / 10, locationWeight := 3 / 10
                confidenceThreshold := 6 / 10 } }

/-- A row of the CSV text of `loadSampleData` as `parseCSV` stores it: the columns
of the data model, `timestamp` being the date of `eventGeneratedTime`. -/
noncomputable def sampleRow (id : String) (lat lon speed : ℝ) (t : Int) : Fix ℝ :=
  { EquipmentId := some id, latitude := lat, longitude := lon, speed := speed
    eventGeneratedTime := t, timestamp := t }

/-- The rows of asset `EQPT-4` in the CSV text of `loadSampleData`. -/
noncomputable def sampleRows4 : List (Fix ℝ) :=
  [sampleRow "EQPT-4" 12.9294916 74.9173533 0 1716229815000,
   sampleRow "EQPT-4" 12.92936 74.91744 0 1716230000000,
   sampleRow "EQPT-4" 12.9292766 74.9175266 8 1716230120000,
   sampleRow "EQPT-4" 12.9290049 74.9177016 7 1716230180000,
   sampleRow "EQPT-4" 12.928745 74.9176766 0 1716230240000,
   sampleRow "EQPT-4" 12.9287266 74.9176866 0 1716230900000]

/-- The rows of asset `EQPT-5` in the CSV text of `loadSampleData`. -/
noncomputable def sampleRows5 : List (Fix ℝ) :=
  [sampleRow "EQPT-5" 12.93934 74.9179483 21 1716233423000,
   sampleRow "EQPT-5" 12.9300266 74.9180133 31 1716233456000,
   sampleRow "EQPT-5" 12.9319216 74.9181999 0 1716233567000,
   sampleRow "EQPT-5" 12.933585 74.9183883 0 1716234200000]

/-- The rows of asset `EQPT-6` in the CSV text of `loadSampleData`. -/
noncomputable def sampleRows6 : List (Fix ℝ) :=
  [sampleRow "EQPT-6" 12.9451433 74.9443549 7 1716320234000,
   sampleRow "EQPT-6" 12.9454033 74.9335716 0 1716320567000,
   sampleRow "EQPT-6" 12.9454349 74.93355 0 1716322000000,
   sampleRow "EQPT-6" 12.9455016 74.9335033 6 1716322234000]

/-- The fourteen rows of the CSV text of `loadSampleData`, in file order. -/
noncomputable def sampleData : List (Fix ℝ) :=
  sampleRows4 ++ sampleRows5 ++ sampleRows6

/-- The trip of asset `EQPT-4` in the sample data. -/
noncomputable def sampleTrip4 : Trip ℝ :=
  mkTrip calculateDistance "EQPT-4" 0 1 sampleRows4

/-- The trip of asset `EQPT-5` in the sample data. -/
noncomputable def sampleTrip5 : Trip ℝ :=
  mkTrip calculateDistance "EQPT-5" 1 1 sampleRows5

/-- The trip of asset `EQPT-6` in the sample data. -/
noncomputable def sampleTrip6 : Trip ℝ :=
  mkTrip calculateDistance "EQPT-6" 2 1 sampleRows6

/-- The Time-Gap parameters `minGapMinutes = 5`, `maxDistanceMeters = 500`. -/
noncomputable def sampleTimeGapParams : TimeGapParams ℝ :=
  { minGapMinutes := 5, maxDistanceMeters := 500 }

/-- Two fixes of one asset at the same place, 20 minutes apart, at speed 0. -/
def haltTrip : Trip ℚ :=
  mkTrip flatDistance "EQPT-1" 0 1 [fixAt "EQPT-1" 0 10 20 0, fixAt "EQPT-1" 20 10 20 0]

/-- Clustering parameters with `clusterRadiusMeters = 0`, `minPointsInCluster = 2`
and `minDurationMinutes = 3`. -/
noncomputable def zeroRadiusParams : ClusteringParams ℝ :=
  { clusterRadiusMeters := 0, minPointsInCluster := 2, minDurationMinutes := 3 }

/-- Clustering parameters with `clusterRadiusMeters = -1`, `minPointsInCluster = 2`
and `minDurationMinutes = 3`. -/
noncomputable def negativeRadiusParams : ClusteringParams ℝ :=
  { clusterRadiusMeters := -1, minPointsInCluster := 2, minDurationMinutes := 3 }

/-- Two fixes five minutes apart at the same position. -/
noncomputable def standstillTrip : Trip ℝ :=
  mkTrip calculateDistance "EQPT-1" 0 1 [fixAt60 0 10, fixAt60 5 10]

/-- The only trip of `gapsData` at threshold 1: its first two fixes. -/
def gapsTripShort : Trip ℚ :=
  mkTrip flatDistance "EQPT-1" 0 1 [fixAt "EQPT-1" 0 10 20 0, fixAt "EQPT-1" 1 10 20 0]

/-- Fixes of two assets interleaved in time: `EQPT-1` at minutes 0 and 2 at one
place, `EQPT-2` at minute 1 one degree of latitude away. -/
def interleavedData : List (Fix ℚ) :=
  [fixAt "EQPT-1" 0 10 20 0, fixAt "EQPT-2" 1 11 20 0, fixAt "EQPT-1" 2 10 20 0]

end StoppageDetector

/-! # Theorems -/

namespace StoppageDetector

/-! ## Sorting by time -/

theorem sortByTime_sorted {α : Type} (group : List (Fix α)) : List.Sorted timeLE (sortByTime group) := by
  haveI : IsTotal (Fix α) timeLE :=
    ⟨fun a b => le_total a.eventGeneratedTime b.eventGeneratedTime⟩
  haveI : IsTrans (Fix α) timeLE :=
    ⟨fun a b c (h1 : a.eventGeneratedTime ≤ b.eventGeneratedTime)
      (h2 : b.eventGeneratedTime ≤ c.eventGeneratedTime) => le_trans h1 h2⟩
  exact List.sorted_insertionSort timeLE group

theorem sortByTime_perm {α : Type} (group : List (Fix α)) : (sortByTime group).Perm group :=
  List.perm_insertionSort timeLE group

/-! ## Keys of the grouping object and run numbers -/

theorem mem_insertionKeys (l : List String) (x : String) : x ∈ insertionKeys l ↔ x ∈ l := by
  induction l with
  | nil => simp [insertionKeys]
  | cons k ks ih =>
    simp only [insertionKeys, List.mem_cons, List.mem_filter, ih, decide_eq_true_eq]
    constructor
    · rintro (h | ⟨h, _⟩)
      · exact Or.inl h
      · exact Or.inr h
    · intro h
      by_cases hx : x = k
      · exact Or.inl hx
      · rcases h with h | h
        · exact absurd h hx
        · exact Or.inr ⟨h, hx⟩

theorem nodup_insertionKeys (l : List String) : (insertionKeys l).Nodup := by
  induction l with
  | nil => simp [insertionKeys]
  | cons k ks ih =>
    simp only [insertionKeys, List.nodup_cons, List.mem_filter, decide_eq_true_eq]
    exact ⟨fun h => h.2 rfl, ih.filter _⟩

theorem objectKeys_perm (keys : List String) : (objectKeys keys).Perm keys := by
  unfold objectKeys
  refine List.Perm.trans (List.Perm.append_right _ (List.perm_insertionSort _ _)) ?_
  exact List.filter_append_perm _ keys

theorem runNumbers_bounds {α : Type} (runs : List (List (Fix α))) :
    ∀ n, (runNumbers n runs).Sorted (· < ·) ∧ ∀ k ∈ runNumbers n runs, n ≤ k := by
  induction runs with
  | nil => intro n; simp [runNumbers]
  | cons run runs ih =>
    intro n
    obtain ⟨h1, h2⟩ := ih (n + 1)
    simp only [runNumbers]
    split_ifs
    · refine ⟨?_, ?_⟩
      · simp only [List.singleton_append, List.sorted_cons]
        exact ⟨fun b hb => h2 b hb, h1⟩
      · intro k hk
        simp only [List.singleton_append, List.mem_cons] at hk
        rcases hk with rfl | hk
        · exact le_refl _
        · exact Nat.le_of_succ_le (h2 k hk)
    · simp only [List.nil_append]
      exact ⟨h1, fun k hk => Nat.le_of_succ_le (h2 k hk)⟩


theorem insertionKeys_const (e : String) (l : List String) (hne : l ≠ [])
    (h : ∀ x ∈ l, x = e) : insertionKeys l = [e] := by
  induction l with
  | nil => exact absurd rfl hne
  | cons k ks _ =>
    have hk : k = e := h k (List.mem_cons_self _ _)
    subst hk
    simp only [insertionKeys, List.cons.injEq, true_and, List.filter_eq_nil_iff]
    intro x hx
    rw [mem_insertionKeys] at hx
    simp [h x (List.mem_cons_of_mem _ hx)]

theorem objectKeys_singleton (e : String) : objectKeys [e] = [e] := by
  unfold objectKeys
  cases h : arrayIndex? e <;> simp [h]

theorem sorted_head_le {α : Type} (a : Fix α) (l : List (Fix α)) (h : (a :: l).Sorted timeLE) :
    ∀ x ∈ a :: l, a.eventGeneratedTime ≤ x.eventGeneratedTime := by
  intro x hx
  rcases List.mem_cons.mp hx with rfl | hx
  · exact le_refl _
  · exact List.rel_of_sorted_cons h x hx

theorem sorted_le_getLast {α : Type} (l : List (Fix α)) (h : l.Sorted timeLE) :
    ∀ last ∈ l.getLast?, ∀ x ∈ l, x.eventGeneratedTime ≤ last.eventGeneratedTime := by
  induction l with
  | nil => intro last hl; simp at hl
  | cons a l ih =>
    intro last hl x hx
    cases l with
    | nil =>
      simp only [List.getLast?_singleton, Option.mem_def, Option.some.injEq] at hl
      simp only [List.mem_singleton] at hx
      subst hl; subst hx; exact le_refl _
    | cons b l =>
      rw [List.getLast?_cons_cons] at hl
      have hlast_mem : last ∈ b :: l := List.mem_of_mem_getLast? hl
      rcases List.mem_cons.mp hx with rfl | hx
      · exact List.rel_of_sorted_cons h last hlast_mem
      · exact ih (List.Sorted.of_cons h) last hl x hx

/-! ## Sets, minima and maxima of the merge -/

theorem setToArray_loop (xs : List String) :
    ∀ (set : List String),
      xs.foldl (fun set x => if x ∈ set then set else set ++ [x]) set
        = set ++ (distinctInOrder xs).filter (fun y => decide (y ∉ set)) := by
  induction xs with
  | nil => intro set; simp [distinctInOrder]
  | cons x xs ih =>
    intro set
    rw [List.foldl_cons, ih]
    by_cases hx : x ∈ set
    · simp only [hx, if_true, distinctInOrder, List.filter_cons, not_true_eq_false,
        decide_False, Bool.false_eq_true, if_false, List.filter_filter]
      congr 1
      apply List.filter_congr
      intro y _
      by_cases hy : y ∈ set
      · simp [hy]
      · have : y ≠ x := fun h => hy (h ▸ hx)
        simp [hy, this]
    · simp only [hx, if_false, distinctInOrder, List.filter_cons, not_false_eq_true,
        decide_True, if_true, List.filter_filter, List.append_assoc, List.singleton_append]
      congr 2
      apply List.filter_congr
      intro y _
      by_cases hy : y ∈ set
      · simp [hy]
      · by_cases hyx : y = x
        · simp [hyx]
        · simp [hy, hyx]

/-- `[...new Set(xs)]` lists the distinct elements in first-occurrence order. -/
theorem setToArray_eq_distinctInOrder (xs : List String) :
    setToArray xs = distinctInOrder xs := by
  unfold setToArray
  rw [setToArray_loop]
  simp

theorem foldl_min_spec (xs : List Int) :
    ∀ (x : Int), (xs.foldl min x ∈ x :: xs) ∧ ∀ y ∈ x :: xs, xs.foldl min x ≤ y := by
  induction xs with
  | nil => intro x; simp
  | cons z xs ih =>
    intro x
    obtain ⟨h1, h2⟩ := ih (min x z)
    rw [List.foldl_cons]
    constructor
    · rcases List.mem_cons.mp h1 with h | h
      · rw [h]
        rcases min_choice x z with hm | hm <;> rw [hm] <;> simp
      · exact List.mem_cons_of_mem _ (List.mem_cons_of_mem _ h)
    · intro y hy
      have hmin := h2 (min x z) (List.mem_cons_self _ _)
      rcases List.mem_cons.mp hy with rfl | hy
      · exact le_trans hmin (min_le_left _ _)
      · rcases List.mem_cons.mp hy with rfl | hy
        · exact le_trans hmin (min_le_right _ _)
        · exact h2 y (List.mem_cons_of_mem _ hy)

theorem foldl_max_spec {β : Type} [LinearOrder β] (xs : List β) :
    ∀ (x : β), (xs.foldl max x ∈ x :: xs) ∧ ∀ y ∈ x :: xs, y ≤ xs.foldl max x := by
  induction xs with
  | nil => intro x; simp
  | cons z xs ih =>
    intro x
    obtain ⟨h1, h2⟩ := ih (max x z)
    rw [List.foldl_cons]
    constructor
    · rcases List.mem_cons.mp h1 with h | h
      · rw [h]
        rcases max_choice x z with hm | hm <;> rw [hm] <;> simp
      · exact List.mem_cons_of_mem _ (List.mem_cons_of_mem _ h)
    · intro y hy
      have hmax := h2 (max x z) (List.mem_cons_self _ _)
      rcases List.mem_cons.mp hy with rfl | hy
      · exact le_trans (le_max_left _ _) hmax
      · rcases List.mem_cons.mp hy with rfl | hy
        · exact le_trans (le_max_right _ _) hmax
        · exact h2 y (List.mem_cons_of_mem _ hy)

/-- `Math.min` of a non-empty array is its least element. -/
theorem mathMin_spec (xs : List Int) (hne : xs ≠ []) :
    mathMin xs ∈ xs ∧ ∀ y ∈ xs, mathMin xs ≤ y := by
  cases xs with
  | nil => exact absurd rfl hne
  | cons x xs => exact foldl_min_spec xs x

/-- `Math.max` of a non-empty array of times is its greatest element. -/
theorem mathMax_spec (xs : List Int) (hne : xs ≠ []) :
    mathMax xs ∈ xs ∧ ∀ y ∈ xs, y ≤ mathMax xs := by
  cases xs with
  | nil => exact absurd rfl hne
  | cons x xs => exact foldl_max_spec xs x

/-! ## Candidates that are in no group yet -/

theorem unprocessed_append_lt {α : Type} (processed : List Nat) (i : Nat) (rest : List (Stoppage α)) :
    ∀ k, i < k → unprocessed (processed ++ [i]) k rest = unprocessed processed k rest := by
  induction rest with
  | nil => intro _ _; rfl
  | cons s rest ih =>
    intro k hk
    have hne : k ≠ i := Nat.ne_of_gt hk
    simp only [unprocessed, List.mem_append, List.mem_singleton, hne, or_false]
    rw [ih (k + 1) (Nat.lt_succ_of_lt hk)]

theorem unprocessed_nil {α : Type} (rest : List (Stoppage α)) :
    ∀ k, unprocessed ([] : List Nat) k rest = rest := by
  induction rest with
  | nil => intro _; rfl
  | cons s rest ih => intro k; simp [unprocessed, ih]


/-! ## The previous fix of the same asset -/

theorem previousOfSameAsset_last {α : Type} (before : List (Fix α)) (prev point : Fix α) :
    previousOfSameAsset (before ++ [prev]) point = some prev
      ↔ equipIdOf prev = equipIdOf point := by
  unfold previousOfSameAsset
  constructor
  · intro h
    have hmem := List.mem_of_getLast?_eq_some h
    simpa using (List.mem_filter.mp hmem).2
  · intro h
    rw [List.filter_append]
    simp [List.filter_cons, h]


section CoreTheorems

variable {α : Type} [LinearOrderedField α]

/-! ## Trip segmentation -/

theorem segmentStep_split (dist : α → α → α → α → α) (threshold : α) (equipId : String)
    (equipIndex : Nat) (st : SegState α) (prev point : Fix α)
    (h : threshold < minutesBetween prev point) :
    segmentStep dist threshold equipId equipIndex st prev point =
      { currentTrip := [point]
        tripCounter := st.tripCounter + 1
        trips :=
          if 1 < st.currentTrip.length then
            st.trips ++ [mkTrip dist equipId equipIndex st.tripCounter st.currentTrip]
          else st.trips } := by
  simp [segmentStep, h]

theorem segmentStep_keep (dist : α → α → α → α → α) (threshold : α) (equipId : String)
    (equipIndex : Nat) (st : SegState α) (prev point : Fix α)
    (h : ¬ threshold < minutesBetween prev point) :
    segmentStep dist threshold equipId equipIndex st prev point =
      { currentTrip := st.currentTrip ++ [point]
        tripCounter := st.tripCounter
        trips := st.trips } := by
  simp [segmentStep, h]

theorem segmentWalk_tripOK (dist : α → α → α → α → α) (threshold : α) (equipId : String)
    (equipIndex : Nat) (rest : List (Fix α)) :
    ∀ (st : SegState α) (prev : Fix α),
      (∀ t ∈ st.trips, TripOK threshold t) →
      (∀ p ∈ st.currentTrip, equipIdOf p = equipId) →
      st.currentTrip.Chain' (fun a b => timeLE a b ∧ minutesBetween a b ≤ threshold) →
      st.currentTrip.getLast? = some prev →
      (∀ p ∈ rest, equipIdOf p = equipId) →
      List.Chain timeLE prev rest →
      (∀ t ∈ (segmentWalk dist threshold equipId equipIndex st prev rest).trips,
          TripOK threshold t) ∧
      (∀ p ∈ (segmentWalk dist threshold equipId equipIndex st prev rest).currentTrip,
          equipIdOf p = equipId) ∧
      (segmentWalk dist threshold equipId equipIndex st prev rest).currentTrip.Chain'
        (fun a b => timeLE a b ∧ minutesBetween a b ≤ threshold) := by
  induction rest with
  | nil => intro st prev h1 h2 h3 _ _ _; exact ⟨h1, h2, h3⟩
  | cons point rest ih =>
    intro st prev h1 h2 h3 h4 h5 h6
    rw [List.chain_cons] at h6
    have hp : equipIdOf point = equipId := h5 point (List.mem_cons_self _ _)
    have hrest : ∀ p ∈ rest, equipIdOf p = equipId :=
      fun p hp => h5 p (List.mem_cons_of_mem _ hp)
    simp only [segmentWalk]
    by_cases hgap : threshold < minutesBetween prev point
    · rw [segmentStep_split dist threshold equipId equipIndex st prev point hgap]
      refine ih _ point ?_ ?_ (List.chain'_singleton _) rfl hrest h6.2
      · intro t ht
        by_cases hlen : 1 < st.currentTrip.length
        · simp only [hlen, if_true, List.mem_append, List.mem_singleton] at ht
          rcases ht with ht | rfl
          · exact h1 t ht
          · exact ⟨hlen, h2, h3⟩
        · simp only [hlen, if_false] at ht
          exact h1 t ht
      · intro p hpm
        simp only [List.mem_singleton] at hpm
        rw [hpm]; exact hp
    · rw [segmentStep_keep dist threshold equipId equipIndex st prev point hgap]
      refine ih _ point h1 ?_ ?_ ?_ hrest h6.2
      · intro p hpm
        simp only [List.mem_append, List.mem_singleton] at hpm
        rcases hpm with hpm | rfl
        · exact h2 p hpm
        · exact hp
      · refine List.Chain'.append h3 (List.chain'_singleton _) ?_
        intro x hx y hy
        rw [h4] at hx
        simp only [Option.mem_def, Option.some.injEq, List.head?_cons] at hx hy
        subst hx; subst hy
        exact ⟨h6.1, not_lt.mp hgap⟩
      · simp

theorem segmentGroup_tripOK (dist : α → α → α → α → α) (threshold : α) (equipId : String)
    (equipIndex : Nat) (group : List (Fix α)) (hg : ∀ p ∈ group, equipIdOf p = equipId) :
    ∀ t ∈ segmentGroup dist threshold equipId equipIndex group, TripOK threshold t := by
  have hsorted : List.Sorted timeLE (sortByTime group) := sortByTime_sorted group
  have hmem : ∀ p ∈ sortByTime group, equipIdOf p = equipId := fun p hp =>
    hg p ((sortByTime_perm group).mem_iff.mp hp)
  unfold segmentGroup
  cases hs : sortByTime group with
  | nil => intro t ht; simp at ht
  | cons first rest =>
    rw [hs] at hsorted hmem
    have hchain : List.Chain timeLE first rest := List.Pairwise.chain hsorted
    obtain ⟨k1, k2, k3⟩ := segmentWalk_tripOK dist threshold equipId equipIndex rest
      { currentTrip := [first], tripCounter := 1, trips := [] } first
      (by intro t ht; simp at ht)
      (by
        intro p hp
        simp only [List.mem_singleton] at hp
        rw [hp]; exact hmem first (List.mem_cons_self _ _))
      (List.chain'_singleton _) rfl
      (fun p hp => hmem p (List.mem_cons_of_mem _ hp)) hchain
    intro t ht
    simp only at ht
    split_ifs at ht with hlen
    · simp only [List.mem_append, List.mem_singleton] at ht
      rcases ht with ht | rfl
      · exact k1 t ht
      · exact ⟨hlen, k2, k3⟩
    · exact k1 t ht

theorem segmentGroups_tripOK (dist : α → α → α → α → α) (threshold : α)
    (gpsData : List (Fix α)) (keys : List String) :
    ∀ (equipIndex : Nat), ∀ t ∈ segmentGroups dist threshold gpsData equipIndex keys,
      TripOK threshold t := by
  induction keys with
  | nil => intro _ t ht; simp [segmentGroups] at ht
  | cons k keys ih =>
    intro equipIndex t ht
    simp only [segmentGroups, List.mem_append] at ht
    rcases ht with ht | ht
    · refine segmentGroup_tripOK dist threshold k equipIndex _ ?_ t ht
      intro p hp
      simpa [equipmentGroup] using (List.mem_filter.mp hp).2
    · exact ih _ t ht

theorem segmentTrips_tripOK (dist : α → α → α → α → α) (threshold : α)
    (gpsData : List (Fix α)) (trips : List (Trip α))
    (h : segmentTrips dist threshold gpsData = some trips) :
    ∀ t ∈ trips, TripOK threshold t := by
  unfold segmentTrips at h
  split_ifs at h
  simp only [Option.some.injEq] at h
  subst h
  exact segmentGroups_tripOK dist threshold gpsData _ 0

/-- The grouping loop throws exactly when some fix carries an id that names a
property of `Object.prototype`; otherwise `segmentTrips` returns. -/
theorem segmentTrips_eq_none_iff (dist : α → α → α → α → α) (threshold : α)
    (gpsData : List (Fix α)) :
    segmentTrips dist threshold gpsData = none ↔
      ∃ p ∈ gpsData, equipIdOf p ∈ objectPrototypeKeys := by
  unfold segmentTrips
  split_ifs with h
  · simp only [true_iff]
    simpa using h
  · simp only [false_iff, reduceCtorEq]
    simpa using h

/-- C1: every trip returned by `segmentTrips`, for every list of fixes and every
threshold, holds at least 2 fixes. -/
theorem segmentTrips_trip_has_two_fixes (dist : α → α → α → α → α) (threshold : α)
    (gpsData : List (Fix α)) (trips : List (Trip α))
    (h : segmentTrips dist threshold gpsData = some trips) :
    ∀ t ∈ trips, 2 ≤ t.points.length :=
  fun t ht => (segmentTrips_tripOK dist threshold gpsData trips h t ht).1

/-- C2: in every trip returned by `segmentTrips` all fixes carry the trip's asset
id, the timestamps are non-decreasing, and every gap between consecutive fixes is
at most the threshold (in minutes). -/
theorem segmentTrips_trip_one_asset_sorted_small_gaps (dist : α → α → α → α → α)
    (threshold : α) (gpsData : List (Fix α)) (trips : List (Trip α))
    (h : segmentTrips dist threshold gpsData = some trips) :
    ∀ t ∈ trips,
      (∀ p ∈ t.points, equipIdOf p = t.equipmentId) ∧
      t.points.Pairwise (fun a b => a.eventGeneratedTime ≤ b.eventGeneratedTime) ∧
      t.points.Chain' (fun a b => minutesBetween a b ≤ threshold) := by
  intro t ht
  obtain ⟨_, h2, h3⟩ := segmentTrips_tripOK dist threshold gpsData trips h t ht
  refine ⟨h2, ?_, h3.imp (fun _ _ hab => hab.2)⟩
  have h4 : t.points.Chain' (fun a b => a.eventGeneratedTime ≤ b.eventGeneratedTime) :=
    h3.imp (fun _ _ hab => hab.1)
  haveI : IsTrans (Fix α) (fun a b => a.eventGeneratedTime ≤ b.eventGeneratedTime) :=
    ⟨fun _ _ _ h1 h2 => le_trans h1 h2⟩
  exact List.chain'_iff_pairwise.mp h4

/-! ### The runs of a list of fixes -/

theorem contRuns_join (threshold : α) (rest : List (Fix α)) :
    ∀ prev, (contRuns threshold prev rest).1 ++ (contRuns threshold prev rest).2.flatten = rest := by
  induction rest with
  | nil => intro _; rfl
  | cons q rest ih =>
    intro prev
    simp only [contRuns]
    split_ifs
    · simpa using ih q
    · simpa using ih q

/-- The runs, put end to end, are the list that was split. -/
theorem splitRuns_join (threshold : α) (l : List (Fix α)) :
    (splitRuns threshold l).flatten = l := by
  cases l with
  | nil => rfl
  | cons p rest => simpa [splitRuns] using contRuns_join threshold rest p

theorem contRuns_chain (threshold : α) (rest : List (Fix α)) :
    ∀ prev, List.Chain (fun a b => minutesBetween a b ≤ threshold) prev
        (contRuns threshold prev rest).1 ∧
      ∀ run ∈ (contRuns threshold prev rest).2,
        run ≠ [] ∧ run.Chain' (fun a b => minutesBetween a b ≤ threshold) := by
  induction rest with
  | nil => intro _; simp [contRuns]
  | cons q rest ih =>
    intro prev
    obtain ⟨h1, h2⟩ := ih q
    simp only [contRuns]
    split_ifs with hgap
    · refine ⟨List.Chain.nil, ?_⟩
      intro run hrun
      simp only [List.mem_cons] at hrun
      rcases hrun with rfl | hrun
      · exact ⟨List.cons_ne_nil _ _, h1⟩
      · exact h2 run hrun
    · exact ⟨List.Chain.cons (not_lt.mp hgap) h1, h2⟩

/-- Every run is non-empty and has no inner gap above the threshold. -/
theorem splitRuns_chain (threshold : α) (l : List (Fix α)) :
    ∀ run ∈ splitRuns threshold l,
      run ≠ [] ∧ run.Chain' (fun a b => minutesBetween a b ≤ threshold) := by
  cases l with
  | nil => intro run hrun; simp [splitRuns] at hrun
  | cons p rest =>
    intro run hrun
    obtain ⟨h1, h2⟩ := contRuns_chain threshold rest p
    simp only [splitRuns, List.mem_cons] at hrun
    rcases hrun with rfl | hrun
    · exact ⟨List.cons_ne_nil _ _, h1⟩
    · exact h2 run hrun

/-- Between one run and the next the gap is above the threshold. -/
theorem contRuns_boundaries (threshold : α) (rest : List (Fix α)) :
    ∀ prev, List.Chain' (fun r s => ∀ a ∈ r.getLast?, ∀ b ∈ s.head?,
        threshold < minutesBetween a b)
      ((prev :: (contRuns threshold prev rest).1) :: (contRuns threshold prev rest).2) := by
  induction rest with
  | nil => intro _; simp [contRuns]
  | cons q rest ih =>
    intro prev
    have h := ih q
    simp only [contRuns]
    split_ifs with hgap
    · refine List.Chain'.cons ?_ h
      intro a ha b hb
      simp only [List.getLast?_singleton, List.head?_cons, Option.mem_def,
        Option.some.injEq] at ha hb
      subst ha; subst hb; exact hgap
    · cases hr : (contRuns threshold q rest).2 with
      | nil => exact List.chain'_singleton _
      | cons s ss =>
        rw [hr] at h
        rw [List.chain'_cons] at h ⊢
        refine ⟨?_, h.2⟩
        intro a ha b hb
        apply h.1 a _ b hb
        rw [List.getLast?_cons_cons] at ha
        exact ha

/-- The list of runs is cut exactly at the gaps above the threshold. -/
theorem splitRuns_boundaries (threshold : α) (l : List (Fix α)) :
    (splitRuns threshold l).Chain' (fun r s => ∀ a ∈ r.getLast?, ∀ b ∈ s.head?,
      threshold < minutesBetween a b) := by
  cases l with
  | nil => exact List.chain'_nil
  | cons p rest => exact contRuns_boundaries threshold rest p

/-! ### The walk emits the runs of two fixes or more -/

theorem segmentWalk_runs (dist : α → α → α → α → α) (threshold : α) (equipId : String)
    (equipIndex : Nat) (rest : List (Fix α)) :
    ∀ (st : SegState α) (prev : Fix α),
      finishWalk dist equipId equipIndex (segmentWalk dist threshold equipId equipIndex st prev rest) =
        st.trips ++ emitRuns dist equipId equipIndex st.tripCounter
          ((st.currentTrip ++ (contRuns threshold prev rest).1) :: (contRuns threshold prev rest).2) := by
  induction rest with
  | nil =>
    intro st prev
    simp only [segmentWalk, contRuns, emitRuns, finishWalk, List.append_nil]
    split_ifs <;> simp
  | cons q rest ih =>
    intro st prev
    simp only [segmentWalk]
    rw [ih]
    by_cases hgap : threshold < minutesBetween prev q
    · rw [segmentStep_split dist threshold equipId equipIndex st prev q hgap]
      simp only [contRuns, hgap, if_true, emitRuns, List.append_nil, List.singleton_append]
      split_ifs <;> simp
    · rw [segmentStep_keep dist threshold equipId equipIndex st prev q hgap]
      simp only [contRuns, hgap, if_false, emitRuns, List.append_assoc, List.singleton_append]

theorem segmentGroup_eq_emitRuns (dist : α → α → α → α → α) (threshold : α) (equipId : String)
    (equipIndex : Nat) (group : List (Fix α)) :
    segmentGroup dist threshold equipId equipIndex group =
      emitRuns dist equipId equipIndex 1 (splitRuns threshold (sortByTime group)) := by
  unfold segmentGroup
  cases hs : sortByTime group with
  | nil => simp [splitRuns, emitRuns]
  | cons first rest =>
    have := segmentWalk_runs dist threshold equipId equipIndex rest
      { currentTrip := [first], tripCounter := 1, trips := [] } first
    simp only [finishWalk, List.nil_append, List.singleton_append] at this
    simp only [splitRuns]
    exact this

theorem emitRuns_tripNumber (dist : α → α → α → α → α) (equipId : String) (equipIndex : Nat)
    (runs : List (List (Fix α))) :
    ∀ n, (emitRuns dist equipId equipIndex n runs).map (fun t => t.tripNumber)
      = runNumbers n runs := by
  induction runs with
  | nil => intro n; rfl
  | cons run runs ih =>
    intro n
    simp only [emitRuns, runNumbers, List.map_append, ih]
    split_ifs <;> simp [mkTrip]

theorem emitRuns_equipmentId (dist : α → α → α → α → α) (equipId : String) (equipIndex : Nat)
    (runs : List (List (Fix α))) :
    ∀ n, ∀ t ∈ emitRuns dist equipId equipIndex n runs, t.equipmentId = equipId := by
  induction runs with
  | nil => intro n t ht; simp [emitRuns] at ht
  | cons run runs ih =>
    intro n t ht
    simp only [emitRuns, List.mem_append] at ht
    rcases ht with ht | ht
    · split_ifs at ht
      · simp only [List.mem_singleton] at ht
        rw [ht]; rfl
      · simp at ht
    · exact ih _ t ht

theorem segmentGroups_numbers (dist : α → α → α → α → α) (threshold : α)
    (gpsData : List (Fix α)) (e : String) (keys : List String) (hk : keys.Nodup) :
    ∀ (equipIndex : Nat),
      ((segmentGroups dist threshold gpsData equipIndex keys).filter
          (fun t => decide (t.equipmentId = e))).map (fun t => t.tripNumber)
        = if e ∈ keys then
            runNumbers 1 (splitRuns threshold (sortByTime (equipmentGroup gpsData e)))
          else [] := by
  induction keys with
  | nil => intro _; simp [segmentGroups]
  | cons k keys ih =>
    intro equipIndex
    rw [List.nodup_cons] at hk
    simp only [segmentGroups, List.filter_append, List.map_append, ih hk.2]
    rw [segmentGroup_eq_emitRuns]
    by_cases hek : k = e
    · subst hek
      have hall : (emitRuns dist k equipIndex 1
          (splitRuns threshold (sortByTime (equipmentGroup gpsData k)))).filter
            (fun t => decide (t.equipmentId = k))
          = emitRuns dist k equipIndex 1
              (splitRuns threshold (sortByTime (equipmentGroup gpsData k))) := by
        rw [List.filter_eq_self]
        intro t ht
        simpa using emitRuns_equipmentId dist k equipIndex _ 1 t ht
      rw [hall, emitRuns_tripNumber]
      simp [hk.1]
    · have hnone : (emitRuns dist k equipIndex 1
          (splitRuns threshold (sortByTime (equipmentGroup gpsData k)))).filter
            (fun t => decide (t.equipmentId = e)) = [] := by
        rw [List.filter_eq_nil_iff]
        intro t ht
        have := emitRuns_equipmentId dist k equipIndex _ 1 t ht
        simp [this, hek]
      rw [hnone]
      have : (e ∈ k :: keys) ↔ e ∈ keys := by
        simp only [List.mem_cons]
        constructor
        · rintro (h | h)
          · exact absurd h.symm hek
          · exact h
        · exact Or.inr
      simp only [List.map_nil, List.nil_append, this]

theorem segmentTrips_numbers (dist : α → α → α → α → α) (threshold : α)
    (gpsData : List (Fix α)) (trips : List (Trip α)) (e : String)
    (h : segmentTrips dist threshold gpsData = some trips) :
    (trips.filter (fun t => decide (t.equipmentId = e))).map (fun t => t.tripNumber)
      = runNumbers 1 (splitRuns threshold (sortByTime (equipmentGroup gpsData e))) := by
  unfold segmentTrips at h
  split_ifs at h
  simp only [Option.some.injEq] at h
  subst h
  have hnd : (objectKeys (insertionKeys (gpsData.map equipIdOf))).Nodup :=
    (objectKeys_perm _).nodup_iff.mpr (nodup_insertionKeys _)
  rw [segmentGroups_numbers dist threshold gpsData e _ hnd 0]
  split_ifs with hmem
  · rfl
  · have hno : equipmentGroup gpsData e = [] := by
      unfold equipmentGroup
      rw [List.filter_eq_nil_iff]
      intro p hp
      simp only [decide_eq_true_eq]
      intro hpe
      apply hmem
      rw [(objectKeys_perm _).mem_iff, mem_insertionKeys]
      exact List.mem_map.mpr ⟨p, hp, hpe⟩
    rw [hno]
    rfl

theorem contRuns_small (threshold : α) (rest : List (Fix α)) :
    ∀ prev, List.Chain (fun a b => minutesBetween a b ≤ threshold) prev rest →
      contRuns threshold prev rest = (rest, []) := by
  induction rest with
  | nil => intro _ _; rfl
  | cons q rest ih =>
    intro prev h
    rw [List.chain_cons] at h
    simp only [contRuns, not_lt.mpr h.1, if_false, ih q h.2]

theorem contRuns_single_gap (threshold : α) (q : Fix α) (l2 : List (Fix α))
    (h2 : List.Chain (fun a b => minutesBetween a b ≤ threshold) q l2) (l1 : List (Fix α)) :
    ∀ prev, List.Chain (fun a b => minutesBetween a b ≤ threshold) prev l1 →
      threshold < minutesBetween ((prev :: l1).getLast (List.cons_ne_nil _ _)) q →
      contRuns threshold prev (l1 ++ q :: l2) = (l1, [q :: l2]) := by
  induction l1 with
  | nil =>
    intro prev _ hgap
    simp only [List.getLast_singleton] at hgap
    simp only [List.nil_append, contRuns, hgap, if_true, contRuns_small threshold l2 q h2]
  | cons a l1 ih =>
    intro prev h hgap
    rw [List.chain_cons] at h
    rw [List.getLast_cons (List.cons_ne_nil _ _)] at hgap
    have hrec := ih a h.2 hgap
    show contRuns threshold prev (a :: (l1 ++ q :: l2)) = (a :: l1, [q :: l2])
    simp only [contRuns, not_lt.mpr h.1, if_false, hrec]

/-- The runs of two stretches without an inner gap above the threshold that are
separated by one gap above it. -/
theorem splitRuns_single_gap (threshold : α) (l1 l2 : List (Fix α))
    (hne1 : l1 ≠ []) (hne2 : l2 ≠ [])
    (hg1 : l1.Chain' (fun a b => minutesBetween a b ≤ threshold))
    (hg2 : l2.Chain' (fun a b => minutesBetween a b ≤ threshold))
    (hgap : threshold < minutesBetween (l1.getLast hne1) (l2.head hne2)) :
    splitRuns threshold (l1 ++ l2) = [l1, l2] := by
  cases l1 with
  | nil => exact absurd rfl hne1
  | cons p l1 =>
    cases l2 with
    | nil => exact absurd rfl hne2
    | cons q l2 =>
      have := contRuns_single_gap threshold q l2 hg2 l1 p hg1 hgap
      show splitRuns threshold (p :: (l1 ++ q :: l2)) = _
      simp only [splitRuns, this]

/-- For a time-sorted list of one asset whose id is an ordinary key, cut by one
gap above the threshold into two stretches of two fixes or more, `segmentTrips`
returns exactly the two stretches as trips 1 and 2. -/
theorem segmentTrips_single_gap (dist : α → α → α → α → α) (threshold : α) (e : String)
    (l1 l2 : List (Fix α)) (hproto : e ∉ objectPrototypeKeys)
    (hid : ∀ p ∈ l1 ++ l2, equipIdOf p = e)
    (hsorted : (l1 ++ l2).Sorted timeLE)
    (hlen1 : 2 ≤ l1.length) (hlen2 : 2 ≤ l2.length)
    (hg1 : l1.Chain' (fun a b => minutesBetween a b ≤ threshold))
    (hg2 : l2.Chain' (fun a b => minutesBetween a b ≤ threshold))
    (hgap : ∀ a ∈ l1.getLast?, ∀ b ∈ l2.head?, threshold < minutesBetween a b) :
    segmentTrips dist threshold (l1 ++ l2)
      = some [mkTrip dist e 0 1 l1, mkTrip dist e 0 2 l2] := by
  have hne1 : l1 ≠ [] := by intro h; rw [h] at hlen1; simp at hlen1
  have hne2 : l2 ≠ [] := by intro h; rw [h] at hlen2; simp at hlen2
  have hgap' : threshold < minutesBetween (l1.getLast hne1) (l2.head hne2) :=
    hgap _ (List.getLast?_eq_getLast _ hne1) _ (List.head?_eq_head hne2)
  have hany : (l1 ++ l2).any (fun p => decide (equipIdOf p ∈ objectPrototypeKeys)) = false := by
    rw [List.any_eq_false]
    intro p hp
    rw [hid p hp]
    simpa using hproto
  have hkeys : insertionKeys ((l1 ++ l2).map equipIdOf) = [e] := by
    apply insertionKeys_const
    · simp [hne1]
    · intro x hx
      obtain ⟨p, hp, rfl⟩ := List.mem_map.mp hx
      exact hid p hp
  have hgroup : equipmentGroup (l1 ++ l2) e = l1 ++ l2 := by
    unfold equipmentGroup
    rw [List.filter_eq_self]
    intro p hp
    simpa using hid p hp
  have hsort : sortByTime (l1 ++ l2) = l1 ++ l2 := List.Sorted.insertionSort_eq hsorted
  unfold segmentTrips
  rw [hany]
  simp only [Bool.false_eq_true, if_false, hkeys, objectKeys_singleton, segmentGroups,
    List.append_nil, hgroup, segmentGroup_eq_emitRuns, hsort,
    splitRuns_single_gap threshold l1 l2 hne1 hne2 hg1 hg2 hgap', emitRuns]
  have h1 : 1 < l1.length := hlen1
  have h2 : 1 < l2.length := hlen2
  simp [h1, h2]

/-- C4 (as the code numbers trips): the runs of one asset (the maximal stretches of
its time-sorted fixes without a gap above the threshold) are numbered 1, 2, ...
in order, single-fix runs included, and the trips emitted for the asset carry,
in emission order, the numbers of the runs of two fixes or more; these numbers
are strictly increasing and at least 1. -/
theorem segmentTrips_tripNumber_is_run_number (dist : α → α → α → α → α) (threshold : α)
    (gpsData : List (Fix α)) (trips : List (Trip α)) (e : String)
    (h : segmentTrips dist threshold gpsData = some trips) :
    (trips.filter (fun t => decide (t.equipmentId = e))).map (fun t => t.tripNumber)
        = runNumbers 1 (splitRuns threshold (sortByTime (equipmentGroup gpsData e))) ∧
      ((trips.filter (fun t => decide (t.equipmentId = e))).map
          (fun t => t.tripNumber)).Sorted (· < ·) ∧
      ∀ k ∈ (trips.filter (fun t => decide (t.equipmentId = e))).map (fun t => t.tripNumber),
        1 ≤ k := by
  have hnum := segmentTrips_numbers dist threshold gpsData trips e h
  rw [hnum]
  exact ⟨rfl, runNumbers_bounds _ 1⟩

/-! ## Time-Gap and Speed-Threshold detection -/

theorem timeGapLoop_core (dist : α → α → α → α → α) (params : TimeGapParams α)
    (tripId : String) (rest : List (Fix α)) :
    ∀ (stoppages : List (Stoppage α)) (i : Nat) (previous : Fix α),
      (timeGapLoop dist params tripId stoppages i previous rest).map Stoppage.core
        = stoppages.map Stoppage.core ++
          (((previous :: rest).zip rest).filter (timeGapQualifies dist params)).map
            (fun pair =>
              (pair.1.timestamp, pair.2.timestamp, minutesBetween pair.1 pair.2,
                (pair.1.latitude + pair.2.latitude) / 2,
                (pair.1.longitude + pair.2.longitude) / 2,
                min 1 (minutesBetween pair.1 pair.2 / 10))) := by
  induction rest with
  | nil => intro stoppages i previous; simp [timeGapLoop]
  | cons current rest ih =>
    intro stoppages i previous
    simp only [timeGapLoop]
    rw [ih]
    by_cases hq : params.minGapMinutes ≤ minutesBetween previous current ∧
        dist previous.latitude previous.longitude current.latitude current.longitude
          ≤ params.maxDistanceMeters
    · have hq' : timeGapQualifies dist params (previous, current) = true := by
        simp [timeGapQualifies, hq]
      simp [hq, hq', List.filter_cons, Stoppage.core, mkTimeGapStoppage]
    · have hq' : timeGapQualifies dist params (previous, current) = false := by
        simp only [timeGapQualifies, decide_eq_false_iff_not]; exact hq
      simp only [hq, if_false, List.zip_cons_cons, List.filter_cons, hq']
      simp

/-- C5: `detectTimeGapStoppages` returns, in trip order, one candidate for each
consecutive pair `(prev, curr)` with gap `>= minGapMinutes` and distance
`<= maxDistanceMeters` and nothing else; the candidate has start `prev.timestamp`
and end `curr.timestamp`, lasts the gap in minutes, lies at the mean latitude and
mean longitude of the pair and has confidence `min(1, duration / 10)`. -/
theorem detectTimeGapStoppages_pairs (dist : α → α → α → α → α) (params : TimeGapParams α)
    (trip : Trip α) :
    (detectTimeGapStoppages dist params trip).map Stoppage.core
      = ((trip.points.zip trip.points.tail).filter (timeGapQualifies dist params)).map
          (fun pair =>
            (pair.1.timestamp, pair.2.timestamp, minutesBetween pair.1 pair.2,
              (pair.1.latitude + pair.2.latitude) / 2,
              (pair.1.longitude + pair.2.longitude) / 2,
              min 1 (minutesBetween pair.1 pair.2 / 10))) := by
  unfold detectTimeGapStoppages
  cases trip.points with
  | nil => simp
  | cons first rest =>
    simpa using timeGapLoop_core dist params trip.id rest [] 1 first

theorem speedStep_low_stoppages (params : SpeedParams α) (tripId : String)
    (st : SpeedState α) (point : Fix α) (h : point.speed ≤ params.maxSpeedKmh) :
    (speedStep params tripId st point).stoppages = st.stoppages := by
  unfold speedStep
  rw [if_pos h]
  cases st.currentStopStart <;> rfl

theorem speedLoop_low_stoppages (params : SpeedParams α) (tripId : String)
    (tail : List (Fix α)) :
    ∀ (st : SpeedState α), (∀ p ∈ tail, p.speed ≤ params.maxSpeedKmh) →
      (tail.foldl (speedStep params tripId) st).stoppages = st.stoppages := by
  induction tail with
  | nil => intro st _; rfl
  | cons p tail ih =>
    intro st h
    rw [List.foldl_cons, ih _ (fun q hq => h q (List.mem_cons_of_mem _ hq)),
      speedStep_low_stoppages params tripId st p (h p (List.mem_cons_self _ _))]

/-- C7: a run of fixes with speed `<= maxSpeedKmh` that is still open at the end of
the trip adds no candidate: the result is that of the trip without the trailing
low-speed fixes, and it is empty when no fix of the trip exceeds `maxSpeedKmh`. -/
theorem detectSpeedBasedStoppages_open_run (params : SpeedParams α) (trip : Trip α)
    (kept tail : List (Fix α)) (hpts : trip.points = kept ++ tail)
    (hlow : ∀ p ∈ tail, p.speed ≤ params.maxSpeedKmh) :
    detectSpeedBasedStoppages params trip
        = detectSpeedBasedStoppages params { trip with points := kept } ∧
      ((∀ p ∈ trip.points, p.speed ≤ params.maxSpeedKmh) →
        detectSpeedBasedStoppages params trip = []) := by
  constructor
  · unfold detectSpeedBasedStoppages
    rw [hpts, List.foldl_append, speedLoop_low_stoppages params trip.id tail _ hlow]
  · intro hall
    unfold detectSpeedBasedStoppages
    rw [speedLoop_low_stoppages params trip.id trip.points _ hall]

/-- The state while a run of low-speed fixes that began at `first` is open. -/
theorem speedLoop_run (params : SpeedParams α) (tripId : String) (run : List (Fix α)) :
    ∀ (st : SpeedState α) (first : Fix α), st.currentStopStart = some first →
      (∀ p ∈ run, p.speed ≤ params.maxSpeedKmh) →
      run.foldl (speedStep params tripId) st
        = { currentStopStart := some first
            stopPoints := st.stopPoints ++ run
            stoppages := st.stoppages } := by
  induction run with
  | nil => intro st first h _; cases st; simp_all
  | cons p run ih =>
    intro st first h hlow
    rw [List.foldl_cons]
    have hp := hlow p (List.mem_cons_self _ _)
    have hstep : speedStep params tripId st p
        = { st with stopPoints := st.stopPoints ++ [p] } := by
      unfold speedStep
      rw [if_pos hp, h]
    rw [hstep, ih _ first (by simpa using h) (fun q hq => hlow q (List.mem_cons_of_mem _ hq))]
    simp

/-- The `reduce((sum, p) => sum + f(p), a)` of the source is `a` plus the sum. -/
theorem foldl_add_eq_sum {β : Type} (f : β → α) (l : List β) :
    ∀ (a : α), l.foldl (fun sum p => sum + f p) a = a + (l.map f).sum := by
  induction l with
  | nil => intro a; simp
  | cons p l ih => intro a; simp [ih, add_assoc]

/-- C6: a trip of `k >= 2` fixes with speed `<= maxSpeedKmh` followed by one fix with
speed `> maxSpeedKmh`, the first and the last fix being `minDurationMinutes` or more
apart, gives exactly one candidate: at the centroid of the first `k` fixes, from
the first fix's timestamp to the last fix's, lasting that span in minutes, with
confidence `min(1, duration / 10)`. -/
theorem detectSpeedBasedStoppages_closed_run (params : SpeedParams α) (trip : Trip α)
    (first : Fix α) (run : List (Fix α)) (final : Fix α)
    (hpts : trip.points = run ++ [final]) (hfirst : run.head? = some first)
    (hlen : 2 ≤ run.length)
    (hlow : ∀ p ∈ run, p.speed ≤ params.maxSpeedKmh)
    (hhigh : params.maxSpeedKmh < final.speed)
    (hdur : params.minDurationMinutes ≤ minutesBetween first final) :
    ∃ s, detectSpeedBasedStoppages params trip = [s] ∧
      s.latitude = (run.map (fun p => p.latitude)).sum / (run.length : α) ∧
      s.longitude = (run.map (fun p => p.longitude)).sum / (run.length : α) ∧
      s.startTime = first.timestamp ∧
      s.endTime = final.eventGeneratedTime ∧
      s.duration = minutesBetween first final ∧
      s.confidence = min 1 (s.duration / 10) := by
  cases run with
  | nil => simp at hlen
  | cons p rest =>
    simp only [List.head?_cons, Option.some.injEq] at hfirst
    subst hfirst
    refine ⟨mkSpeedStoppage trip.id 0 p (p :: rest) final, ?_, ?_, ?_, rfl, rfl, rfl, rfl⟩
    · unfold detectSpeedBasedStoppages
      rw [hpts, List.cons_append, List.foldl_cons]
      have hp := hlow p (List.mem_cons_self _ _)
      have hstep : speedStep params trip.id
          { currentStopStart := none, stopPoints := [], stoppages := [] } p
          = { currentStopStart := some p, stopPoints := [p], stoppages := [] } := by
        unfold speedStep
        rw [if_pos hp]
      rw [hstep, List.foldl_append,
        speedLoop_run params trip.id rest _ p rfl
          (fun q hq => hlow q (List.mem_cons_of_mem _ hq))]
      have hlen' : 1 < (p :: rest).length := hlen
      simp only [List.foldl_cons, List.foldl_nil, speedStep, not_le.mpr hhigh, if_false,
        hlen', if_true, hdur, List.nil_append, List.length_nil, List.singleton_append]
    · simp [mkSpeedStoppage, foldl_add_eq_sum]
    · simp [mkSpeedStoppage, foldl_add_eq_sum]

/-! ## Hybrid detection -/

theorem hybridScore_eq_compositeScore (dist : α → α → α → α → α) (params : HybridParams α)
    (trip : Trip α) (stop : Stoppage α) :
    hybridScore dist params trip stop = compositeScore dist params trip stop := by
  simp only [hybridScore, compositeScore, speedScore, timeScore, locationScore]
  ring

theorem hybridLoop_core (dist : α → α → α → α → α) (params : HybridParams α)
    (trip : Trip α) (pool : List (Stoppage α)) :
    ∀ (stoppages : List (Stoppage α)),
      (pool.foldl (hybridStep dist params trip) stoppages).map Stoppage.core
        = stoppages.map Stoppage.core ++
          (pool.filter (fun stop =>
              decide (params.confidenceThreshold ≤ compositeScore dist params trip stop))).map
            (fun stop => (stop.startTime, stop.endTime, stop.duration, stop.latitude,
              stop.longitude, compositeScore dist params trip stop)) := by
  induction pool with
  | nil => intro stoppages; simp
  | cons stop pool ih =>
    intro stoppages
    rw [List.foldl_cons, ih]
    unfold hybridStep
    simp only [hybridScore_eq_compositeScore]
    by_cases h : params.confidenceThreshold ≤ compositeScore dist params trip stop
    · simp [h, List.filter_cons, Stoppage.core]
    · simp [h, List.filter_cons]

theorem hybridLoop_confidence (dist : α → α → α → α → α) (params : HybridParams α)
    (trip : Trip α) (pool : List (Stoppage α)) :
    ∀ (stoppages : List (Stoppage α)),
      (∀ s ∈ stoppages, params.confidenceThreshold ≤ s.confidence) →
      ∀ s ∈ pool.foldl (hybridStep dist params trip) stoppages,
        params.confidenceThreshold ≤ s.confidence := by
  induction pool with
  | nil => intro stoppages h; exact h
  | cons stop pool ih =>
    intro stoppages h
    rw [List.foldl_cons]
    apply ih
    intro s hs
    unfold hybridStep at hs
    simp only at hs
    split_ifs at hs with hthr
    · simp only [List.mem_append, List.mem_singleton] at hs
      rcases hs with hs | rfl
      · exact h s hs
      · exact hthr
    · exact h s hs

/-- C10: `detectHybridStoppages` returns exactly the candidates of the pool (Time-Gap
results, then Speed results, then Clustering results, nothing removed) whose
composite score is `>= confidenceThreshold`, in pool order; each keeps the
start, end, duration and location of the pooled candidate and has that score as
confidence, so no returned confidence is below `confidenceThreshold`. -/
theorem detectHybridStoppages_filters_pool (dist : α → α → α → α → α) (params : Parameters α)
    (trip : Trip α) :
    (detectHybridStoppages dist params trip).map Stoppage.core
        = ((detectTimeGapStoppages dist params.timeGap trip
              ++ detectSpeedBasedStoppages params.speed trip
              ++ detectClusteringStoppages dist params.clustering trip).filter
            (fun stop => decide (params.hybrid.confidenceThreshold
              ≤ compositeScore dist params.hybrid trip stop))).map
          (fun stop => (stop.startTime, stop.endTime, stop.duration, stop.latitude,
            stop.longitude, compositeScore dist params.hybrid trip stop)) ∧
      ∀ s ∈ detectHybridStoppages dist params trip,
        params.hybrid.confidenceThreshold ≤ s.confidence := by
  refine ⟨?_, ?_⟩
  · unfold detectHybridStoppages
    rw [hybridLoop_core]
    rfl
  · exact hybridLoop_confidence dist params.hybrid trip _ [] (by intro s hs; simp at hs)

/-! ## Spatial clustering detection -/

theorem assignToCluster_far (dist : α → α → α → α → α) (params : ClusteringParams α)
    (point : Fix α) (done : List (Fix α))
    (hfar : ∀ q ∈ done, params.clusterRadiusMeters
      < dist point.latitude point.longitude q.latitude q.longitude) :
    assignToCluster dist params point (done.map singletonCluster) = none := by
  induction done with
  | nil => rfl
  | cons q done ih =>
    have hq := hfar q (List.mem_cons_self _ _)
    simp only [List.map_cons, assignToCluster, singletonCluster, not_le.mpr hq, if_false,
      Option.map_eq_none']
    exact ih (fun r hr => hfar r (List.mem_cons_of_mem _ hr))

theorem clusterLoop_far (dist : α → α → α → α → α) (params : ClusteringParams α)
    (rest : List (Fix α)) :
    ∀ (done : List (Fix α)),
      (∀ p ∈ rest, ∀ q ∈ done, params.clusterRadiusMeters
        < dist p.latitude p.longitude q.latitude q.longitude) →
      rest.Pairwise (fun q p => params.clusterRadiusMeters
        < dist p.latitude p.longitude q.latitude q.longitude) →
      rest.foldl (clusterStep dist params) (done.map singletonCluster)
        = (done ++ rest).map singletonCluster := by
  induction rest with
  | nil => intro done _ _; simp
  | cons p rest ih =>
    intro done h1 h2
    rw [List.pairwise_cons] at h2
    rw [List.foldl_cons]
    have hstep : clusterStep dist params (done.map singletonCluster) p
        = (done ++ [p]).map singletonCluster := by
      unfold clusterStep
      rw [assignToCluster_far dist params p done (h1 p (List.mem_cons_self _ _))]
      simp [singletonCluster]
    rw [hstep, ih (done ++ [p]) ?_ h2.2]
    · simp
    · intro r hr q hq
      simp only [List.mem_append, List.mem_singleton] at hq
      rcases hq with hq | rfl
      · exact h1 r (List.mem_cons_of_mem _ hr) q hq
      · exact h2.1 r hr

theorem clustersToStoppages_small (params : ClusteringParams α) (tripId : String)
    (clusters : List (Cluster α))
    (hsmall : ∀ c ∈ clusters, (c.points.length : α) < params.minPointsInCluster) :
    ∀ (stoppages : List (Stoppage α)) (index : Nat),
      clustersToStoppages params tripId stoppages index clusters = stoppages := by
  induction clusters with
  | nil => intro _ _; rfl
  | cons c clusters ih =>
    intro stoppages index
    have hc := hsmall c (List.mem_cons_self _ _)
    simp only [clustersToStoppages, clusterToStoppage, not_le.mpr hc, if_false]
    exact ih (fun d hd => hsmall d (List.mem_cons_of_mem _ hd)) _ _

/-- C9: when the fixes of a trip are pairwise more than `clusterRadiusMeters` apart
and `minPointsInCluster >= 2`, every fix ends up alone in its own cluster and
`detectClusteringStoppages` returns no stoppage. -/
theorem detectClusteringStoppages_far_apart (dist : α → α → α → α → α)
    (params : ClusteringParams α) (trip : Trip α)
    (hfar : trip.points.Pairwise (fun q p =>
      params.clusterRadiusMeters < dist p.latitude p.longitude q.latitude q.longitude ∧
      params.clusterRadiusMeters < dist q.latitude q.longitude p.latitude p.longitude))
    (hmin : 2 ≤ params.minPointsInCluster) :
    buildClusters dist params trip.points = trip.points.map singletonCluster ∧
      detectClusteringStoppages dist params trip = [] := by
  have hb : buildClusters dist params trip.points = trip.points.map singletonCluster := by
    have := clusterLoop_far dist params trip.points []
      (by intro p _ q hq; simp at hq) (hfar.imp (fun h => h.1))
    simpa [buildClusters] using this
  refine ⟨hb, ?_⟩
  unfold detectClusteringStoppages
  rw [hb]
  apply clustersToStoppages_small
  intro c hc
  obtain ⟨p, _, rfl⟩ := List.mem_map.mp hc
  simp only [singletonCluster, List.length_singleton, Nat.cast_one]
  exact lt_of_lt_of_le one_lt_two hmin

theorem singletonCluster_eq_clusterOf (p : Fix α) : singletonCluster p = clusterOf [p] := by
  simp [singletonCluster, clusterOf, centroidLat, centroidLng]

theorem addToCluster_clusterOf (l : List (Fix α)) (p : Fix α) :
    addToCluster (clusterOf l) p = clusterOf (l ++ [p]) := by
  simp [addToCluster, clusterOf, centroidLat, centroidLng, foldl_add_eq_sum]

theorem clusterLoop_one_cluster (dist : α → α → α → α → α) (params : ClusteringParams α)
    (rest : List (Fix α)) :
    ∀ (done : List (Fix α)),
      JoinsRunningCentroid dist params.clusterRadiusMeters done rest →
      rest.foldl (clusterStep dist params) [clusterOf done] = [clusterOf (done ++ rest)] := by
  induction rest with
  | nil => intro done _; simp
  | cons p rest ih =>
    intro done h
    obtain ⟨h1, h2⟩ := h
    rw [List.foldl_cons]
    have hstep : clusterStep dist params [clusterOf done] p = [clusterOf (done ++ [p])] := by
      have h1' : dist p.latitude p.longitude (clusterOf done).centerLat
          (clusterOf done).centerLng ≤ params.clusterRadiusMeters := h1
      simp only [clusterStep, assignToCluster, h1', if_true, addToCluster_clusterOf]
    rw [hstep, ih _ h2]
    simp

theorem buildClusters_one_cluster (dist : α → α → α → α → α) (params : ClusteringParams α)
    (first : Fix α) (rest : List (Fix α))
    (h : JoinsRunningCentroid dist params.clusterRadiusMeters [first] rest) :
    buildClusters dist params (first :: rest) = [clusterOf (first :: rest)] := by
  unfold buildClusters
  rw [List.foldl_cons]
  have hstep : clusterStep dist params [] first = [clusterOf [first]] := by
    simp [clusterStep, assignToCluster, ← singletonCluster_eq_clusterOf, singletonCluster]
  rw [hstep, clusterLoop_one_cluster dist params rest [first] h]
  rfl

/-- The time-sorted members span at least the time from any member to any other. -/
theorem sortByTime_span (l : List (Fix α)) (x y : Fix α) (hx : x ∈ l) (hy : y ∈ l) :
    ∃ first last, (sortByTime l).head? = some first ∧ (sortByTime l).getLast? = some last ∧
      minutesBetween x y ≤ (minutesBetween first last : α) := by
  have hs := sortByTime_sorted l
  have hperm := sortByTime_perm l
  have hx' : x ∈ sortByTime l := hperm.mem_iff.mpr hx
  have hy' : y ∈ sortByTime l := hperm.mem_iff.mpr hy
  cases hsl : sortByTime l with
  | nil => rw [hsl] at hx'; simp at hx'
  | cons a rest =>
    rw [hsl] at hs hx' hy'
    obtain ⟨last, hlast⟩ : ∃ last, (a :: rest).getLast? = some last :=
      ⟨_, List.getLast?_eq_getLast _ (List.cons_ne_nil _ _)⟩
    refine ⟨a, last, rfl, hlast, ?_⟩
    have h1 : a.eventGeneratedTime ≤ x.eventGeneratedTime := sorted_head_le a rest hs x hx'
    have h2 : y.eventGeneratedTime ≤ last.eventGeneratedTime :=
      sorted_le_getLast _ hs last hlast y hy'
    unfold minutesBetween
    have h3 : ((y.eventGeneratedTime - x.eventGeneratedTime : Int) : α)
        ≤ ((last.eventGeneratedTime - a.eventGeneratedTime : Int) : α) := by
      exact_mod_cast (by omega : y.eventGeneratedTime - x.eventGeneratedTime
        ≤ last.eventGeneratedTime - a.eventGeneratedTime)
    exact div_le_div_of_nonneg_right h3 (by norm_num)

/-- One cluster with enough members and a long enough span gives one stoppage. -/
theorem clustersToStoppages_one_cluster (params : ClusteringParams α) (tripId : String)
    (l : List (Fix α)) (x y : Fix α) (hx : x ∈ l) (hy : y ∈ l)
    (hmin : params.minPointsInCluster ≤ (l.length : α))
    (hdur : params.minDurationMinutes ≤ minutesBetween x y) :
    ∃ s, clustersToStoppages params tripId [] 0 [clusterOf l] = [s] ∧
      s.latitude = centroidLat l ∧ s.longitude = centroidLng l := by
  obtain ⟨first, last, h1, h2, h3⟩ := sortByTime_span l x y hx hy
  have hd : params.minDurationMinutes ≤ minutesBetween first last := le_trans hdur h3
  have hmin' : params.minPointsInCluster ≤ ((clusterOf l).points.length : α) := hmin
  refine ⟨mkClusterStoppage tripId 0 (clusterOf l) first last, ?_, rfl, rfl⟩
  simp only [clustersToStoppages, clusterToStoppage, hmin', if_true]
  have h1' : (sortByTime (clusterOf l).points).head? = some first := h1
  have h2' : (sortByTime (clusterOf l).points).getLast? = some last := h2
  rw [h1', h2']
  simp only [hd, if_true, List.nil_append]

/-- When every fix after the first lies within the radius of the centroid of the
fixes before it, all fixes form one cluster; with enough members and a long
enough span between two of them, exactly one stoppage is returned, at the
centroid. -/
theorem detectClusteringStoppages_running_centroid (dist : α → α → α → α → α)
    (params : ClusteringParams α) (trip : Trip α) (first : Fix α) (rest : List (Fix α))
    (hpts : trip.points = first :: rest)
    (hjoin : JoinsRunningCentroid dist params.clusterRadiusMeters [first] rest)
    (hmin : params.minPointsInCluster ≤ (trip.points.length : α))
    (x y : Fix α) (hx : x ∈ trip.points) (hy : y ∈ trip.points)
    (hdur : params.minDurationMinutes ≤ minutesBetween x y) :
    buildClusters dist params trip.points = [clusterOf trip.points] ∧
      ∃ s, detectClusteringStoppages dist params trip = [s] ∧
        s.latitude = centroidLat trip.points ∧ s.longitude = centroidLng trip.points := by
  have hb : buildClusters dist params trip.points = [clusterOf trip.points] := by
    rw [hpts]
    exact buildClusters_one_cluster dist params first rest hjoin
  refine ⟨hb, ?_⟩
  unfold detectClusteringStoppages
  rw [hb]
  exact clustersToStoppages_one_cluster params trip.id trip.points x y hx hy hmin hdur

/-! ## Preprocessing and merging -/

/-- `Math.max` of a non-empty array of numbers is its greatest element. -/
theorem mathMaxNum_spec (xs : List α) (hne : xs ≠ []) :
    mathMaxNum xs ∈ xs ∧ ∀ y ∈ xs, y ≤ mathMaxNum xs := by
  cases xs with
  | nil => exact absurd rfl hne
  | cons x xs => exact foldl_max_spec xs x

theorem emitGroups_append (groups : List (Stoppage α × List (Stoppage α)))
    (group : Stoppage α × List (Stoppage α)) :
    ∀ n, emitGroups n (groups ++ [group])
      = emitGroups n groups ++ [mergeGroup (n + groups.length) group.1 group.2] := by
  induction groups with
  | nil => intro n; simp [emitGroups]
  | cons g groups ih =>
    intro n
    show mergeGroup n g.1 g.2 :: emitGroups (n + 1) (groups ++ [group]) = _
    rw [ih, List.length_cons, show n + 1 + groups.length = n + (groups.length + 1) by omega]
    rfl

theorem emitGroups_length (groups : List (Stoppage α × List (Stoppage α))) :
    ∀ n, (emitGroups n groups).length = groups.length := by
  induction groups with
  | nil => intro n; rfl
  | cons g groups ih => intro n; simp [emitGroups, ih]

/-- The merging loop emits one element per group of the grouping loop. -/
theorem mergeLoop_eq_groupLoop (dist : α → α → α → α → α) (stoppages : List (Stoppage α))
    (rest : List (Stoppage α)) :
    ∀ (index : Nat) (groups : List (Stoppage α × List (Stoppage α))) (processed : List Nat),
      (mergeLoop dist stoppages index rest
          { merged := emitGroups 0 groups, processed := processed }).merged
        = emitGroups 0 (groupLoop dist stoppages index rest (groups, processed)).1 := by
  induction rest with
  | nil => intro _ _ _; rfl
  | cons stop rest ih =>
    intro index groups processed
    simp only [mergeLoop, groupLoop]
    by_cases hp : index ∈ processed
    · simp only [hp, if_true]
      exact ih _ _ _
    · simp only [hp, if_false]
      have := ih (index + 1)
        (groups ++ [(stop, (findSimilar dist stoppages processed index stop).similar)])
        (findSimilar dist stoppages processed index stop).processed
      rw [emitGroups_append, Nat.zero_add] at this
      rw [emitGroups_length]
      exact this

theorem mergeSimilarStoppages_eq_emitGroups (dist : α → α → α → α → α)
    (stoppages : List (Stoppage α)) :
    mergeSimilarStoppages dist stoppages = emitGroups 0 (mergeGroups dist stoppages) :=
  mergeLoop_eq_groupLoop dist stoppages stoppages 0 [] []

theorem similarLoop_seed (dist : α → α → α → α → α) (stop : Stoppage α) (index : Nat)
    (rest : List (Stoppage α)) :
    ∀ (otherIndex : Nat) (st : SimilarState α), (∃ others, st.similar = stop :: others) →
      ∃ others, (similarLoop dist stop index otherIndex rest st).similar = stop :: others := by
  induction rest with
  | nil => intro _ st h; exact h
  | cons o rest ih =>
    intro j st h
    simp only [similarLoop]
    apply ih
    split_ifs
    · obtain ⟨others, ho⟩ := h
      exact ⟨others ++ [o], by simp [ho]⟩
    · exact h
    · exact h

theorem groupLoop_seed (dist : α → α → α → α → α) (stoppages : List (Stoppage α))
    (rest : List (Stoppage α)) :
    ∀ (index : Nat) (st : List (Stoppage α × List (Stoppage α)) × List Nat),
      (∀ g ∈ st.1, ∃ others, g.2 = g.1 :: others) →
      ∀ g ∈ (groupLoop dist stoppages index rest st).1, ∃ others, g.2 = g.1 :: others := by
  induction rest with
  | nil => intro _ st h; exact h
  | cons stop rest ih =>
    intro index st h
    simp only [groupLoop]
    apply ih
    split_ifs
    · exact h
    · intro g hg
      simp only [List.mem_append, List.mem_singleton] at hg
      rcases hg with hg | rfl
      · exact h g hg
      · exact similarLoop_seed dist stop index stoppages 0 _ ⟨[], rfl⟩

/-- Every group is its seed followed by the candidates found similar to it. -/
theorem mergeGroups_seed (dist : α → α → α → α → α) (stoppages : List (Stoppage α)) :
    ∀ g ∈ mergeGroups dist stoppages, ∃ others, g.2 = g.1 :: others :=
  groupLoop_seed dist stoppages stoppages 0 ([], []) (by intro g hg; simp at hg)

/-- C12: `mergeSimilarStoppages` emits one element per group, in group order; a group
of size 1 is emitted as the unchanged candidate, and a group of size `> 1` as one
stoppage whose start is the earliest member start, whose end is the latest member
end, whose duration is `(end - start)` in minutes, whose latitude and longitude
are the arithmetic means over the members, whose confidence is the greatest member
confidence, whose algorithm label joins the members' distinct labels in
first-occurrence order with `" + "`, and whose category is `"Merged"`. -/
theorem mergeSimilarStoppages_groups (dist : α → α → α → α → α) (stoppages : List (Stoppage α))
    (n : Nat) (stop other : Stoppage α) (others : List (Stoppage α)) :
    mergeSimilarStoppages dist stoppages = emitGroups 0 (mergeGroups dist stoppages) ∧
      (∀ g ∈ mergeGroups dist stoppages, ∃ members, g.2 = g.1 :: members) ∧
      mergeGroup n stop [stop] = stop ∧
      ((mergeGroup n stop (stop :: other :: others)).startTime
            ∈ (stop :: other :: others).map (fun s => s.startTime) ∧
          ∀ s ∈ stop :: other :: others,
            (mergeGroup n stop (stop :: other :: others)).startTime ≤ s.startTime) ∧
      ((mergeGroup n stop (stop :: other :: others)).endTime
            ∈ (stop :: other :: others).map (fun s => s.endTime) ∧
          ∀ s ∈ stop :: other :: others,
            s.endTime ≤ (mergeGroup n stop (stop :: other :: others)).endTime) ∧
      (mergeGroup n stop (stop :: other :: others)).duration
          = (((mergeGroup n stop (stop :: other :: others)).endTime
              - (mergeGroup n stop (stop :: other :: others)).startTime : Int) : α) / 60000 ∧
      (mergeGroup n stop (stop :: other :: others)).latitude
          = ((stop :: other :: others).map (fun s => s.latitude)).sum
              / ((stop :: other :: others).length : α) ∧
      (mergeGroup n stop (stop :: other :: others)).longitude
          = ((stop :: other :: others).map (fun s => s.longitude)).sum
              / ((stop :: other :: others).length : α) ∧
      ((mergeGroup n stop (stop :: other :: others)).confidence
            ∈ (stop :: other :: others).map (fun s => s.confidence) ∧
          ∀ s ∈ stop :: other :: others,
            s.confidence ≤ (mergeGroup n stop (stop :: other :: others)).confidence) ∧
      (mergeGroup n stop (stop :: other :: others)).algorithm
          = " + ".intercalate
              (distinctInOrder ((stop :: other :: others).map (fun s => s.algorithm))) ∧
      (mergeGroup n stop (stop :: other :: others)).type = "Merged" := by
  have hlen : ¬ (stop :: other :: others).length = 1 := by simp
  have hne : ∀ {β : Type} (f : Stoppage α → β), (stop :: other :: others).map f ≠ [] := by
    intro β f; simp
  have hmin := mathMin_spec _ (hne (fun s => s.startTime))
  have hmax := mathMax_spec _ (hne (fun s => s.endTime))
  have hconf := mathMaxNum_spec _ (hne (fun s => s.confidence))
  refine ⟨mergeSimilarStoppages_eq_emitGroups dist stoppages, mergeGroups_seed dist stoppages,
    by simp [mergeGroup], ?_, ?_, ?_, ?_, ?_, ?_, ?_, ?_⟩
  · simp only [mergeGroup, hlen, if_false]
    exact ⟨hmin.1, fun s hs => hmin.2 _ (List.mem_map_of_mem _ hs)⟩
  · simp only [mergeGroup, hlen, if_false]
    exact ⟨hmax.1, fun s hs => hmax.2 _ (List.mem_map_of_mem _ hs)⟩
  · simp only [mergeGroup, hlen, if_false]
    norm_num
  · simp only [mergeGroup, hlen, if_false, foldl_add_eq_sum, zero_add]
  · simp only [mergeGroup, hlen, if_false, foldl_add_eq_sum, zero_add]
  · simp only [mergeGroup, hlen, if_false]
    exact ⟨hconf.1, fun s hs => hconf.2 _ (List.mem_map_of_mem _ hs)⟩
  · simp only [mergeGroup, hlen, if_false, setToArray_eq_distinctInOrder]
  · simp only [mergeGroup, hlen, if_false]

theorem similarLoop_none (dist : α → α → α → α → α) (stop : Stoppage α) (index : Nat)
    (rest : List (Stoppage α)) :
    ∀ (otherIndex : Nat) (st : SimilarState α),
      (∀ k o, rest[k]? = some o → otherIndex + k ≠ index → otherIndex + k ∉ st.processed →
        ¬ isSimilar dist stop o) →
      similarLoop dist stop index otherIndex rest st = st := by
  induction rest with
  | nil => intro _ _ _; rfl
  | cons o rest ih =>
    intro j st h
    simp only [similarLoop]
    have hstep : (if j ≠ index ∧ j ∉ st.processed then
          if isSimilar dist stop o then
            { similar := st.similar ++ [o], processed := st.processed ++ [j] }
          else st
        else st) = st := by
      by_cases hc : j ≠ index ∧ j ∉ st.processed
      · have := h 0 o (by simp) (by simpa using hc.1) (by simpa using hc.2)
        simp [hc, this]
      · simp [hc]
    rw [hstep]
    apply ih
    intro k o' hk h1 h2
    exact h (k + 1) o' (by simpa using hk) (by rw [← Nat.add_assoc, Nat.add_right_comm]; exact h1)
      (by rw [← Nat.add_assoc, Nat.add_right_comm]; exact h2)

theorem mergeLoop_distinct (dist : α → α → α → α → α) (stoppages : List (Stoppage α))
    (hfar : stoppages.Pairwise (fun a b => ¬ isSimilar dist a b)) (suf : List (Stoppage α)) :
    ∀ (pre : List (Stoppage α)) (st : MergeState α), stoppages = pre ++ suf →
      (∀ j, j ∈ st.processed ↔ j < pre.length) →
      (mergeLoop dist stoppages pre.length suf st).merged = st.merged ++ suf := by
  induction suf with
  | nil => intro _ st _ _; simp [mergeLoop]
  | cons stop suf ih =>
    intro pre st hL hP
    simp only [mergeLoop]
    have hnot : pre.length ∉ st.processed := by rw [hP]; exact lt_irrefl _
    have hstop : stoppages[pre.length]? = some stop := by
      rw [hL, List.getElem?_append_right (le_refl _)]; simp
    have hfind : findSimilar dist stoppages st.processed pre.length stop
        = { similar := [stop], processed := st.processed ++ [pre.length] } := by
      unfold findSimilar
      apply similarLoop_none
      intro k o hk hne hnp
      rw [Nat.zero_add] at hne hnp
      have hgt : pre.length < k := by
        have h1 : ¬ k < pre.length := fun h => hnp (by simp [(hP k).mpr h])
        omega
      obtain ⟨hk1, hk2⟩ := List.getElem?_eq_some_iff.mp hk
      obtain ⟨hi1, hi2⟩ := List.getElem?_eq_some_iff.mp hstop
      have := List.pairwise_iff_getElem.mp hfar pre.length k hi1 hk1 hgt
      rw [hi2, hk2] at this
      exact this
    simp only [hnot, if_false, hfind]
    have hgroup : mergeGroup st.merged.length stop [stop] = stop := by simp [mergeGroup]
    rw [hgroup]
    have := ih (pre ++ [stop]) { merged := st.merged ++ [stop], processed := st.processed ++ [pre.length] }
      (by rw [hL]; simp)
      (by
        intro j
        simp only [List.mem_append, List.mem_singleton, List.length_append, List.length_singleton,
          hP]
        omega)
    simp only [List.length_append, List.length_singleton] at this
    rw [this]
    simp

/-- A list without two similar candidates is left unchanged by the merge. -/
theorem mergeSimilarStoppages_of_distinct (dist : α → α → α → α → α)
    (stoppages : List (Stoppage α))
    (hfar : stoppages.Pairwise (fun a b => ¬ isSimilar dist a b)) :
    mergeSimilarStoppages dist stoppages = stoppages := by
  have := mergeLoop_distinct dist stoppages hfar stoppages [] { merged := [], processed := [] }
    rfl (by intro j; simp)
  simpa [mergeSimilarStoppages] using this

/-- C13: when no two stoppages of `mergeSimilarStoppages(L)` are within 100 m of each
other and within 30 minutes of each other's start, merging that result again
returns it unchanged: same stoppages, same order, same fields. -/
theorem mergeSimilarStoppages_idempotent (dist : α → α → α → α → α)
    (stoppages : List (Stoppage α))
    (hfar : (mergeSimilarStoppages dist stoppages).Pairwise
      (fun a b => ¬ isSimilar dist a b)) :
    mergeSimilarStoppages dist (mergeSimilarStoppages dist stoppages)
      = mergeSimilarStoppages dist stoppages :=
  mergeSimilarStoppages_of_distinct dist _ hfar

/-- C17: `preprocessData` keeps the fixes and their order; the first fix gets no
derived value and is not flagged; every later fix gets the elapsed seconds since
the fix before it, the distance from it, the implied speed
`distance / elapsed * 3.6` when `elapsed > 0` and `0` otherwise, and is flagged
outlier exactly when that speed exceeds 200. -/
theorem preprocessData_spec (dist : α → α → α → α → α) (first : Fix α) (rest : List (Fix α)) :
    preprocessData dist ([] : List (Fix α)) = [] ∧
      (preprocessData dist (first :: rest)).map (fun p => p.point) = first :: rest ∧
      (preprocessData dist (first :: rest)).head?
        = some { point := first, timeDiff := none, distance := none, calculatedSpeed := none
                 isOutlier := some false } ∧
      (preprocessData dist (first :: rest)).tail
        = ((first :: rest).zip rest).map (fun pair =>
            { point := pair.2
              timeDiff := some
                (((pair.2.eventGeneratedTime - pair.1.eventGeneratedTime : Int) : α) / 1000)
              distance := some
                (dist pair.1.latitude pair.1.longitude pair.2.latitude pair.2.longitude)
              calculatedSpeed := some
                (if 0 < ((pair.2.eventGeneratedTime - pair.1.eventGeneratedTime : Int) : α) / 1000
                 then dist pair.1.latitude pair.1.longitude pair.2.latitude pair.2.longitude
                    / (((pair.2.eventGeneratedTime - pair.1.eventGeneratedTime : Int) : α) / 1000)
                    * 3.6
                 else 0)
              isOutlier := some (decide (200 <
                (if 0 < ((pair.2.eventGeneratedTime - pair.1.eventGeneratedTime : Int) : α) / 1000
                 then dist pair.1.latitude pair.1.longitude pair.2.latitude pair.2.longitude
                    / (((pair.2.eventGeneratedTime - pair.1.eventGeneratedTime : Int) : α) / 1000)
                    * 3.6
                 else 0))) }) := by
  have hwalk : ∀ (rest : List (Fix α)) (prev : Fix α),
      (preprocessWalk dist prev rest).map markOutlier
        = ((prev :: rest).zip rest).map (fun pair =>
            { point := pair.2
              timeDiff := some
                (((pair.2.eventGeneratedTime - pair.1.eventGeneratedTime : Int) : α) / 1000)
              distance := some
                (dist pair.1.latitude pair.1.longitude pair.2.latitude pair.2.longitude)
              calculatedSpeed := some
                (if 0 < ((pair.2.eventGeneratedTime - pair.1.eventGeneratedTime : Int) : α) / 1000
                 then dist pair.1.latitude pair.1.longitude pair.2.latitude pair.2.longitude
                    / (((pair.2.eventGeneratedTime - pair.1.eventGeneratedTime : Int) : α) / 1000)
                    * 3.6
                 else 0)
              isOutlier := some (decide (200 <
                (if 0 < ((pair.2.eventGeneratedTime - pair.1.eventGeneratedTime : Int) : α) / 1000
                 then dist pair.1.latitude pair.1.longitude pair.2.latitude pair.2.longitude
                    / (((pair.2.eventGeneratedTime - pair.1.eventGeneratedTime : Int) : α) / 1000)
                    * 3.6
                 else 0))) }) := by
    intro rest
    induction rest with
    | nil => intro _; rfl
    | cons p rest ih =>
      intro prev
      simp only [preprocessWalk, List.map_cons, List.zip_cons_cons, ih p]
      rfl
  have hpoint : ∀ (rest : List (Fix α)) (prev : Fix α),
      ((preprocessWalk dist prev rest).map markOutlier).map (fun p => p.point) = rest := by
    intro rest
    induction rest with
    | nil => intro _; rfl
    | cons p rest ih =>
      intro prev
      simp only [preprocessWalk, List.map_cons, ih p]
      rfl
  refine ⟨rfl, ?_, rfl, ?_⟩
  · simp only [preprocessData, computeMetrics, List.map_cons, hpoint]
    rfl
  · simp only [preprocessData, computeMetrics, List.map_cons, List.tail_cons]
    exact hwalk rest first

/-! ## What every candidate of a strategy satisfies -/

theorem timeGapLoop_forall (dist : α → α → α → α → α) (params : TimeGapParams α)
    (tripId : String) (Q : Stoppage α → Prop) (R : Fix α → Fix α → Prop)
    (hQ : ∀ i a b, R a b → Q (mkTimeGapStoppage tripId i a b)) (rest : List (Fix α)) :
    ∀ (stoppages : List (Stoppage α)) (i : Nat) (previous : Fix α),
      (∀ s ∈ stoppages, Q s) → List.Chain R previous rest →
      ∀ s ∈ timeGapLoop dist params tripId stoppages i previous rest, Q s := by
  induction rest with
  | nil => intro stoppages _ _ h _; exact h
  | cons current rest ih =>
    intro stoppages i previous h hchain
    rw [List.chain_cons] at hchain
    simp only [timeGapLoop]
    apply ih _ _ _ _ hchain.2
    intro s hs
    split_ifs at hs
    · simp only [List.mem_append, List.mem_singleton] at hs
      rcases hs with hs | rfl
      · exact h s hs
      · exact hQ i previous current hchain.1
    · exact h s hs

/-- Every Time-Gap candidate is built from two consecutive fixes of the trip. -/
theorem detectTimeGapStoppages_forall (dist : α → α → α → α → α) (params : TimeGapParams α)
    (trip : Trip α) (Q : Stoppage α → Prop) (R : Fix α → Fix α → Prop)
    (hQ : ∀ i a b, R a b → Q (mkTimeGapStoppage trip.id i a b))
    (hR : trip.points.Chain' R) :
    ∀ s ∈ detectTimeGapStoppages dist params trip, Q s := by
  unfold detectTimeGapStoppages
  cases hp : trip.points with
  | nil => intro s hs; simp at hs
  | cons first rest =>
    rw [hp] at hR
    exact timeGapLoop_forall dist params trip.id Q R hQ rest [] 1 first
      (by intro s hs; simp at hs) hR

theorem speedStep_stoppages_mem (params : SpeedParams α) (tripId : String)
    (st : SpeedState α) (p : Fix α) (s : Stoppage α)
    (hs : s ∈ (speedStep params tripId st p).stoppages) :
    s ∈ st.stoppages ∨ ∃ start, st.currentStopStart = some start ∧
      s = mkSpeedStoppage tripId st.stoppages.length start st.stopPoints p := by
  unfold speedStep at hs
  by_cases hlow : p.speed ≤ params.maxSpeedKmh
  · rw [if_pos hlow] at hs
    cases hc : st.currentStopStart with
    | none => rw [hc] at hs; exact Or.inl hs
    | some start => rw [hc] at hs; exact Or.inl hs
  · rw [if_neg hlow] at hs
    cases hc : st.currentStopStart with
    | none => rw [hc] at hs; exact Or.inl hs
    | some start =>
      rw [hc] at hs
      simp only at hs
      by_cases h1 : 1 < st.stopPoints.length
      · rw [if_pos h1] at hs
        by_cases h2 : params.minDurationMinutes ≤ minutesBetween start p
        · rw [if_pos h2] at hs
          simp only [List.mem_append, List.mem_singleton] at hs
          rcases hs with hs | hs
          · exact Or.inl hs
          · exact Or.inr ⟨start, rfl, hs⟩
        · rw [if_neg h2] at hs; exact Or.inl hs
      · rw [if_neg h1] at hs; exact Or.inl hs

theorem speedStep_start (params : SpeedParams α) (tripId : String)
    (st : SpeedState α) (p start : Fix α)
    (hs : (speedStep params tripId st p).currentStopStart = some start) :
    start = p ∨ st.currentStopStart = some start := by
  unfold speedStep at hs
  by_cases hlow : p.speed ≤ params.maxSpeedKmh
  · rw [if_pos hlow] at hs
    cases hc : st.currentStopStart with
    | none =>
      rw [hc] at hs
      simp only [Option.some.injEq] at hs
      exact Or.inl hs.symm
    | some start' =>
      rw [hc] at hs
      exact Or.inr hs
  · rw [if_neg hlow] at hs
    simp at hs

theorem speedLoop_forall (params : SpeedParams α) (tripId : String)
    (Q : Stoppage α → Prop) (R : Fix α → Fix α → Prop)
    (hQ : ∀ n start run point, R start point → Q (mkSpeedStoppage tripId n start run point))
    (points : List (Fix α)) :
    ∀ (st : SpeedState α), (∀ s ∈ st.stoppages, Q s) →
      (∀ start, st.currentStopStart = some start → ∀ p ∈ points, R start p) →
      points.Pairwise R →
      ∀ s ∈ (points.foldl (speedStep params tripId) st).stoppages, Q s := by
  induction points with
  | nil => intro st h _ _; exact h
  | cons p points ih =>
    intro st h hstart hpair
    rw [List.pairwise_cons] at hpair
    rw [List.foldl_cons]
    apply ih _ _ _ hpair.2
    · intro s hs
      rcases speedStep_stoppages_mem params tripId st p s hs with hs | ⟨start, hc, rfl⟩
      · exact h s hs
      · exact hQ _ _ _ _ (hstart start hc p (List.mem_cons_self _ _))
    · intro start hs q hq
      rcases speedStep_start params tripId st p start hs with rfl | hc
      · exact hpair.1 q hq
      · exact hstart start hc q (List.mem_cons_of_mem _ hq)

/-- Every Speed candidate is built from a fix of the trip and a later one. -/
theorem detectSpeedBasedStoppages_forall (params : SpeedParams α) (trip : Trip α)
    (Q : Stoppage α → Prop) (R : Fix α → Fix α → Prop)
    (hQ : ∀ n start run point, R start point → Q (mkSpeedStoppage trip.id n start run point))
    (hR : trip.points.Pairwise R) :
    ∀ s ∈ detectSpeedBasedStoppages params trip, Q s :=
  speedLoop_forall params trip.id Q R hQ trip.points _ (by intro s hs; simp at hs)
    (by intro start hs; simp at hs) hR

theorem assignToCluster_points (dist : α → α → α → α → α) (params : ClusteringParams α)
    (P : Fix α → Prop) (point : Fix α) (hp : P point) (clusters : List (Cluster α)) :
    ∀ clusters', assignToCluster dist params point clusters = some clusters' →
      (∀ c ∈ clusters, ∀ q ∈ c.points, P q) → ∀ c ∈ clusters', ∀ q ∈ c.points, P q := by
  induction clusters with
  | nil => intro _ h; simp [assignToCluster] at h
  | cons cluster rest ih =>
    intro clusters' h hall
    simp only [assignToCluster] at h
    split_ifs at h
    · simp only [Option.some.injEq] at h
      subst h
      intro c hc q hq
      rcases List.mem_cons.mp hc with rfl | hc
      · simp only [addToCluster, List.mem_append, List.mem_singleton] at hq
        rcases hq with hq | rfl
        · exact hall cluster (List.mem_cons_self _ _) q hq
        · exact hp
      · exact hall c (List.mem_cons_of_mem _ hc) q hq
    · cases hr : assignToCluster dist params point rest with
      | none => rw [hr] at h; simp at h
      | some cs =>
        rw [hr] at h
        simp only [Option.map_some', Option.some.injEq] at h
        subst h
        intro c hc q hq
        rcases List.mem_cons.mp hc with rfl | hc
        · exact hall c (List.mem_cons_self _ _) q hq
        · exact ih cs hr (fun c hc => hall c (List.mem_cons_of_mem _ hc)) c hc q hq

theorem buildClusters_points (dist : α → α → α → α → α) (params : ClusteringParams α)
    (P : Fix α → Prop) (points : List (Fix α)) :
    ∀ (clusters : List (Cluster α)), (∀ c ∈ clusters, ∀ q ∈ c.points, P q) →
      (∀ p ∈ points, P p) →
      ∀ c ∈ points.foldl (clusterStep dist params) clusters, ∀ q ∈ c.points, P q := by
  induction points with
  | nil => intro clusters h _; exact h
  | cons p points ih =>
    intro clusters h hp
    rw [List.foldl_cons]
    apply ih _ _ (fun q hq => hp q (List.mem_cons_of_mem _ hq))
    unfold clusterStep
    cases ha : assignToCluster dist params p clusters with
    | none =>
      intro c hc q hq
      simp only [List.mem_append, List.mem_singleton] at hc
      rcases hc with hc | rfl
      · exact h c hc q hq
      · simp only [List.mem_singleton] at hq
        rw [hq]; exact hp p (List.mem_cons_self _ _)
    | some cs =>
      exact assignToCluster_points dist params P p (hp p (List.mem_cons_self _ _)) clusters cs ha h

theorem clustersToStoppages_forall (params : ClusteringParams α) (tripId : String)
    (Q : Stoppage α → Prop) (P : Fix α → Prop)
    (hQ : ∀ index cluster first last, P first → P last → timeLE first last →
      Q (mkClusterStoppage tripId index cluster first last))
    (clusters : List (Cluster α)) :
    ∀ (stoppages : List (Stoppage α)) (index : Nat), (∀ s ∈ stoppages, Q s) →
      (∀ c ∈ clusters, ∀ q ∈ c.points, P q) →
      ∀ s ∈ clustersToStoppages params tripId stoppages index clusters, Q s := by
  induction clusters with
  | nil => intro stoppages _ h _; exact h
  | cons cluster rest ih =>
    intro stoppages index h hP
    simp only [clustersToStoppages]
    apply ih _ _ _ (fun c hc => hP c (List.mem_cons_of_mem _ hc))
    intro s hs
    unfold clusterToStoppage at hs
    split_ifs at hs
    · simp only at hs
      cases hh : (sortByTime cluster.points).head? with
      | none => rw [hh] at hs; exact h s hs
      | some first =>
        cases hl : (sortByTime cluster.points).getLast? with
        | none => rw [hh, hl] at hs; exact h s hs
        | some last =>
          rw [hh, hl] at hs
          simp only at hs
          split_ifs at hs
          · simp only [List.mem_append, List.mem_singleton] at hs
            rcases hs with hs | rfl
            · exact h s hs
            · have hfm : first ∈ sortByTime cluster.points := List.mem_of_mem_head? hh
              have hlm : last ∈ sortByTime cluster.points := List.mem_of_mem_getLast? hl
              have hPc := hP cluster (List.mem_cons_self _ _)
              refine hQ _ _ _ _ (hPc first ((sortByTime_perm _).mem_iff.mp hfm))
                (hPc last ((sortByTime_perm _).mem_iff.mp hlm)) ?_
              exact sorted_le_getLast _ (sortByTime_sorted _) last hl first hfm
          · exact h s hs
    · exact h s hs

/-- Every Clustering candidate spans from the earliest to the latest member of a
cluster, both fixes of the trip. -/
theorem detectClusteringStoppages_forall (dist : α → α → α → α → α)
    (params : ClusteringParams α) (trip : Trip α)
    (Q : Stoppage α → Prop) (P : Fix α → Prop)
    (hQ : ∀ index cluster first last, P first → P last → timeLE first last →
      Q (mkClusterStoppage trip.id index cluster first last))
    (hP : ∀ p ∈ trip.points, P p) :
    ∀ s ∈ detectClusteringStoppages dist params trip, Q s :=
  clustersToStoppages_forall params trip.id Q P hQ _ [] 0 (by intro s hs; simp at hs)
    (buildClusters_points dist params P trip.points [] (by intro c hc; simp at hc) hP)

theorem hybridLoop_forall (dist : α → α → α → α → α) (params : HybridParams α)
    (trip : Trip α) (Q : Stoppage α → Prop) (P : Stoppage α → Prop)
    (hQ : ∀ (n : Nat) (stop : Stoppage α), P stop →
      Q { stop with
          id := "hybrid_" ++ trip.id ++ "_" ++ toString n
          algorithm := "Hybrid Multi-Criteria"
          confidence := hybridScore dist params trip stop
          type := "Multi-Criteria" })
    (pool : List (Stoppage α)) :
    ∀ (stoppages : List (Stoppage α)), (∀ s ∈ stoppages, Q s) → (∀ s ∈ pool, P s) →
      ∀ s ∈ pool.foldl (hybridStep dist params trip) stoppages, Q s := by
  induction pool with
  | nil => intro _ h _; exact h
  | cons stop pool ih =>
    intro stoppages h hP
    rw [List.foldl_cons]
    apply ih _ _ (fun s hs => hP s (List.mem_cons_of_mem _ hs))
    intro s hs
    unfold hybridStep at hs
    simp only at hs
    split_ifs at hs
    · simp only [List.mem_append, List.mem_singleton] at hs
      rcases hs with hs | rfl
      · exact h s hs
      · exact hQ _ stop (hP stop (List.mem_cons_self _ _))
    · exact h s hs

theorem similarLoop_members (dist : α → α → α → α → α) (stop : Stoppage α) (index : Nat)
    (P : Stoppage α → Prop) (rest : List (Stoppage α)) :
    ∀ (otherIndex : Nat) (st : SimilarState α), (∀ s ∈ st.similar, P s) →
      (∀ s ∈ rest, P s) →
      ∀ s ∈ (similarLoop dist stop index otherIndex rest st).similar, P s := by
  induction rest with
  | nil => intro _ _ h _; exact h
  | cons o rest ih =>
    intro j st h hrest
    simp only [similarLoop]
    apply ih _ _ _ (fun s hs => hrest s (List.mem_cons_of_mem _ hs))
    intro s hs
    split_ifs at hs
    · simp only [List.mem_append, List.mem_singleton] at hs
      rcases hs with hs | rfl
      · exact h s hs
      · exact hrest s (List.mem_cons_self _ _)
    · exact h s hs
    · exact h s hs

theorem mergeLoop_forall (dist : α → α → α → α → α) (stoppages : List (Stoppage α))
    (Q : Stoppage α → Prop) (P : Stoppage α → Prop) (hP : ∀ s ∈ stoppages, P s)
    (hQ : ∀ n stop members, P stop → (∀ s ∈ members, P s) →
      Q (mergeGroup n stop (stop :: members)))
    (rest : List (Stoppage α)) :
    ∀ (index : Nat) (st : MergeState α), (∀ s ∈ st.merged, Q s) → (∀ s ∈ rest, P s) →
      ∀ s ∈ (mergeLoop dist stoppages index rest st).merged, Q s := by
  induction rest with
  | nil => intro _ _ h _; exact h
  | cons stop rest ih =>
    intro index st h hrest
    simp only [mergeLoop]
    apply ih _ _ _ (fun s hs => hrest s (List.mem_cons_of_mem _ hs))
    intro s hs
    split_ifs at hs
    · exact h s hs
    · simp only [List.mem_append, List.mem_singleton] at hs
      rcases hs with hs | rfl
      · exact h s hs
      · have hstop : P stop := hrest stop (List.mem_cons_self _ _)
        obtain ⟨members, hm⟩ := similarLoop_seed dist stop index stoppages 0
          { similar := [stop], processed := st.processed ++ [index] } ⟨[], rfl⟩
        have hall := similarLoop_members dist stop index P stoppages 0
          { similar := [stop], processed := st.processed ++ [index] }
          (by intro s hs; simp only [List.mem_singleton] at hs; rw [hs]; exact hstop) hP
        unfold findSimilar
        rw [hm] at hall ⊢
        exact hQ _ stop members hstop (fun s hs => hall s (List.mem_cons_of_mem _ hs))

/-- What holds of every group merged from candidates with a property holds of
every element `mergeSimilarStoppages` returns. -/
theorem mergeSimilarStoppages_forall (dist : α → α → α → α → α)
    (stoppages : List (Stoppage α)) (Q : Stoppage α → Prop) (P : Stoppage α → Prop)
    (hP : ∀ s ∈ stoppages, P s)
    (hQ : ∀ n stop members, P stop → (∀ s ∈ members, P s) →
      Q (mergeGroup n stop (stop :: members))) :
    ∀ s ∈ mergeSimilarStoppages dist stoppages, Q s :=
  mergeLoop_forall dist stoppages Q P hP hQ stoppages 0 _ (by intro s hs; simp at hs) hP

/-! ## Durations and confidences -/

theorem minutesBetween_nonneg (a b : Fix α) (h : timeLE a b) : (0 : α) ≤ minutesBetween a b := by
  unfold minutesBetween
  have h' : a.eventGeneratedTime ≤ b.eventGeneratedTime := h
  have : (0 : α) ≤ ((b.eventGeneratedTime - a.eventGeneratedTime : Int) : α) := by
    exact_mod_cast (by omega : (0 : Int) ≤ b.eventGeneratedTime - a.eventGeneratedTime)
  positivity

theorem minutesBetween_eq_span (a b : Fix α) :
    (minutesBetween a b : α)
      = ((b.eventGeneratedTime - a.eventGeneratedTime : Int) : α) / 60000 := by
  unfold minutesBetween
  norm_num

theorem min_one_div_in_unit (x c : α) (hx : 0 ≤ x) (hc : 0 < c) :
    0 ≤ min 1 (x / c) ∧ min 1 (x / c) ≤ 1 :=
  ⟨le_min zero_le_one (div_nonneg hx hc.le), min_le_left _ _⟩

theorem mergeGroup_durationIsSpan (n : Nat) (stop : Stoppage α) (members : List (Stoppage α))
    (h : DurationIsSpan stop) : DurationIsSpan (mergeGroup n stop (stop :: members)) := by
  unfold mergeGroup
  split_ifs
  · exact h
  · unfold DurationIsSpan
    norm_num

theorem mergeGroup_confidenceInUnit (n : Nat) (stop : Stoppage α) (members : List (Stoppage α))
    (h : ConfidenceInUnit stop) (hm : ∀ s ∈ members, ConfidenceInUnit s) :
    ConfidenceInUnit (mergeGroup n stop (stop :: members)) := by
  unfold mergeGroup
  split_ifs
  · exact h
  · obtain ⟨hmem, _⟩ := mathMaxNum_spec ((stop :: members).map (fun s => s.confidence))
      (by simp)
    obtain ⟨s, hs, hsc⟩ := List.mem_map.mp hmem
    have hc : ConfidenceInUnit s := by
      rcases List.mem_cons.mp hs with rfl | hs
      · exact h
      · exact hm s hs
    unfold ConfidenceInUnit
    simp only
    rw [← hsc]
    exact hc

/-- C19: when each fix's `timestamp` is the date of its `eventGeneratedTime`, every
stoppage of the Time-Gap, Speed, Clustering and Hybrid detection of a trip, and
every stoppage `mergeSimilarStoppages` returns on such candidates, has
`duration = (end - start) / 60000`, start and end being epoch milliseconds. -/
theorem stoppage_duration_is_span (dist : α → α → α → α → α) (params : Parameters α)
    (trip : Trip α) (hdate : ∀ p ∈ trip.points, p.timestamp = p.eventGeneratedTime) :
    (∀ s ∈ detectTimeGapStoppages dist params.timeGap trip, DurationIsSpan s) ∧
      (∀ s ∈ detectSpeedBasedStoppages params.speed trip, DurationIsSpan s) ∧
      (∀ s ∈ detectClusteringStoppages dist params.clustering trip, DurationIsSpan s) ∧
      (∀ s ∈ detectHybridStoppages dist params trip, DurationIsSpan s) ∧
      ∀ candidates : List (Stoppage α),
        (∀ c ∈ candidates,
          c ∈ detectTimeGapStoppages dist params.timeGap trip
            ++ detectSpeedBasedStoppages params.speed trip
            ++ detectClusteringStoppages dist params.clustering trip
            ++ detectHybridStoppages dist params trip) →
        ∀ m ∈ mergeSimilarStoppages dist candidates, DurationIsSpan m := by
  have htg : ∀ s ∈ detectTimeGapStoppages dist params.timeGap trip, DurationIsSpan s := by
    apply detectTimeGapStoppages_forall dist params.timeGap trip DurationIsSpan
      (fun a b => a.timestamp = a.eventGeneratedTime ∧ b.timestamp = b.eventGeneratedTime)
    · intro i a b hab
      simp only [DurationIsSpan, mkTimeGapStoppage, hab.1, hab.2, minutesBetween_eq_span]
    · have : trip.points.Pairwise (fun a b => a.timestamp = a.eventGeneratedTime
          ∧ b.timestamp = b.eventGeneratedTime) :=
        List.Pairwise.imp_of_mem (fun ha hb _ => ⟨hdate _ ha, hdate _ hb⟩)
          (List.pairwise_of_forall (R := fun _ _ => True) (fun _ _ => trivial))
      exact this.chain'
  have hsp : ∀ s ∈ detectSpeedBasedStoppages params.speed trip, DurationIsSpan s := by
    apply detectSpeedBasedStoppages_forall params.speed trip DurationIsSpan
      (fun a _ => a.timestamp = a.eventGeneratedTime)
    · intro n start run point hstart
      simp only [DurationIsSpan, mkSpeedStoppage, hstart, minutesBetween_eq_span]
    · exact List.Pairwise.imp_of_mem (fun ha _ _ => hdate _ ha)
        (List.pairwise_of_forall (R := fun _ _ => True) (fun _ _ => trivial))
  have hcl : ∀ s ∈ detectClusteringStoppages dist params.clustering trip, DurationIsSpan s := by
    apply detectClusteringStoppages_forall dist params.clustering trip DurationIsSpan
      (fun p => p.timestamp = p.eventGeneratedTime)
    · intro index cluster first last hf hl _
      simp only [DurationIsSpan, mkClusterStoppage, hf, hl, minutesBetween_eq_span]
    · exact hdate
  have hhy : ∀ s ∈ detectHybridStoppages dist params trip, DurationIsSpan s := by
    apply hybridLoop_forall dist params.hybrid trip DurationIsSpan DurationIsSpan
    · intro n stop hstop
      exact hstop
    · intro s hs; simp at hs
    · intro s hs
      simp only [potentialStops, List.mem_append] at hs
      rcases hs with (hs | hs) | hs
      · exact htg s hs
      · exact hsp s hs
      · exact hcl s hs
  refine ⟨htg, hsp, hcl, hhy, ?_⟩
  intro candidates hc
  apply mergeSimilarStoppages_forall dist candidates DurationIsSpan DurationIsSpan
  · intro c hcm
    have := hc c hcm
    simp only [List.mem_append] at this
    rcases this with ((h | h) | h) | h
    · exact htg c h
    · exact hsp c h
    · exact hcl c h
    · exact hhy c h
  · intro n stop members hstop _
    exact mergeGroup_durationIsSpan n stop members hstop

/-- C20: for a trip with non-decreasing timestamps every candidate of
`detectTimeGapStoppages`, `detectSpeedBasedStoppages` and
`detectClusteringStoppages` has a confidence in `[0, 1]`, and so has every
stoppage `mergeSimilarStoppages` builds from such candidates. -/
theorem candidate_confidence_in_unit (dist : α → α → α → α → α) (params : Parameters α)
    (trip : Trip α)
    (hsorted : trip.points.Pairwise (fun a b => a.eventGeneratedTime ≤ b.eventGeneratedTime)) :
    (∀ s ∈ detectTimeGapStoppages dist params.timeGap trip, ConfidenceInUnit s) ∧
      (∀ s ∈ detectSpeedBasedStoppages params.speed trip, ConfidenceInUnit s) ∧
      (∀ s ∈ detectClusteringStoppages dist params.clustering trip, ConfidenceInUnit s) ∧
      ∀ candidates : List (Stoppage α),
        (∀ c ∈ candidates,
          c ∈ detectTimeGapStoppages dist params.timeGap trip
            ++ detectSpeedBasedStoppages params.speed trip
            ++ detectClusteringStoppages dist params.clustering trip) →
        ∀ m ∈ mergeSimilarStoppages dist candidates, ConfidenceInUnit m := by
  have htg : ∀ s ∈ detectTimeGapStoppages dist params.timeGap trip, ConfidenceInUnit s := by
    apply detectTimeGapStoppages_forall dist params.timeGap trip ConfidenceInUnit timeLE
    · intro i a b hab
      exact min_one_div_in_unit _ 10 (minutesBetween_nonneg a b hab) (by norm_num)
    · exact hsorted.chain'
  have hsp : ∀ s ∈ detectSpeedBasedStoppages params.speed trip, ConfidenceInUnit s := by
    apply detectSpeedBasedStoppages_forall params.speed trip ConfidenceInUnit timeLE
    · intro n start run point hab
      exact min_one_div_in_unit _ 10 (minutesBetween_nonneg start point hab) (by norm_num)
    · exact hsorted
  have hcl : ∀ s ∈ detectClusteringStoppages dist params.clustering trip,
      ConfidenceInUnit s := by
    apply detectClusteringStoppages_forall dist params.clustering trip ConfidenceInUnit
      (fun _ => True)
    · intro index cluster first last _ _ _
      exact min_one_div_in_unit _ 10 (Nat.cast_nonneg _) (by norm_num)
    · intro p _; trivial
  refine ⟨htg, hsp, hcl, ?_⟩
  intro candidates hc
  apply mergeSimilarStoppages_forall dist candidates ConfidenceInUnit ConfidenceInUnit
  · intro c hcm
    have := hc c hcm
    simp only [List.mem_append] at this
    rcases this with (h | h) | h
    · exact htg c h
    · exact hsp c h
    · exact hcl c h
  · intro n stop members hstop hm
    exact mergeGroup_confidenceInUnit n stop members hstop hm

theorem getAverageSpeedNearLocation_nonneg (dist : α → α → α → α → α) (lat lng : α)
    (startTime endTime : Int) (trip : Trip α) (hspeed : ∀ p ∈ trip.points, 0 ≤ p.speed) :
    0 ≤ getAverageSpeedNearLocation dist lat lng startTime endTime trip := by
  unfold getAverageSpeedNearLocation
  simp only
  split_ifs
  · exact le_refl _
  · rw [foldl_add_eq_sum, zero_add]
    apply div_nonneg _ (Nat.cast_nonneg _)
    apply List.sum_nonneg
    intro x hx
    obtain ⟨p, hp, rfl⟩ := List.mem_map.mp hx
    exact hspeed p (List.mem_filter.mp hp).1

theorem hybridScore_in_unit (dist : α → α → α → α → α) (params : HybridParams α)
    (trip : Trip α) (stop : Stoppage α) (hspeed : ∀ p ∈ trip.points, 0 ≤ p.speed)
    (hdur : 0 ≤ stop.duration)
    (h1 : 0 ≤ params.speedWeight) (h2 : 0 ≤ params.timeWeight) (h3 : 0 ≤ params.locationWeight)
    (hsum : params.speedWeight + params.timeWeight + params.locationWeight ≤ 1) :
    0 ≤ hybridScore dist params trip stop ∧ hybridScore dist params trip stop ≤ 1 := by
  rw [hybridScore_eq_compositeScore]
  unfold compositeScore
  have havg := getAverageSpeedNearLocation_nonneg dist stop.latitude stop.longitude
    stop.startTime stop.endTime trip hspeed
  have hs0 : 0 ≤ speedScore dist trip stop := le_max_left _ _
  have hs1 : speedScore dist trip stop ≤ 1 := by
    unfold speedScore
    apply max_le zero_le_one
    have : 0 ≤ getAverageSpeedNearLocation dist stop.latitude stop.longitude
        stop.startTime stop.endTime trip / 10 := div_nonneg havg (by norm_num)
    linarith
  obtain ⟨ht0, ht1⟩ : 0 ≤ timeScore stop ∧ timeScore stop ≤ 1 :=
    min_one_div_in_unit _ 20 hdur (by norm_num)
  obtain ⟨hl0, hl1⟩ : 0 ≤ locationScore dist trip stop ∧ locationScore dist trip stop ≤ 1 :=
    min_one_div_in_unit _ 5 (Nat.cast_nonneg _) (by norm_num)
  constructor
  · have := mul_nonneg h1 hs0
    have := mul_nonneg h2 ht0
    have := mul_nonneg h3 hl0
    linarith
  · have := mul_le_mul_of_nonneg_left hs1 h1
    have := mul_le_mul_of_nonneg_left ht1 h2
    have := mul_le_mul_of_nonneg_left hl1 h3
    linarith

/-- C11: for a trip with non-negative speeds and non-decreasing timestamps and for
hybrid weights that each lie in `[0, 1]` and sum to at most 1, every candidate
`detectHybridStoppages` returns has a confidence in `[0, 1]`. -/
theorem detectHybridStoppages_confidence_in_unit (dist : α → α → α → α → α)
    (params : Parameters α) (trip : Trip α)
    (hspeed : ∀ p ∈ trip.points, 0 ≤ p.speed)
    (hsorted : trip.points.Pairwise (fun a b => a.eventGeneratedTime ≤ b.eventGeneratedTime))
    (h1 : 0 ≤ params.hybrid.speedWeight ∧ params.hybrid.speedWeight ≤ 1)
    (h2 : 0 ≤ params.hybrid.timeWeight ∧ params.hybrid.timeWeight ≤ 1)
    (h3 : 0 ≤ params.hybrid.locationWeight ∧ params.hybrid.locationWeight ≤ 1)
    (hsum : params.hybrid.speedWeight + params.hybrid.timeWeight
      + params.hybrid.locationWeight ≤ 1) :
    ∀ s ∈ detectHybridStoppages dist params trip, 0 ≤ s.confidence ∧ s.confidence ≤ 1 := by
  have htg : ∀ s ∈ detectTimeGapStoppages dist params.timeGap trip, 0 ≤ s.duration :=
    detectTimeGapStoppages_forall dist params.timeGap trip _ timeLE
      (fun _ a b hab => minutesBetween_nonneg a b hab) hsorted.chain'
  have hsp : ∀ s ∈ detectSpeedBasedStoppages params.speed trip, 0 ≤ s.duration :=
    detectSpeedBasedStoppages_forall params.speed trip _ timeLE
      (fun _ start _ point hab => minutesBetween_nonneg start point hab) hsorted
  have hcl : ∀ s ∈ detectClusteringStoppages dist params.clustering trip, 0 ≤ s.duration :=
    detectClusteringStoppages_forall dist params.clustering trip _ (fun _ => True)
      (fun _ _ first last _ _ hab => minutesBetween_nonneg first last hab)
      (fun _ _ => trivial)
  apply hybridLoop_forall dist params.hybrid trip
    (fun s => 0 ≤ s.confidence ∧ s.confidence ≤ 1) (fun s => 0 ≤ s.duration)
  · intro n stop hstop
    exact hybridScore_in_unit dist params.hybrid trip stop hspeed hstop h1.1 h2.1 h3.1 hsum
  · intro s hs; simp at hs
  · intro s hs
    simp only [potentialStops, List.mem_append] at hs
    rcases hs with (hs | hs) | hs
    · exact htg s hs
    · exact hsp s hs
    · exact hcl s hs

/-! ## Time-Gap detection on segmented trips -/

/-- When every consecutive gap is below `minGapMinutes` the loop pushes nothing. -/
theorem timeGapLoop_small_gaps (dist : α → α → α → α → α) (params : TimeGapParams α)
    (tripId : String) (rest : List (Fix α)) :
    ∀ (stoppages : List (Stoppage α)) (i : Nat) (previous : Fix α),
      List.Chain (fun a b => minutesBetween a b < params.minGapMinutes) previous rest →
      timeGapLoop dist params tripId stoppages i previous rest = stoppages := by
  induction rest with
  | nil => intro stoppages i previous _; rfl
  | cons current rest ih =>
    intro stoppages i previous hchain
    rw [List.chain_cons] at hchain
    simp only [timeGapLoop]
    rw [if_neg (fun hq => absurd hq.1 (not_le.mpr hchain.1))]
    exact ih stoppages (i + 1) current hchain.2

/-- C24: when `minGapMinutes` exceeds the segmentation threshold `T`, every
consecutive gap inside a trip that `segmentTrips` produced with threshold `T` is
at most `T` minutes, and `detectTimeGapStoppages` returns no candidate on it. -/
theorem detectTimeGapStoppages_minGap_above_threshold (dist : α → α → α → α → α)
    (threshold : α) (gpsData : List (Fix α)) (trips : List (Trip α))
    (params : TimeGapParams α)
    (h : segmentTrips dist threshold gpsData = some trips)
    (hgap : threshold < params.minGapMinutes) :
    ∀ t ∈ trips,
      t.points.Chain' (fun a b => minutesBetween a b ≤ threshold) ∧
        detectTimeGapStoppages dist params t = [] := by
  intro t ht
  obtain ⟨_, _, h3⟩ := segmentTrips_tripOK dist threshold gpsData trips h t ht
  refine ⟨h3.imp (fun _ _ hab => hab.2), ?_⟩
  unfold detectTimeGapStoppages
  cases hp : t.points with
  | nil => rfl
  | cons first rest =>
    rw [hp] at h3
    exact timeGapLoop_small_gaps dist params t.id rest [] 1 first
      (List.Chain.imp (fun _ _ hab => lt_of_le_of_lt hab.2 hgap) h3)

/-! ## Segmentation under a growing threshold -/

theorem emitRuns_points (dist : α → α → α → α → α) (equipId : String) (equipIndex : Nat)
    (runs : List (List (Fix α))) :
    ∀ n, ((emitRuns dist equipId equipIndex n runs).map (fun t => t.points)).flatten
      = coveredFixes runs := by
  induction runs with
  | nil => intro n; rfl
  | cons run runs ih =>
    intro n
    simp only [emitRuns, coveredFixes, List.map_append, List.flatten_append, ih]
    split_ifs <;> simp [mkTrip]

/-- A buffer that is a suffix of another one contributes a sublist of what the
longer buffer contributes, also after both took the same fix and the same rest
of the run. -/
theorem covered_head_sublist {β : Type} (buf1 buf2 tail1 tail2 : List β)
    (hbuf : List.IsSuffix buf1 buf2) (htail : List.Sublist tail1 tail2) (hlen : tail1.length ≤ tail2.length) :
    List.Sublist (if 1 < (buf1 ++ tail1).length then buf1 ++ tail1 else [])
      (if 1 < (buf2 ++ tail2).length then buf2 ++ tail2 else []) := by
  have hlen2 : buf1.length ≤ buf2.length := hbuf.length_le
  by_cases h1 : 1 < (buf1 ++ tail1).length
  · have h2 : 1 < (buf2 ++ tail2).length := by
      simp only [List.length_append] at h1 ⊢; omega
    rw [if_pos h1, if_pos h2]
    exact List.Sublist.append hbuf.sublist htail
  · rw [if_neg h1]
    exact List.nil_sublist _

theorem contRuns_covered_sublist (T1 T2 : α) (hle : T1 ≤ T2) (rest : List (Fix α)) :
    ∀ (prev : Fix α) (buf1 buf2 : List (Fix α)), List.IsSuffix buf1 buf2 →
      List.Sublist
        (coveredFixes ((buf1 ++ (contRuns T1 prev rest).1) :: (contRuns T1 prev rest).2))
        (coveredFixes ((buf2 ++ (contRuns T2 prev rest).1) :: (contRuns T2 prev rest).2)) := by
  induction rest with
  | nil =>
    intro prev buf1 buf2 hbuf
    simp only [contRuns, coveredFixes, List.append_nil]
    have := covered_head_sublist buf1 buf2 [] [] hbuf (List.Sublist.refl _) le_rfl
    simpa using this
  | cons q rest ih =>
    intro prev buf1 buf2 hbuf
    by_cases h2 : T2 < minutesBetween prev q
    · have h1 : T1 < minutesBetween prev q := lt_of_le_of_lt hle h2
      simp only [contRuns, h1, h2, if_true, List.append_nil]
      have hrec := ih q [q] [q] (List.suffix_refl _)
      have hhead := covered_head_sublist buf1 buf2 [] [] hbuf (List.Sublist.refl _) le_rfl
      simp only [List.append_nil] at hhead
      rw [coveredFixes, coveredFixes]
      exact List.Sublist.append hhead hrec
    · by_cases h1 : T1 < minutesBetween prev q
      · simp only [contRuns, h1, h2, if_true, if_false, List.append_nil]
        have hrec := ih q [q] (buf2 ++ [q]) (List.suffix_append _ _)
        rw [coveredFixes]
        have hgoal : (buf2 ++ q :: (contRuns T2 q rest).1) = (buf2 ++ [q]) ++ (contRuns T2 q rest).1 := by
          simp
        rw [hgoal]
        by_cases hb1 : 1 < buf1.length
        · rw [if_pos hb1]
          -- the closed buffer is part of the longer open run
          have hstep : List.Sublist (buf1 ++ coveredFixes
              (([q] ++ (contRuns T2 q rest).1) :: (contRuns T2 q rest).2))
              (coveredFixes
                (((buf2 ++ [q]) ++ (contRuns T2 q rest).1) :: (contRuns T2 q rest).2)) := by
            rw [coveredFixes, coveredFixes]
            have hlen : 1 < ((buf2 ++ [q]) ++ (contRuns T2 q rest).1).length := by
              have := hbuf.length_le
              simp only [List.length_append, List.length_singleton]; omega
            rw [if_pos hlen, ← List.append_assoc]
            refine List.Sublist.append ?_ (List.Sublist.refl _)
            rw [List.append_assoc buf2]
            refine List.Sublist.append hbuf.sublist ?_
            split_ifs
            · exact List.Sublist.refl _
            · exact List.nil_sublist _
          refine List.Sublist.trans ?_ hstep
          exact List.Sublist.append (List.Sublist.refl _)
            (ih q [q] [q] (List.suffix_refl _))
        · rw [if_neg hb1, List.nil_append]
          exact hrec
      · simp only [contRuns, h1, h2, if_false]
        have hsuffix : List.IsSuffix (buf1 ++ [q]) (buf2 ++ [q]) := by
          obtain ⟨t, ht⟩ := hbuf
          exact ⟨t, by rw [← List.append_assoc, ht]⟩
        have hrec := ih q (buf1 ++ [q]) (buf2 ++ [q]) hsuffix
        simpa using hrec

theorem splitRuns_covered_sublist (T1 T2 : α) (hle : T1 ≤ T2) (l : List (Fix α)) :
    List.Sublist (coveredFixes (splitRuns T1 l)) (coveredFixes (splitRuns T2 l)) := by
  cases l with
  | nil => exact List.Sublist.refl _
  | cons p rest =>
    simpa [splitRuns] using contRuns_covered_sublist T1 T2 hle rest p [p] [p]
      (List.suffix_refl _)

theorem segmentGroups_covered_sublist (dist : α → α → α → α → α) (T1 T2 : α) (hle : T1 ≤ T2)
    (gpsData : List (Fix α)) (keys : List String) :
    ∀ equipIndex,
      List.Sublist
        ((segmentGroups dist T1 gpsData equipIndex keys).map (fun t => t.points)).flatten
        ((segmentGroups dist T2 gpsData equipIndex keys).map (fun t => t.points)).flatten := by
  induction keys with
  | nil => intro _; exact List.Sublist.refl _
  | cons k keys ih =>
    intro equipIndex
    simp only [segmentGroups, List.map_append, List.flatten_append,
      segmentGroup_eq_emitRuns, emitRuns_points]
    exact List.Sublist.append (splitRuns_covered_sublist T1 T2 hle _) (ih _)

/-- C25: when the threshold grows from `T1` to `T2`, every fix that belongs to a
trip of `segmentTrips` with threshold `T1` belongs to a trip with threshold `T2`,
and the trips cover at least as many fixes; the number of trips can grow (two
fixes 10 minutes apart: 0 trips at threshold 5, 1 trip at threshold 20) and
shrink (fixes at minutes 0, 1, 11 and 12: 2 trips at threshold 5, 1 trip at
threshold 20). -/
theorem segmentTrips_threshold_mono (dist : α → α → α → α → α) (T1 T2 : α)
    (gpsData : List (Fix α)) (trips1 trips2 : List (Trip α)) (hle : T1 ≤ T2)
    (h1 : segmentTrips dist T1 gpsData = some trips1)
    (h2 : segmentTrips dist T2 gpsData = some trips2) :
    (∀ t1 ∈ trips1, ∀ p ∈ t1.points, ∃ t2 ∈ trips2, p ∈ t2.points) ∧
      (trips1.map (fun t => t.points.length)).sum
        ≤ (trips2.map (fun t => t.points.length)).sum ∧
      (segmentTrips dist 5 [fixAtMinute 0, fixAtMinute 10]).map List.length = some 0 ∧
      (segmentTrips dist 20 [fixAtMinute 0, fixAtMinute 10]).map List.length = some 1 ∧
      (segmentTrips dist 5 [fixAtMinute 0, fixAtMinute 1, fixAtMinute 11,
        fixAtMinute 12]).map List.length = some 2 ∧
      (segmentTrips dist 20 [fixAtMinute 0, fixAtMinute 1, fixAtMinute 11,
        fixAtMinute 12]).map List.length = some 1 := by
  have hsub : List.Sublist (trips1.map (fun t => t.points)).flatten
      (trips2.map (fun t => t.points)).flatten := by
    unfold segmentTrips at h1 h2
    split_ifs at h1 h2
    simp only [Option.some.injEq] at h1 h2
    subst h1; subst h2
    exact segmentGroups_covered_sublist dist T1 T2 hle gpsData _ 0
  refine ⟨?_, ?_, ?_, ?_, ?_, ?_⟩
  · intro t1 ht1 p hp
    have hmem : p ∈ (trips1.map (fun t => t.points)).flatten :=
      List.mem_flatten.mpr ⟨t1.points, List.mem_map.mpr ⟨t1, ht1, rfl⟩, hp⟩
    obtain ⟨pts, hpts, hp2⟩ := List.mem_flatten.mp (hsub.subset hmem)
    obtain ⟨t2, ht2, rfl⟩ := List.mem_map.mp hpts
    exact ⟨t2, ht2, hp2⟩
  · have := hsub.length_le
    simpa [List.length_flatten, Function.comp_def] using this
  · simp [segmentTrips, segmentGroups, segmentGroup, segmentWalk, segmentStep,
      equipmentGroup, fixAtMinute, equipIdOf, objectPrototypeKeys, insertionKeys,
      sortByTime, timeLE, minutesBetween]
    norm_num
  · simp [segmentTrips, segmentGroups, segmentGroup, segmentWalk, segmentStep,
      equipmentGroup, fixAtMinute, equipIdOf, objectPrototypeKeys, insertionKeys,
      sortByTime, timeLE, minutesBetween]
    norm_num
  · simp [segmentTrips, segmentGroups, segmentGroup, segmentWalk, segmentStep,
      equipmentGroup, fixAtMinute, equipIdOf, objectPrototypeKeys, insertionKeys,
      sortByTime, timeLE, minutesBetween]
    norm_num
  · simp [segmentTrips, segmentGroups, segmentGroup, segmentWalk, segmentStep,
      equipmentGroup, fixAtMinute, equipIdOf, objectPrototypeKeys, insertionKeys,
      sortByTime, timeLE, minutesBetween]
    norm_num

/-! ## The groups of the merge -/

theorem similarLoop_append (dist : α → α → α → α → α) (stop : Stoppage α) (index : Nat)
    (l1 l2 : List (Stoppage α)) :
    ∀ (k : Nat) (st : SimilarState α),
      similarLoop dist stop index k (l1 ++ l2) st
        = similarLoop dist stop index (k + l1.length) l2 (similarLoop dist stop index k l1 st) := by
  induction l1 with
  | nil => intro k st; rfl
  | cons o l1 ih =>
    intro k st
    simp only [List.cons_append, similarLoop, List.length_cons]
    rw [show k + (l1.length + 1) = k + 1 + l1.length by omega]
    exact ih _ _

/-- The scan passes over candidates that are all in a group already. -/
theorem similarLoop_processed (dist : α → α → α → α → α) (stop : Stoppage α) (index : Nat)
    (before : List (Stoppage α)) :
    ∀ (k : Nat) (st : SimilarState α),
      (∀ j, k ≤ j → j < k + before.length → j ∈ st.processed) →
      similarLoop dist stop index k before st = st := by
  induction before with
  | nil => intro _ _ _; rfl
  | cons o before ih =>
    intro k st h
    have hk : k ∈ st.processed := h k le_rfl (by simp)
    simp only [similarLoop, hk, not_true_eq_false, and_false, if_false]
    apply ih
    intro j hj1 hj2
    exact h j (by omega) (by simp only [List.length_cons]; omega)

/-- The scan over the candidates after the seed takes those in no group that are
similar to the seed, and marks exactly them. -/
theorem similarLoop_later (dist : α → α → α → α → α) (stop : Stoppage α) (index : Nat)
    (rest : List (Stoppage α)) :
    ∀ (k : Nat) (st : SimilarState α), index < k →
      (similarLoop dist stop index k rest st).similar
          = st.similar ++ (unprocessed st.processed k rest).filter
              (fun c => decide (isSimilar dist stop c)) ∧
        unprocessed (similarLoop dist stop index k rest st).processed k rest
          = (unprocessed st.processed k rest).filter
              (fun c => !decide (isSimilar dist stop c)) ∧
        (∀ j ∈ st.processed, j ∈ (similarLoop dist stop index k rest st).processed) ∧
        (∀ j ∈ (similarLoop dist stop index k rest st).processed,
          j ∈ st.processed ∨ k ≤ j) := by
  induction rest with
  | nil =>
    intro k st _
    exact ⟨by simp [similarLoop, unprocessed], rfl, fun j hj => hj, fun j hj => Or.inl hj⟩
  | cons o rest ih =>
    intro k st hk
    have hne : k ≠ index := Nat.ne_of_gt hk
    simp only [similarLoop]
    by_cases hp : k ∈ st.processed
    · obtain ⟨h1, h2, h3, h4⟩ := ih (k + 1) st (Nat.lt_succ_of_lt hk)
      simp only [hp, not_true_eq_false, and_false, if_false]
      refine ⟨?_, ?_, h3, ?_⟩
      · rw [h1]; simp [unprocessed, hp]
      · simp only [unprocessed, h3 k hp, hp, if_true]
        exact h2
      · intro j hj
        rcases h4 j hj with h | h
        · exact Or.inl h
        · exact Or.inr (by omega)
    · by_cases hs : isSimilar dist stop o
      · obtain ⟨h1, h2, h3, h4⟩ := ih (k + 1)
          { similar := st.similar ++ [o], processed := st.processed ++ [k] }
          (Nat.lt_succ_of_lt hk)
        simp only [hne, hp, ne_eq, not_false_eq_true, and_self, hs, if_true]
        simp only [unprocessed_append_lt st.processed k rest (k + 1) (Nat.lt_succ_self k)]
          at h1 h2
        have hk' : k ∈ (similarLoop dist stop index (k + 1) rest
            { similar := st.similar ++ [o], processed := st.processed ++ [k] }).processed :=
          h3 k (by simp)
        refine ⟨?_, ?_, ?_, ?_⟩
        · rw [h1]; simp [unprocessed, hp, hs]
        · simp only [unprocessed, hk', hp, if_true, if_false]
          rw [h2]; simp [hs]
        · intro j hj
          exact h3 j (by simp [hj])
        · intro j hj
          rcases h4 j hj with h | h
          · simp only [List.mem_append, List.mem_singleton] at h
            rcases h with h | h
            · exact Or.inl h
            · exact Or.inr (by omega)
          · exact Or.inr (by omega)
      · obtain ⟨h1, h2, h3, h4⟩ := ih (k + 1) st (Nat.lt_succ_of_lt hk)
        simp only [hne, hp, ne_eq, not_false_eq_true, and_self, hs, if_true, if_false]
        have hk' : k ∉ (similarLoop dist stop index (k + 1) rest st).processed := by
          intro hmem
          rcases h4 k hmem with h | h
          · exact hp h
          · omega
        refine ⟨?_, ?_, h3, ?_⟩
        · rw [h1]; simp [unprocessed, hp, hs]
        · simp only [unprocessed, hk', hp, if_false]
          rw [h2]; simp [hs]
        · intro j hj
          rcases h4 j hj with h | h
          · exact Or.inl h
          · exact Or.inr (by omega)

/-- The inner loop for the seed of index `index`, all earlier candidates being in a
group: although it runs over all candidates, it takes later candidates only. -/
theorem findSimilar_later (dist : α → α → α → α → α) (before rest : List (Stoppage α))
    (stop : Stoppage α) (processed : List Nat)
    (hinv : ∀ j, j < before.length → j ∈ processed) :
    (findSimilar dist (before ++ stop :: rest) processed before.length stop).similar
        = stop :: (unprocessed processed (before.length + 1) rest).filter
            (fun c => decide (isSimilar dist stop c)) ∧
      unprocessed (findSimilar dist (before ++ stop :: rest) processed before.length
          stop).processed (before.length + 1) rest
        = (unprocessed processed (before.length + 1) rest).filter
            (fun c => !decide (isSimilar dist stop c)) ∧
      (∀ j, j < before.length + 1 →
        j ∈ (findSimilar dist (before ++ stop :: rest) processed before.length
          stop).processed) := by
  unfold findSimilar
  rw [similarLoop_append, similarLoop_processed dist stop before.length before 0 _
    (by intro j _ hj; simp only [List.mem_append, List.mem_singleton]
        exact Or.inl (hinv j (by omega)))]
  simp only [Nat.zero_add, similarLoop, ne_eq, not_true_eq_false, false_and, if_false]
  obtain ⟨h1, h2, h3, _⟩ := similarLoop_later dist stop before.length rest
    (before.length + 1) { similar := [stop], processed := processed ++ [before.length] }
    (Nat.lt_succ_self _)
  simp only [unprocessed_append_lt processed before.length rest (before.length + 1)
    (Nat.lt_succ_self _)] at h1 h2
  refine ⟨by rw [h1]; rfl, h2, ?_⟩
  intro j hj
  apply h3
  simp only [List.mem_append, List.mem_singleton]
  by_cases hjb : j < before.length
  · exact Or.inl (hinv j hjb)
  · exact Or.inr (by omega)

/-- From any point of the outer loop on, the groups formed are the spec's groups of
the candidates that are in no group yet. -/
theorem groupLoop_eq_groupLaterCandidates (dist : α → α → α → α → α)
    (rest : List (Stoppage α)) :
    ∀ (before : List (Stoppage α)) (groups : List (Stoppage α × List (Stoppage α)))
      (processed : List Nat),
      (∀ j, j < before.length → j ∈ processed) →
      (groupLoop dist (before ++ rest) before.length rest (groups, processed)).1
        = groups ++ groupLaterCandidates dist (unprocessed processed before.length rest) := by
  induction rest with
  | nil => intro before groups processed _; simp [groupLoop, unprocessed, groupLaterCandidates]
  | cons stop rest ih =>
    intro before groups processed hinv
    have hsplit : before ++ stop :: rest = (before ++ [stop]) ++ rest := by simp
    have hlen : (before ++ [stop]).length = before.length + 1 := by simp
    simp only [groupLoop]
    by_cases hp : before.length ∈ processed
    · simp only [hp, if_true, unprocessed]
      have := ih (before ++ [stop]) groups processed (by
        intro j hj
        rw [hlen] at hj
        by_cases hjb : j < before.length
        · exact hinv j hjb
        · have : j = before.length := by omega
          rw [this]; exact hp)
      rw [hlen, ← hsplit] at this
      exact this
    · simp only [hp, if_false, unprocessed]
      obtain ⟨h1, h2, h3⟩ := findSimilar_later dist before rest stop processed hinv
      have := ih (before ++ [stop])
        (groups ++ [(stop, (findSimilar dist (before ++ stop :: rest) processed
          before.length stop).similar)])
        (findSimilar dist (before ++ stop :: rest) processed before.length stop).processed
        (by intro j hj; rw [hlen] at hj; exact h3 j hj)
      rw [hlen, ← hsplit] at this
      rw [this, h2, h1, groupLaterCandidates]
      simp

theorem mergeGroups_eq_groupLaterCandidates (dist : α → α → α → α → α)
    (stoppages : List (Stoppage α)) :
    mergeGroups dist stoppages = groupLaterCandidates dist stoppages := by
  have := groupLoop_eq_groupLaterCandidates dist stoppages [] [] []
    (by intro j hj; simp at hj)
  simpa [mergeGroups, unprocessed_nil] using this

theorem groupLaterCandidates_cons (dist : α → α → α → α → α) (seed : Stoppage α)
    (later : List (Stoppage α)) :
    groupLaterCandidates dist (seed :: later)
      = (seed, seed :: later.filter (fun c => decide (isSimilar dist seed c)))
          :: groupLaterCandidates dist
              (later.filter (fun c => !decide (isSimilar dist seed c))) := by
  rw [groupLaterCandidates]

/-- What the spec's groups of any list satisfy: their members are the candidates,
each once; their seeds are candidates in their original order; and each group is
its seed followed by candidates similar to the seed. -/
theorem groupLaterCandidates_partition (dist : α → α → α → α → α) :
    ∀ (n : Nat) (candidates : List (Stoppage α)), candidates.length ≤ n →
      List.Perm ((groupLaterCandidates dist candidates).map (fun g => g.2)).flatten
          candidates ∧
        List.Sublist ((groupLaterCandidates dist candidates).map (fun g => g.1)) candidates ∧
        ∀ g ∈ groupLaterCandidates dist candidates,
          ∃ others, g.2 = g.1 :: others ∧ ∀ c ∈ others, isSimilar dist g.1 c := by
  intro n
  induction n with
  | zero =>
    intro candidates hlen
    have : candidates = [] := List.length_eq_zero.mp (Nat.le_zero.mp hlen)
    subst this
    rw [groupLaterCandidates]
    exact ⟨List.Perm.refl _, List.Sublist.refl _, by intro g hg; simp at hg⟩
  | succ n ih =>
    intro candidates hlen
    cases candidates with
    | nil =>
      rw [groupLaterCandidates]
      exact ⟨List.Perm.refl _, List.Sublist.refl _, by intro g hg; simp at hg⟩
    | cons seed later =>
      have hshort : (later.filter (fun c => !decide (isSimilar dist seed c))).length ≤ n := by
        have h1 := List.length_filter_le (fun c => !decide (isSimilar dist seed c)) later
        simp only [List.length_cons] at hlen
        omega
      obtain ⟨h1, h2, h3⟩ := ih _ hshort
      rw [groupLaterCandidates_cons]
      refine ⟨?_, ?_, ?_⟩
      · simp only [List.map_cons, List.flatten_cons, List.cons_append]
        refine List.Perm.cons seed ?_
        exact (List.Perm.append_left _ h1).trans
          (List.filter_append_perm (fun c => decide (isSimilar dist seed c)) later)
      · simp only [List.map_cons]
        exact List.Sublist.cons₂ seed (h2.trans (List.filter_sublist _))
      · intro g hg
        simp only [List.mem_cons] at hg
        rcases hg with rfl | hg
        · refine ⟨_, rfl, ?_⟩
          intro c hc
          simpa using (List.mem_filter.mp hc).2
        · exact h3 g hg

/-- C23: the groups `mergeSimilarStoppages` forms are the groups of the spec, in
which a seed takes later candidates only; the merge emits one stoppage per group
in the order of the seeds; the groups' members are the candidates, each in exactly
one group; the seeds are candidates in their original order; every group is its
seed followed by candidates within 100 m and 30 minutes of the seed; and the
output is never longer than the input. -/
theorem mergeSimilarStoppages_partition (dist : α → α → α → α → α)
    (stoppages : List (Stoppage α)) :
    mergeGroups dist stoppages = groupLaterCandidates dist stoppages ∧
      groupLaterCandidates dist ([] : List (Stoppage α)) = [] ∧
      (∀ (seed : Stoppage α) (later : List (Stoppage α)),
        groupLaterCandidates dist (seed :: later)
          = (seed, seed :: later.filter (fun c => decide (isSimilar dist seed c)))
              :: groupLaterCandidates dist
                  (later.filter (fun c => !decide (isSimilar dist seed c)))) ∧
      mergeSimilarStoppages dist stoppages = emitGroups 0 (mergeGroups dist stoppages) ∧
      List.Perm ((mergeGroups dist stoppages).map (fun g => g.2)).flatten stoppages ∧
      List.Sublist ((mergeGroups dist stoppages).map (fun g => g.1)) stoppages ∧
      (∀ g ∈ mergeGroups dist stoppages,
        ∃ others, g.2 = g.1 :: others ∧ ∀ c ∈ others, isSimilar dist g.1 c) ∧
      (mergeSimilarStoppages dist stoppages).length ≤ stoppages.length := by
  have heq := mergeGroups_eq_groupLaterCandidates dist stoppages
  obtain ⟨h1, h2, h3⟩ := groupLaterCandidates_partition dist stoppages.length stoppages le_rfl
  refine ⟨heq, by rw [groupLaterCandidates], groupLaterCandidates_cons dist,
    mergeSimilarStoppages_eq_emitGroups dist stoppages, ?_, ?_, ?_, ?_⟩
  · rw [heq]; exact h1
  · rw [heq]; exact h2
  · rw [heq]; exact h3
  · rw [mergeSimilarStoppages_eq_emitGroups, emitGroups_length, heq]
    have := h2.length_le
    simpa using this

/-! ## Ingestion: what the derived values are measured from -/

theorem preprocessWalk_pair (dist : α → α → α → α → α) (prev point : Fix α)
    (after : List (Fix α)) (before : List (Fix α)) :
    ∀ (first : Fix α),
      (preprocessWalk dist first (before ++ prev :: point :: after))[before.length + 1]?
        = some
          { point := point
            timeDiff := some
              (((point.eventGeneratedTime - prev.eventGeneratedTime : Int) : α) / 1000)
            distance := some
              (dist prev.latitude prev.longitude point.latitude point.longitude)
            calculatedSpeed := some
              (if 0 < ((point.eventGeneratedTime - prev.eventGeneratedTime : Int) : α) / 1000
               then dist prev.latitude prev.longitude point.latitude point.longitude
                  / (((point.eventGeneratedTime - prev.eventGeneratedTime : Int) : α) / 1000)
                  * 3.6
               else 0)
            isOutlier := none } := by
  induction before with
  | nil => intro first; simp [preprocessWalk]
  | cons b before ih =>
    intro first
    simp only [List.cons_append, preprocessWalk, List.length_cons, List.getElem?_cons_succ]
    exact ih b

/-- The derived values of a fix that is not the first of `this.gpsData` come from
the fix just before it in `this.gpsData`. -/
theorem preprocessData_pair (dist : α → α → α → α → α) (before after : List (Fix α))
    (prev point : Fix α) :
    ((preprocessData dist (before ++ prev :: point :: after))[before.length + 1]?).map
        (fun r => (r.point, r.timeDiff, r.distance))
      = some (point,
          some (((point.eventGeneratedTime - prev.eventGeneratedTime : Int) : α) / 1000),
          some (dist prev.latitude prev.longitude point.latitude point.longitude)) := by
  unfold preprocessData
  rw [List.getElem?_map]
  cases before with
  | nil => simp [computeMetrics, preprocessWalk, markOutlier]
  | cons b before =>
    simp only [List.cons_append, computeMetrics, List.length_cons, List.getElem?_cons_succ]
    rw [preprocessWalk_pair]
    simp [markOutlier]

/-- C21 (amended): after ingestion the fixes are all kept rows in time order, and
the derived elapsed seconds and distance of every fix but the first are measured
from the fix just before it in that order, whatever its asset; that fix is the
previous fix of the same asset exactly when it carries the same asset id. -/
theorem parseCSVPreprocess_measures_from_previous_row (dist : α → α → α → α → α)
    (rows before after : List (Fix α)) (prev point : Fix α)
    (hsorted : sortByTime rows = before ++ prev :: point :: after) :
    (parseCSVPreprocess dist rows).map (fun r => r.point) = sortByTime rows ∧
      ((parseCSVPreprocess dist rows)[before.length + 1]?).map
          (fun r => (r.point, r.timeDiff, r.distance))
        = some (point,
            some (((point.eventGeneratedTime - prev.eventGeneratedTime : Int) : α) / 1000),
            some (dist prev.latitude prev.longitude point.latitude point.longitude)) ∧
      (previousOfSameAsset (before ++ [prev]) point = some prev
        ↔ equipIdOf prev = equipIdOf point) := by
  refine ⟨?_, ?_, previousOfSameAsset_last before prev point⟩
  · unfold parseCSVPreprocess preprocessData
    generalize sortByTime rows = sorted
    cases sorted with
    | nil => rfl
    | cons first rest =>
      simp only [computeMetrics, List.map_cons, List.map_map]
      congr 1
      have : ∀ (l : List (Fix α)) (f : Fix α),
          List.map ((fun r => r.point) ∘ markOutlier) (preprocessWalk dist f l) = l := by
        intro l
        induction l with
        | nil => intro _; rfl
        | cons p l ih => intro f; simp only [preprocessWalk, List.map_cons, ih p]; rfl
      exact this rest first
  · unfold parseCSVPreprocess
    rw [hsorted]
    exact preprocessData_pair dist before after prev point

/-! ## The validity filter of `parseCSV` -/

/-- A header other than `key` leaves `point[key]` as it is, `timestamp` apart. -/
theorem getProp_setField_of_ne (trim : String → String) (parseFloat : String → Option α)
    (parseInt : String → Option Int) (values : List String)
    (point : List (String × JsValue α)) (header key : String) (index : Nat)
    (hne : header ≠ key) (hts : key ≠ "timestamp") :
    getProp (setField trim parseFloat parseInt values point header index) key
      = getProp point key := by
  unfold setField
  have hts' : ¬ "timestamp" = key := fun h => hts h.symm
  split_ifs <;> simp [getProp, hne, hts']

theorem getProp_foldl_of_not_mem (trim : String → String) (parseFloat : String → Option α)
    (parseInt : String → Option Int) (values : List String) (key : String)
    (hts : key ≠ "timestamp") (headers : List String) :
    ∀ (k : Nat) (point : List (String × JsValue α)), key ∉ headers →
      getProp ((headers.enumFrom k).foldl
          (fun point entry => setField trim parseFloat parseInt values point entry.2 entry.1)
          point) key
        = getProp point key := by
  induction headers with
  | nil => intro _ _ _; rfl
  | cons h headers ih =>
    intro k point hmem
    simp only [List.mem_cons, not_or] at hmem
    simp only [List.enumFrom_cons, List.foldl_cons]
    rw [ih (k + 1) _ hmem.2]
    exact getProp_setField_of_ne trim parseFloat parseInt values point h key k
      (fun h' => hmem.1 h'.symm) hts

theorem getProp_setField_coordinate (trim : String → String) (parseFloat : String → Option α)
    (parseInt : String → Option Int) (values : List String)
    (point : List (String × JsValue α)) (key : String) (index : Nat)
    (hkey : key = "latitude" ∨ key = "longitude") :
    getProp (setField trim parseFloat parseInt values point key index) key
      = .number ((values[index]?.map trim).bind parseFloat) := by
  unfold setField
  rw [if_pos hkey]
  simp [getProp]

theorem getProp_setField_eventGeneratedTime (trim : String → String)
    (parseFloat : String → Option α) (parseInt : String → Option Int) (values : List String)
    (point : List (String × JsValue α)) (index : Nat) :
    getProp (setField trim parseFloat parseInt values point "eventGeneratedTime" index)
        "eventGeneratedTime"
      = .number (((values[index]?.map trim).bind parseInt).map (fun ms : Int => (ms : α))) := by
  unfold setField
  rw [if_neg (by decide), if_neg (by decide), if_pos rfl]
  simp [getProp]

/-- The value of `point[key]` is the one set for the last header equal to `key`. -/
theorem parsePoint_last_header (trim : String → String) (parseFloat : String → Option α)
    (parseInt : String → Option Int) (values : List String) (key : String)
    (hts : key ≠ "timestamp") (h1 h2 : List String) (hmem : key ∉ h2) :
    getProp (parsePoint trim parseFloat parseInt (h1 ++ key :: h2) values) key
      = getProp (setField trim parseFloat parseInt values
          ((h1.enumFrom 0).foldl
            (fun point entry => setField trim parseFloat parseInt values point entry.2 entry.1)
            [])
          key h1.length) key := by
  unfold parsePoint
  rw [List.enum, List.enumFrom_append, List.foldl_append, List.enumFrom_cons, List.foldl_cons,
    getProp_foldl_of_not_mem trim parseFloat parseInt values key hts h2 _ _ hmem]
  simp only [Nat.zero_add]

/-- After `headers.forEach`, `latitude` and `longitude` are `undefined` or a number. -/
theorem foldl_coordinate_kind (trim : String → String) (parseFloat : String → Option α)
    (parseInt : String → Option Int) (values : List String) (key : String)
    (hkey : key = "latitude" ∨ key = "longitude") (headers : List String) :
    ∀ (k : Nat) (point : List (String × JsValue α)),
      (getProp point key = .undefined ∨ ∃ x, getProp point key = .number x) →
      (getProp ((headers.enumFrom k).foldl
          (fun point entry => setField trim parseFloat parseInt values point entry.2 entry.1)
          point) key = .undefined ∨
        ∃ x, getProp ((headers.enumFrom k).foldl
          (fun point entry => setField trim parseFloat parseInt values point entry.2 entry.1)
          point) key = .number x) := by
  have hts : key ≠ "timestamp" := by rcases hkey with rfl | rfl <;> decide
  induction headers with
  | nil => intro _ _ h; exact h
  | cons h headers ih =>
    intro k point hpoint
    simp only [List.enumFrom_cons, List.foldl_cons]
    apply ih
    by_cases hh : h = key
    · subst hh
      exact Or.inr ⟨_, getProp_setField_coordinate trim parseFloat parseInt values point h k hkey⟩
    · rw [getProp_setField_of_ne trim parseFloat parseInt values point h key k hh hts]
      exact hpoint

/-- After `headers.forEach`, `eventGeneratedTime` is `undefined` or a number that is
`NaN` or an integer. -/
theorem foldl_eventGeneratedTime_kind (trim : String → String)
    (parseFloat : String → Option α) (parseInt : String → Option Int) (values : List String)
    (headers : List String) :
    ∀ (k : Nat) (point : List (String × JsValue α)),
      (getProp point "eventGeneratedTime" = .undefined ∨
        ∃ t : Option Int, getProp point "eventGeneratedTime"
          = .number (t.map (fun ms : Int => (ms : α)))) →
      (getProp ((headers.enumFrom k).foldl
          (fun point entry => setField trim parseFloat parseInt values point entry.2 entry.1)
          point) "eventGeneratedTime" = .undefined ∨
        ∃ t : Option Int, getProp ((headers.enumFrom k).foldl
          (fun point entry => setField trim parseFloat parseInt values point entry.2 entry.1)
          point) "eventGeneratedTime" = .number (t.map (fun ms : Int => (ms : α)))) := by
  induction headers with
  | nil => intro _ _ h; exact h
  | cons h headers ih =>
    intro k point hpoint
    simp only [List.enumFrom_cons, List.foldl_cons]
    apply ih
    by_cases hh : h = "eventGeneratedTime"
    · subst hh
      exact Or.inr ⟨_, getProp_setField_eventGeneratedTime trim parseFloat parseInt values
        point k⟩
    · rw [getProp_setField_of_ne trim parseFloat parseInt values point h
        "eventGeneratedTime" k hh (by decide)]
      exact hpoint

theorem truthy_coordinate (v : JsValue α)
    (hkind : v = .undefined ∨ ∃ x, v = .number x) :
    v.truthy = true ↔ ∃ x, v = .number (some x) ∧ x ≠ 0 := by
  rcases hkind with rfl | ⟨x, rfl⟩
  · simp [JsValue.truthy]
  · cases x with
    | none => simp [JsValue.truthy]
    | some x => simp [JsValue.truthy]

theorem truthy_eventGeneratedTime (v : JsValue α)
    (hkind : v = .undefined ∨ ∃ t : Option Int, v = .number (t.map (fun ms : Int => (ms : α)))) :
    v.truthy = true ↔ ∃ t : Int, v = .number (some (t : α)) ∧ t ≠ 0 := by
  rcases hkind with rfl | ⟨t, rfl⟩
  · simp [JsValue.truthy]
  · cases t with
    | none => simp [JsValue.truthy]
    | some t => simp [JsValue.truthy]

/-- C26: the validity filter keeps a row exactly when its latitude, longitude and
timestamp are numbers other than 0. The latitude and longitude are `parseFloat`
and the timestamp is `parseInt` of the trimmed cell under the last header of that
name, `NaN` when the line has no such cell, and `undefined` when there is no such
header. So a row is dropped when one of the three is missing, unparseable or 0,
and every other row is kept: the loop returns, for every text, the points of the
non-blank lines that pass the filter. -/
theorem parseCSV_validity_filter (trim : String → String) (parseFloat : String → Option α)
    (parseInt : String → Option Int) (headers values : List String) (csvContent : String) :
    (isValidPoint (parsePoint trim parseFloat parseInt headers values) = true ↔
        ∃ (lat lon : α) (t : Int),
          getProp (parsePoint trim parseFloat parseInt headers values) "latitude"
            = .number (some lat) ∧ lat ≠ 0 ∧
          getProp (parsePoint trim parseFloat parseInt headers values) "longitude"
            = .number (some lon) ∧ lon ≠ 0 ∧
          getProp (parsePoint trim parseFloat parseInt headers values) "eventGeneratedTime"
            = .number (some (t : α)) ∧ t ≠ 0) ∧
      (∀ key ∈ ["latitude", "longitude"], ∀ h1 h2 : List String,
        headers = h1 ++ key :: h2 → key ∉ h2 →
        getProp (parsePoint trim parseFloat parseInt headers values) key
          = .number ((values[h1.length]?.map trim).bind parseFloat)) ∧
      (∀ h1 h2 : List String,
        headers = h1 ++ "eventGeneratedTime" :: h2 → "eventGeneratedTime" ∉ h2 →
        getProp (parsePoint trim parseFloat parseInt headers values) "eventGeneratedTime"
          = .number (((values[h1.length]?.map trim).bind parseInt).map (fun ms : Int => (ms : α)))) ∧
      (∀ key ∈ ["latitude", "longitude", "eventGeneratedTime"], key ∉ headers →
        getProp (parsePoint trim parseFloat parseInt headers values) key = .undefined) ∧
      (∀ line ∈ (csvContent.splitOn "\n").tail, trim line ≠ "" →
        (parsePoint trim parseFloat parseInt
            ((((csvContent.splitOn "\n").headD "").splitOn ",").map trim) (line.splitOn ",")
            ∈ parseCSVRows trim parseFloat parseInt csvContent ↔
          isValidPoint (parsePoint trim parseFloat parseInt
            ((((csvContent.splitOn "\n").headD "").splitOn ",").map trim)
            (line.splitOn ",")) = true)) ∧
      (∀ point ∈ parseCSVRows trim parseFloat parseInt csvContent,
        isValidPoint point = true) := by
  have hlat : getProp (parsePoint trim parseFloat parseInt headers values) "latitude"
        = .undefined ∨
      ∃ x, getProp (parsePoint trim parseFloat parseInt headers values) "latitude"
        = .number x :=
    foldl_coordinate_kind trim parseFloat parseInt values "latitude"
      (Or.inl rfl) headers 0 [] (Or.inl rfl)
  have hlon : getProp (parsePoint trim parseFloat parseInt headers values) "longitude"
        = .undefined ∨
      ∃ x, getProp (parsePoint trim parseFloat parseInt headers values) "longitude"
        = .number x :=
    foldl_coordinate_kind trim parseFloat parseInt values "longitude"
      (Or.inr rfl) headers 0 [] (Or.inl rfl)
  have hegt : getProp (parsePoint trim parseFloat parseInt headers values)
        "eventGeneratedTime" = .undefined ∨
      ∃ t : Option Int,
        getProp (parsePoint trim parseFloat parseInt headers values) "eventGeneratedTime"
          = .number (t.map (fun ms : Int => (ms : α))) :=
    foldl_eventGeneratedTime_kind trim parseFloat parseInt values headers 0 [] (Or.inl rfl)
  refine ⟨?_, ?_, ?_, ?_, ?_, ?_⟩
  · unfold isValidPoint
    rw [Bool.and_eq_true, Bool.and_eq_true, truthy_coordinate _ hlat,
      truthy_coordinate _ hlon, truthy_eventGeneratedTime _ hegt]
    constructor
    · rintro ⟨⟨⟨lat, h1, h2⟩, lon, h3, h4⟩, t, h5, h6⟩
      exact ⟨lat, lon, t, h1, h2, h3, h4, h5, h6⟩
    · rintro ⟨lat, lon, t, h1, h2, h3, h4, h5, h6⟩
      exact ⟨⟨⟨lat, h1, h2⟩, lon, h3, h4⟩, t, h5, h6⟩
  · intro key hkey h1 h2 hheaders hmem
    have hkey' : key = "latitude" ∨ key = "longitude" := by simpa using hkey
    have hts : key ≠ "timestamp" := by rcases hkey' with rfl | rfl <;> decide
    rw [hheaders, parsePoint_last_header trim parseFloat parseInt values key hts h1 h2 hmem]
    exact getProp_setField_coordinate trim parseFloat parseInt values _ key _ hkey'
  · intro h1 h2 hheaders hmem
    rw [hheaders, parsePoint_last_header trim parseFloat parseInt values
      "eventGeneratedTime" (by decide) h1 h2 hmem]
    exact getProp_setField_eventGeneratedTime trim parseFloat parseInt values _ _
  · intro key hkey hmem
    have hts : key ≠ "timestamp" := by
      simp only [List.mem_cons, List.mem_singleton, List.not_mem_nil, or_false] at hkey
      rcases hkey with rfl | rfl | rfl <;> decide
    exact getProp_foldl_of_not_mem trim parseFloat parseInt values key hts headers 0 [] hmem
  · intro line hline hblank
    unfold parseCSVRows
    simp only [List.mem_filter, List.mem_map, decide_eq_true_eq]
    constructor
    · exact fun h => h.2
    · exact fun h => ⟨⟨line, ⟨hline, hblank⟩, rfl⟩, h⟩
  · intro point hpoint
    unfold parseCSVRows at hpoint
    exact (List.mem_filter.mp hpoint).2

end CoreTheorems

/-! ## Concrete runs -/

theorem segmentTrips_gapsData :
    segmentTrips flatDistance 60 gapsData = some [gapsTrip1, gapsTrip2] := by
  simp [segmentTrips, segmentGroups, segmentGroup, segmentWalk, segmentStep, equipmentGroup,
    gapsData, gapsTrip1, gapsTrip2, fixAt, equipIdOf, objectPrototypeKeys, insertionKeys,
    sortByTime, timeLE, minutesBetween]
  norm_num

theorem segmentTrips_trip_has_two_fixes_witness :
    segmentTrips flatDistance 60 gapsData = some [gapsTrip1, gapsTrip2] ∧
      gapsTrip1 ∈ [gapsTrip1, gapsTrip2] ∧ 2 ≤ gapsTrip1.points.length :=
  ⟨segmentTrips_gapsData, List.mem_cons_self _ _,
    segmentTrips_trip_has_two_fixes flatDistance 60 gapsData _ segmentTrips_gapsData
      gapsTrip1 (List.mem_cons_self _ _)⟩

theorem segmentTrips_trip_one_asset_sorted_small_gaps_witness :
    segmentTrips flatDistance 60 gapsData = some [gapsTrip1, gapsTrip2] ∧
      gapsTrip2 ∈ [gapsTrip1, gapsTrip2] ∧
      (∀ p ∈ gapsTrip2.points, equipIdOf p = gapsTrip2.equipmentId) ∧
      gapsTrip2.points.Pairwise (fun a b => a.eventGeneratedTime ≤ b.eventGeneratedTime) ∧
      gapsTrip2.points.Chain' (fun a b => minutesBetween a b ≤ (60 : ℚ)) :=
  ⟨segmentTrips_gapsData, List.mem_cons_of_mem _ (List.mem_cons_self _ _),
    segmentTrips_trip_one_asset_sorted_small_gaps flatDistance 60 gapsData _
      segmentTrips_gapsData gapsTrip2 (List.mem_cons_of_mem _ (List.mem_cons_self _ _))⟩

/-- C3 (failing input): the fixes with gaps 1, 2, 500 and 3 minutes of an asset
called `constructor` make the grouping loop throw, so no trip is returned. -/
theorem segmentTrips_constructor_asset_throws :
    segmentTrips flatDistance 60 constructorData = none := by
  decide

/-- The spec's segmentation example: gaps 1, 2, 500 and 3 minutes at threshold 60
give two trips of 3 and 2 fixes. -/
theorem segmentTrips_gapsData_counts :
    (segmentTrips flatDistance 60 gapsData).map (List.map (fun t => t.points.length))
      = some [3, 2] := by
  rw [segmentTrips_gapsData]
  rfl

theorem segmentTrips_skipData :
    segmentTrips flatDistance 60 skipData = some [skipTrip] := by
  simp [segmentTrips, segmentGroups, segmentGroup, segmentWalk, segmentStep, equipmentGroup,
    skipData, skipTrip, fixAt, equipIdOf, objectPrototypeKeys, insertionKeys,
    sortByTime, timeLE, minutesBetween]
  norm_num

/-- C4 (counterexample): three fixes of one asset at minutes 0, 100 and 101 with
threshold 60 give a single trip, and its number is 2. -/
theorem segmentTrips_first_trip_numbered_two :
    (segmentTrips flatDistance 60 skipData).map
        (List.map (fun t => (t.equipmentId, t.tripNumber, t.points.length)))
      = some [("EQPT-1", 2, 2)] := by
  rw [segmentTrips_skipData]
  rfl

theorem segmentTrips_tripNumber_is_run_number_witness :
    segmentTrips flatDistance 60 skipData = some [skipTrip] ∧
      (([skipTrip].filter (fun t => decide (t.equipmentId = "EQPT-1"))).map
          (fun t => t.tripNumber)
        = runNumbers 1 (splitRuns (60 : ℚ) (sortByTime (equipmentGroup skipData "EQPT-1"))) ∧
      (([skipTrip].filter (fun t => decide (t.equipmentId = "EQPT-1"))).map
          (fun t => t.tripNumber)).Sorted (· < ·) ∧
      ∀ k ∈ ([skipTrip].filter (fun t => decide (t.equipmentId = "EQPT-1"))).map
          (fun t => t.tripNumber), 1 ≤ k) :=
  ⟨segmentTrips_skipData,
    segmentTrips_tripNumber_is_run_number flatDistance 60 skipData [skipTrip] "EQPT-1"
      segmentTrips_skipData⟩

theorem detectSpeedBasedStoppages_closed_run_witness :
    ∃ s, detectSpeedBasedStoppages speedParams speedTrip = [s] ∧
      s.latitude = (([fixAt "EQPT-1" 0 10 20 0, fixAt "EQPT-1" 2 10 20 0,
        fixAt "EQPT-1" 4 10 20 0].map (fun p => p.latitude)).sum) / ((3 : Nat) : ℚ) ∧
      s.longitude = (([fixAt "EQPT-1" 0 10 20 0, fixAt "EQPT-1" 2 10 20 0,
        fixAt "EQPT-1" 4 10 20 0].map (fun p => p.longitude)).sum) / ((3 : Nat) : ℚ) ∧
      s.startTime = (fixAt "EQPT-1" 0 10 20 0).timestamp ∧
      s.endTime = (fixAt "EQPT-1" 6 10 20 20).eventGeneratedTime ∧
      s.duration = minutesBetween (fixAt "EQPT-1" 0 10 20 0) (fixAt "EQPT-1" 6 10 20 20) ∧
      s.confidence = min 1 (s.duration / 10) :=
  detectSpeedBasedStoppages_closed_run speedParams speedTrip (fixAt "EQPT-1" 0 10 20 0)
    [fixAt "EQPT-1" 0 10 20 0, fixAt "EQPT-1" 2 10 20 0, fixAt "EQPT-1" 4 10 20 0]
    (fixAt "EQPT-1" 6 10 20 20) rfl rfl (by decide)
    (by
      intro p hp
      simp only [List.mem_cons, List.mem_singleton, List.not_mem_nil, or_false] at hp
      rcases hp with rfl | rfl | rfl <;> norm_num [fixAt, speedParams])
    (by norm_num [fixAt, speedParams])
    (by norm_num [fixAt, speedParams, minutesBetween])

theorem detectSpeedBasedStoppages_open_run_witness :
    detectSpeedBasedStoppages speedParams openRunTrip
        = detectSpeedBasedStoppages speedParams { openRunTrip with points := speedTrip.points } ∧
      ((∀ p ∈ openRunTrip.points, p.speed ≤ speedParams.maxSpeedKmh) →
        detectSpeedBasedStoppages speedParams openRunTrip = []) :=
  detectSpeedBasedStoppages_open_run speedParams openRunTrip speedTrip.points
    [fixAt "EQPT-1" 8 10 20 0, fixAt "EQPT-1" 10 10 20 0] rfl
    (by
      intro p hp
      simp only [List.mem_cons, List.mem_singleton, List.not_mem_nil, or_false] at hp
      rcases hp with rfl | rfl <;> norm_num [fixAt, speedParams])

theorem detectClusteringStoppages_far_apart_witness :
    buildClusters flatDistance clusteringParams spreadTrip.points
        = spreadTrip.points.map singletonCluster ∧
      detectClusteringStoppages flatDistance clusteringParams spreadTrip = [] :=
  detectClusteringStoppages_far_apart flatDistance clusteringParams spreadTrip
    (by
      simp only [spreadTrip, mkTrip, List.pairwise_cons, List.mem_cons, List.mem_singleton,
        forall_eq_or_imp, forall_eq, List.not_mem_nil, List.Pairwise.nil]
      norm_num [fixAt, flatDistance, clusteringParams])
    (by norm_num [clusteringParams])

/-! ## The haversine distance across the antimeridian -/

theorem atan2_sqrt (a : ℝ) (h0 : 0 ≤ a) (h1 : a ≤ 1) :
    atan2 (Real.sqrt a) (Real.sqrt (1 - a)) = Real.arcsin (Real.sqrt a) := by
  have h1a : 0 ≤ 1 - a := by linarith
  have habs : Complex.abs ⟨Real.sqrt (1 - a), Real.sqrt a⟩ = 1 := by
    rw [Complex.abs_apply, Complex.normSq_mk, Real.mul_self_sqrt h1a, Real.mul_self_sqrt h0]
    simp
  unfold atan2 Complex.arg
  rw [if_pos (Real.sqrt_nonneg _), habs, div_one]

/-- Between two points of latitude 60 degrees the distance is
`2 R arcsin(|sin(Δlon / 2)| / 2)`. -/
theorem calculateDistance_lat60 (lon1 lon2 : ℝ) :
    calculateDistance 60 lon1 60 lon2
      = 6371000 * (2 * Real.arcsin (|Real.sin ((lon2 - lon1) * Real.pi / 180 / 2)| / 2)) := by
  have hcos : Real.cos (60 * Real.pi / 180) = 1 / 2 := by
    rw [show (60 : ℝ) * Real.pi / 180 = Real.pi / 3 by ring, Real.cos_pi_div_three]
  set s := Real.sin ((lon2 - lon1) * Real.pi / 180 / 2) with hs
  have hs1 : |s| ≤ 1 := Real.abs_sin_le_one _
  have ha : Real.sin ((60 - 60 : ℝ) * Real.pi / 180 / 2) * Real.sin ((60 - 60 : ℝ) * Real.pi / 180 / 2)
      + Real.cos (60 * Real.pi / 180) * Real.cos (60 * Real.pi / 180) * s * s = (|s| / 2) ^ 2 := by
    rw [hcos]
    simp only [sub_self, zero_mul, zero_div, Real.sin_zero, mul_zero, zero_add]
    rw [div_pow, sq_abs]
    ring
  have h0 : 0 ≤ (|s| / 2) ^ 2 := sq_nonneg _
  have h1 : (|s| / 2) ^ 2 ≤ 1 := by
    have : |s| / 2 ≤ 1 := by linarith
    have h2 : 0 ≤ |s| / 2 := by positivity
    nlinarith
  unfold calculateDistance
  simp only [← hs]
  rw [ha, atan2_sqrt _ h0 h1, Real.sqrt_sq (by positivity)]

theorem calculateDistance_lat60_near (lon1 lon2 : ℝ)
    (h : |Real.sin ((lon2 - lon1) * Real.pi / 180 / 2)| ≤ Real.pi / 18000000) :
    calculateDistance 60 lon1 60 lon2 ≤ 10 := by
  rw [calculateDistance_lat60]
  have hpi3 : 3 < Real.pi := Real.pi_gt_three
  have hpi4 : Real.pi < 4 := Real.pi_lt_four
  have hpos : 0 < Real.pi := Real.pi_pos
  set s := |Real.sin ((lon2 - lon1) * Real.pi / 180 / 2)| with hs
  have hs0 : 0 ≤ s := abs_nonneg _
  have hy : (5 / 6371000 : ℝ) ∈ Set.Icc (-(Real.pi / 2)) (Real.pi / 2) := by
    constructor <;> norm_num <;> linarith
  have hx : s / 2 ∈ Set.Icc (-1 : ℝ) 1 := by
    constructor <;> linarith
  have hsin : 2 / Real.pi * (5 / 6371000) ≤ Real.sin (5 / 6371000) :=
    Real.mul_le_sin (by norm_num) (by linarith)
  have hle : s / 2 ≤ 2 / Real.pi * (5 / 6371000) := by
    rw [div_mul_eq_mul_div, le_div_iff₀ hpos]
    nlinarith
  have harc : Real.arcsin (s / 2) ≤ 5 / 6371000 :=
    (Real.arcsin_le_iff_le_sin hx hy).mpr (le_trans hle hsin)
  linarith

theorem calculateDistance_lat60_far (lon1 lon2 : ℝ)
    (h : 1 / 2 ≤ |Real.sin ((lon2 - lon1) * Real.pi / 180 / 2)|) :
    150 < calculateDistance 60 lon1 60 lon2 := by
  rw [calculateDistance_lat60]
  have hpi3 : 3 < Real.pi := Real.pi_gt_three
  set s := |Real.sin ((lon2 - lon1) * Real.pi / 180 / 2)| with hs
  have hs1 : s ≤ 1 := Real.abs_sin_le_one _
  have hx : (75 / 6371000 : ℝ) ∈ Set.Icc (-(Real.pi / 2)) (Real.pi / 2) := by
    constructor <;> norm_num <;> linarith
  have hy : s / 2 ∈ Set.Icc (-1 : ℝ) 1 := by
    constructor <;> linarith
  have hsin : Real.sin (75 / 6371000) < 75 / 6371000 := Real.sin_lt (by norm_num)
  have hlt : Real.sin (75 / 6371000) < s / 2 := by
    have : (75 / 6371000 : ℝ) < 1 / 4 := by norm_num
    linarith
  have harc : 75 / 6371000 < Real.arcsin (s / 2) :=
    (Real.lt_arcsin_iff_sin_lt hx hy).mpr hlt
  linarith

/-- The angle `ε` (in radians) of `0.00001` degrees of longitude. -/
theorem small_angle_bounds :
    0 < Real.pi / 18000000 ∧ Real.sin (Real.pi / 18000000) ≤ Real.pi / 18000000 ∧
      0 ≤ Real.sin (Real.pi / 18000000) ∧ 1 / 2 ≤ Real.cos (Real.pi / 36000000) := by
  have hpi3 : 3 < Real.pi := Real.pi_gt_three
  have hpi4 : Real.pi < 4 := Real.pi_lt_four
  have hpos : 0 < Real.pi / 18000000 := by positivity
  refine ⟨hpos, Real.sin_le hpos.le, Real.sin_nonneg_of_nonneg_of_le_pi hpos.le (by linarith), ?_⟩
  have h := Real.one_sub_sq_div_two_le_cos (x := Real.pi / 36000000)
  have hsmall : (Real.pi / 36000000) ^ 2 / 2 ≤ 1 / 2 := by
    have h1 : Real.pi / 36000000 ≤ 1 := by linarith
    have h0 : 0 ≤ Real.pi / 36000000 := by positivity
    nlinarith
  linarith

/-- West to east across the antimeridian at latitude 60: about 1.1 m. -/
theorem calculateDistance_across_antimeridian :
    calculateDistance 60 (-(17999999 / 100000)) 60 (17999999 / 100000) ≤ 10 ∧
      calculateDistance 60 (17999999 / 100000) 60 (-(17999999 / 100000)) ≤ 10 := by
  obtain ⟨_, h1, h2, _⟩ := small_angle_bounds
  constructor
  · apply calculateDistance_lat60_near
    rw [show ((17999999 / 100000 : ℝ) - -(17999999 / 100000)) * Real.pi / 180 / 2
        = Real.pi - Real.pi / 18000000 by ring, Real.sin_pi_sub, abs_of_nonneg h2]
    exact h1
  · apply calculateDistance_lat60_near
    rw [show (-(17999999 / 100000 : ℝ) - 17999999 / 100000) * Real.pi / 180 / 2
        = -(Real.pi - Real.pi / 18000000) by ring, Real.sin_neg, abs_neg, Real.sin_pi_sub,
      abs_of_nonneg h2]
    exact h1

/-- From either side of the antimeridian to the point of mean longitude 0:
thousands of kilometres. -/
theorem calculateDistance_to_mean_longitude :
    150 < calculateDistance 60 (17999999 / 100000) 60 0 ∧
      150 < calculateDistance 60 (-(17999999 / 100000)) 60 0 := by
  obtain ⟨_, _, _, h3⟩ := small_angle_bounds
  have h0 : 0 ≤ Real.cos (Real.pi / 36000000) := by linarith
  constructor
  · apply calculateDistance_lat60_far
    rw [show ((0 : ℝ) - 17999999 / 100000) * Real.pi / 180 / 2
        = -(Real.pi / 2 - Real.pi / 36000000) by ring, Real.sin_neg, abs_neg,
      Real.sin_pi_div_two_sub, abs_of_nonneg h0]
    exact h3
  · apply calculateDistance_lat60_far
    rw [show ((0 : ℝ) - -(17999999 / 100000)) * Real.pi / 180 / 2
        = Real.pi / 2 - Real.pi / 36000000 by ring, Real.sin_pi_div_two_sub, abs_of_nonneg h0]
    exact h3

theorem calculateDistance_lat60_self (lon : ℝ) : calculateDistance 60 lon 60 lon = 0 := by
  rw [calculateDistance_lat60]
  simp

theorem buildClusters_antimeridian :
    (buildClusters calculateDistance clusteringParamsReal antimeridianPoints).map
      (fun c => c.points.length) = [2, 2, 1] := by
  obtain ⟨h1, h2⟩ := calculateDistance_across_antimeridian
  obtain ⟨h3, h4⟩ := calculateDistance_to_mean_longitude
  have h1' : calculateDistance 60 (-(17999999 / 100000)) 60 (17999999 / 100000) ≤ 150 := by
    linarith
  have h3' : ¬ calculateDistance 60 (17999999 / 100000) 60 0 ≤ 150 := not_le.mpr h3
  have h4' : ¬ calculateDistance 60 (-(17999999 / 100000)) 60 0 ≤ 150 := not_le.mpr h4
  simp [buildClusters, antimeridianPoints, fixAt60, clusterStep, assignToCluster,
    addToCluster, clusteringParamsReal, h1', h3', h4']

/-- C8 (counterexample): five fixes at latitude 60 that alternate between the
longitudes 179.99999 and -179.99999 are pairwise within 10 m of each other and
span 4 minutes, yet with `clusterRadiusMeters = 150`, `minPointsInCluster = 3`
and `minDurationMinutes = 3` they fall into clusters of 2, 2 and 1 fixes and no
stoppage is returned: the centre of the first two is the mean longitude 0. -/
theorem detectClusteringStoppages_antimeridian :
    (∀ p ∈ antimeridianTrip.points, ∀ q ∈ antimeridianTrip.points,
        calculateDistance p.latitude p.longitude q.latitude q.longitude ≤ 10) ∧
      clusteringParamsReal.minDurationMinutes
        ≤ minutesBetween (fixAt60 0 (17999999 / 100000)) (fixAt60 4 (17999999 / 100000)) ∧
      (buildClusters calculateDistance clusteringParamsReal antimeridianPoints).map
        (fun c => c.points.length) = [2, 2, 1] ∧
      detectClusteringStoppages calculateDistance clusteringParamsReal antimeridianTrip = [] := by
  obtain ⟨h1, h2⟩ := calculateDistance_across_antimeridian
  refine ⟨?_, ?_, buildClusters_antimeridian, ?_⟩
  · have hpts : antimeridianTrip.points = antimeridianPoints := rfl
    rw [hpts]
    simp only [antimeridianPoints, List.mem_cons, List.mem_singleton, List.not_mem_nil,
      or_false, forall_eq_or_imp, forall_eq, fixAt60, calculateDistance_lat60_self]
    norm_num [h1, h2]
  · norm_num [clusteringParamsReal, minutesBetween, fixAt60]
  · unfold detectClusteringStoppages
    apply clustersToStoppages_small
    intro c hc
    have hpts : antimeridianTrip.points = antimeridianPoints := rfl
    rw [hpts] at hc
    have hlen : c.points.length ∈ [2, 2, 1] := by
      rw [← buildClusters_antimeridian]
      exact List.mem_map.mpr ⟨c, hc, rfl⟩
    simp only [List.mem_cons, List.mem_singleton, List.not_mem_nil, or_false] at hlen
    rcases hlen with h | h | h <;> rw [h] <;> norm_num [clusteringParamsReal]

/-! ## Fixes close to each other are close to their centroid -/

theorem neg_le_sin_of_nonneg (x : ℝ) (h : 0 ≤ x) : -x ≤ Real.sin x := by
  rcases le_total x 1 with h1 | h1
  · have := Real.sin_nonneg_of_nonneg_of_le_pi h (by linarith [Real.pi_gt_three])
    linarith
  · linarith [Real.neg_one_le_sin x]

theorem abs_sin_le_abs (x : ℝ) : |Real.sin x| ≤ |x| := by
  rcases le_total 0 x with h | h
  · rw [abs_of_nonneg h]
    exact abs_le.mpr ⟨neg_le_sin_of_nonneg x h, Real.sin_le h⟩
  · rw [abs_of_nonpos h]
    have h1 := Real.le_sin h
    have h2 := neg_le_sin_of_nonneg (-x) (neg_nonneg.mpr h)
    rw [Real.sin_neg] at h2
    exact abs_le.mpr ⟨by linarith, by linarith⟩

/-- On `[-π/2, π/2]` an angle is at most twice its sine in absolute value. -/
theorem abs_le_two_mul_abs_sin (x : ℝ) (hx : |x| ≤ Real.pi / 2) : |x| ≤ 2 * |Real.sin x| := by
  have hpi4 : Real.pi < 4 := Real.pi_lt_four
  have hpos : 0 < Real.pi := Real.pi_pos
  have h := Real.mul_le_sin (abs_nonneg x) hx
  have hsin : Real.sin |x| = |Real.sin x| := by
    rcases le_total 0 x with h0 | h0
    · rw [abs_of_nonneg h0, abs_of_nonneg]
      exact Real.sin_nonneg_of_nonneg_of_le_pi h0 (by rw [abs_of_nonneg h0] at hx; linarith)
    · rw [abs_of_nonpos h0, Real.sin_neg, abs_of_nonpos]
      have := Real.sin_nonneg_of_nonneg_of_le_pi (neg_nonneg.mpr h0)
        (by rw [abs_of_nonpos h0] at hx; linarith)
      rw [Real.sin_neg] at this
      linarith
  rw [hsin] at h
  have h2 : |x| / 2 ≤ 2 / Real.pi * |x| := by
    rw [div_mul_eq_mul_div, div_le_div_iff₀ (by norm_num) hpos]
    nlinarith [abs_nonneg x]
  linarith

theorem abs_cos_sub_cos_le (x y : ℝ) : |Real.cos x - Real.cos y| ≤ |x - y| := by
  rw [Real.cos_sub_cos]
  have h1 : |Real.sin ((x + y) / 2)| ≤ 1 := Real.abs_sin_le_one _
  have h2 : |Real.sin ((x - y) / 2)| ≤ |(x - y) / 2| := abs_sin_le_abs _
  rw [abs_mul, abs_mul]
  have h3 : |(x - y) / 2| = |x - y| / 2 := by rw [abs_div]; norm_num
  rw [h3] at h2
  have h4 : |(-2 : ℝ)| = 2 := by norm_num
  rw [h4]
  nlinarith [abs_nonneg (Real.sin ((x + y) / 2)), abs_nonneg (Real.sin ((x - y) / 2))]

/-- The mean of values within `B` of `c` is within `B` of `c`. -/
theorem abs_mean_sub_le {β : Type} (f : β → ℝ) (c B : ℝ) (l : List β) (hne : l ≠ [])
    (h : ∀ x ∈ l, |f x - c| ≤ B) : |(l.map f).sum / (l.length : ℝ) - c| ≤ B := by
  have hlen : (0 : ℝ) < l.length := by
    have : 0 < l.length := List.length_pos.mpr hne
    exact_mod_cast this
  have hsum : ∀ l : List β, (∀ x ∈ l, |f x - c| ≤ B) →
      |(l.map f).sum - l.length * c| ≤ l.length * B := by
    intro l
    induction l with
    | nil => intro _; simp
    | cons a l ih =>
      intro h
      have ha := h a (List.mem_cons_self _ _)
      have hl := ih (fun x hx => h x (List.mem_cons_of_mem _ hx))
      simp only [List.map_cons, List.sum_cons, List.length_cons, Nat.cast_add, Nat.cast_one]
      have : f a + (l.map f).sum - (l.length + 1) * c
          = (f a - c) + ((l.map f).sum - l.length * c) := by ring
      rw [this]
      calc |(f a - c) + ((l.map f).sum - l.length * c)|
          ≤ |f a - c| + |(l.map f).sum - l.length * c| := abs_add _ _
        _ ≤ B + l.length * B := add_le_add ha hl
        _ = (l.length + 1) * B := by ring
  have h1 := hsum l h
  have h2 : (l.map f).sum / (l.length : ℝ) - c = ((l.map f).sum - l.length * c) / l.length := by
    field_simp
  rw [h2, abs_div, abs_of_pos hlen, div_le_iff₀ hlen]
  linarith
theorem calculateDistance_eq_atan2 (lat1 lon1 lat2 lon2 : ℝ) :
    calculateDistance lat1 lon1 lat2 lon2
      = 6371000 * (2 * atan2 (Real.sqrt (haversineA lat1 lon1 lat2 lon2))
          (Real.sqrt (1 - haversineA lat1 lon1 lat2 lon2))) := rfl

theorem cos_degrees_nonneg (lat : ℝ) (h : |lat| ≤ 90) : 0 ≤ Real.cos (lat * Real.pi / 180) := by
  have hpos : 0 < Real.pi := Real.pi_pos
  obtain ⟨h1, h2⟩ := abs_le.mp h
  apply Real.cos_nonneg_of_neg_pi_div_two_le_of_le
  · have : -(Real.pi / 2) = (-90) * Real.pi / 180 := by ring
    rw [this]
    apply div_le_div_of_nonneg_right _ (by norm_num)
    nlinarith
  · have : Real.pi / 2 = 90 * Real.pi / 180 := by ring
    rw [this]
    apply div_le_div_of_nonneg_right _ (by norm_num)
    nlinarith

theorem haversineA_bounds (lat1 lon1 lat2 lon2 : ℝ) (h1 : |lat1| ≤ 90) (h2 : |lat2| ≤ 90) :
    0 ≤ haversineA lat1 lon1 lat2 lon2 ∧ haversineA lat1 lon1 lat2 lon2 ≤ 1 := by
  have hc1 := cos_degrees_nonneg lat1 h1
  have hc2 := cos_degrees_nonneg lat2 h2
  set x := lat1 * Real.pi / 180 with hx
  set y := lat2 * Real.pi / 180 with hy
  have hd : (lat2 - lat1) * Real.pi / 180 / 2 = (y - x) / 2 := by rw [hx, hy]; ring
  unfold haversineA
  rw [hd]
  set s := Real.sin ((y - x) / 2) with hs
  set m := Real.sin ((lon2 - lon1) * Real.pi / 180 / 2) with hm
  have hm1 : m * m ≤ 1 := by
    have := Real.sin_sq_le_one ((lon2 - lon1) * Real.pi / 180 / 2)
    rw [sq] at this
    exact this
  have hm0 : 0 ≤ m * m := mul_self_nonneg m
  -- cos x cos y ≤ 1 - s^2
  have hprod : Real.cos x * Real.cos y ≤ 1 - s * s := by
    have hsub : Real.cos (y - x) = Real.cos y * Real.cos x + Real.sin y * Real.sin x :=
      Real.cos_sub y x
    have hadd : Real.cos (y + x) = Real.cos y * Real.cos x - Real.sin y * Real.sin x :=
      Real.cos_add y x
    have hle : Real.cos (y + x) ≤ 1 := Real.cos_le_one _
    have hhalf : Real.cos (y - x) = 1 - 2 * (s * s) := by
      have h2 := Real.cos_two_mul ((y - x) / 2)
      have h3 := Real.sin_sq_add_cos_sq ((y - x) / 2)
      rw [show 2 * ((y - x) / 2) = y - x by ring] at h2
      rw [h2, hs]
      nlinarith
    nlinarith
  constructor
  · have : 0 ≤ Real.cos x * Real.cos y * (m * m) := mul_nonneg (mul_nonneg hc1 hc2) hm0
    nlinarith [mul_self_nonneg s]
  · have h0 : 0 ≤ Real.cos x * Real.cos y := mul_nonneg hc1 hc2
    nlinarith [mul_self_nonneg s]

theorem calculateDistance_eq_arcsin (lat1 lon1 lat2 lon2 : ℝ) (h1 : |lat1| ≤ 90)
    (h2 : |lat2| ≤ 90) :
    calculateDistance lat1 lon1 lat2 lon2
      = 6371000 * (2 * Real.arcsin (Real.sqrt (haversineA lat1 lon1 lat2 lon2))) := by
  obtain ⟨h0, h1'⟩ := haversineA_bounds lat1 lon1 lat2 lon2 h1 h2
  rw [calculateDistance_eq_atan2, atan2_sqrt _ h0 h1']

/-- Within 10 m the haversine is at most `(5 / R)^2`. -/
theorem haversineA_le_of_close (lat1 lon1 lat2 lon2 : ℝ) (h1 : |lat1| ≤ 90) (h2 : |lat2| ≤ 90)
    (h : calculateDistance lat1 lon1 lat2 lon2 ≤ 10) :
    haversineA lat1 lon1 lat2 lon2 ≤ (5 / 6371000) ^ 2 := by
  obtain ⟨h0, h1'⟩ := haversineA_bounds lat1 lon1 lat2 lon2 h1 h2
  rw [calculateDistance_eq_arcsin _ _ _ _ h1 h2] at h
  set a := haversineA lat1 lon1 lat2 lon2 with ha
  have hpi3 : 3 < Real.pi := Real.pi_gt_three
  have hsq0 : 0 ≤ Real.sqrt a := Real.sqrt_nonneg a
  have hsq1 : Real.sqrt a ≤ 1 := by
    have := Real.sqrt_le_sqrt h1'
    rwa [Real.sqrt_one] at this
  have harc : Real.arcsin (Real.sqrt a) ≤ 5 / 6371000 := by linarith
  have hx : Real.sqrt a ∈ Set.Icc (-1 : ℝ) 1 := ⟨by linarith, hsq1⟩
  have hy : (5 / 6371000 : ℝ) ∈ Set.Icc (-(Real.pi / 2)) (Real.pi / 2) := by
    constructor <;> norm_num <;> linarith
  have hsin : Real.sqrt a ≤ Real.sin (5 / 6371000) := (Real.arcsin_le_iff_le_sin hx hy).mp harc
  have hle : Real.sqrt a ≤ 5 / 6371000 := le_trans hsin (Real.sin_le (by norm_num))
  calc a = Real.sqrt a ^ 2 := (Real.sq_sqrt h0).symm
    _ ≤ (5 / 6371000) ^ 2 := pow_le_pow_left₀ hsq0 hle 2

/-- A haversine of at most `(50 / R)^2` means a distance of at most 150 m. -/
theorem calculateDistance_le_of_haversineA (lat1 lon1 lat2 lon2 : ℝ) (h1 : |lat1| ≤ 90)
    (h2 : |lat2| ≤ 90) (h : haversineA lat1 lon1 lat2 lon2 ≤ (50 / 6371000) ^ 2) :
    calculateDistance lat1 lon1 lat2 lon2 ≤ 150 := by
  obtain ⟨h0, h1'⟩ := haversineA_bounds lat1 lon1 lat2 lon2 h1 h2
  rw [calculateDistance_eq_arcsin _ _ _ _ h1 h2]
  set a := haversineA lat1 lon1 lat2 lon2 with ha
  have hpi3 : 3 < Real.pi := Real.pi_gt_three
  have hsq0 : 0 ≤ Real.sqrt a := Real.sqrt_nonneg a
  have hle : Real.sqrt a ≤ 50 / 6371000 := by
    rw [show (50 / 6371000 : ℝ) = Real.sqrt ((50 / 6371000) ^ 2) by
      rw [Real.sqrt_sq (by norm_num)]]
    exact Real.sqrt_le_sqrt h
  have hcube : (75 / 6371000 : ℝ) - (75 / 6371000) ^ 3 / 4 < Real.sin (75 / 6371000) :=
    Real.sin_gt_sub_cube (by norm_num) (by norm_num)
  have hnum : (50 / 6371000 : ℝ) ≤ 75 / 6371000 - (75 / 6371000) ^ 3 / 4 := by norm_num
  have hx : Real.sqrt a ∈ Set.Icc (-1 : ℝ) 1 :=
    ⟨by linarith, le_trans hle (by norm_num)⟩
  have hy : (75 / 6371000 : ℝ) ∈ Set.Icc (-(Real.pi / 2)) (Real.pi / 2) := by
    constructor <;> norm_num <;> linarith
  have harc : Real.arcsin (Real.sqrt a) ≤ 75 / 6371000 :=
    (Real.arcsin_le_iff_le_sin hx hy).mpr (by linarith)
  linarith

/-- The half angle in radians of a mean of degrees is bounded like the half angles
of the members. -/
theorem abs_half_angle_mean {β : Type} (f : β → ℝ) (c B : ℝ) (l : List β) (hne : l ≠ [])
    (h : ∀ x ∈ l, |(f x - c) * Real.pi / 180 / 2| ≤ B) :
    |((l.map f).sum / (l.length : ℝ) - c) * Real.pi / 180 / 2| ≤ B := by
  have hk : 0 < Real.pi / 360 := by positivity
  have hform : ∀ y : ℝ, |(y - c) * Real.pi / 180 / 2| = |y - c| * (Real.pi / 360) := by
    intro y
    rw [show (y - c) * Real.pi / 180 / 2 = (y - c) * (Real.pi / 360) by ring, abs_mul,
      abs_of_pos hk]
  have h' : ∀ x ∈ l, |f x - c| ≤ B / (Real.pi / 360) := by
    intro x hx
    rw [le_div_iff₀ hk, ← hform]
    exact h x hx
  have := abs_mean_sub_le f c _ l hne h'
  rw [hform]
  exact (le_div_iff₀ hk).mp this

theorem abs_le_of_mul_self_le (x t : ℝ) (ht : 0 ≤ t) (h : x * x ≤ t * t) : |x| ≤ t :=
  abs_le.mpr ⟨by nlinarith, by nlinarith⟩

/-- What a distance of at most 10 m gives for the two half angles. -/
theorem close_member_facts (latP lonP latQ lonQ : ℝ) (hP : |latP| ≤ 90) (hQ : |latQ| ≤ 90)
    (hlon : |lonQ - lonP| ≤ 180) (hclose : calculateDistance latP lonP latQ lonQ ≤ 10) :
    |(latQ - latP) * Real.pi / 180 / 2| ≤ 2 * (5 / 6371000) ∧
      Real.cos (latP * Real.pi / 180) * Real.cos (latQ * Real.pi / 180) *
        (Real.sin ((lonQ - lonP) * Real.pi / 180 / 2) *
          Real.sin ((lonQ - lonP) * Real.pi / 180 / 2)) ≤ (5 / 6371000) * (5 / 6371000) ∧
      |(lonQ - lonP) * Real.pi / 180 / 2| ≤ Real.pi / 2 := by
  have hpi : 0 < Real.pi := Real.pi_pos
  have hk : (0 : ℝ) < Real.pi / 360 := by positivity
  have ha := haversineA_le_of_close latP lonP latQ lonQ hP hQ hclose
  unfold haversineA at ha
  have hcP := cos_degrees_nonneg latP hP
  have hcQ := cos_degrees_nonneg latQ hQ
  have hθ : |(latQ - latP) * Real.pi / 180 / 2| ≤ Real.pi / 2 := by
    have h1 := abs_le.mp hP
    have h2 := abs_le.mp hQ
    have h3 : |latQ - latP| ≤ 180 := abs_le.mpr ⟨by linarith, by linarith⟩
    rw [show (latQ - latP) * Real.pi / 180 / 2 = (latQ - latP) * (Real.pi / 360) by ring,
      abs_mul, abs_of_pos hk]
    calc |latQ - latP| * (Real.pi / 360) ≤ 180 * (Real.pi / 360) :=
          mul_le_mul_of_nonneg_right h3 hk.le
      _ = Real.pi / 2 := by ring
  have hμ : |(lonQ - lonP) * Real.pi / 180 / 2| ≤ Real.pi / 2 := by
    rw [show (lonQ - lonP) * Real.pi / 180 / 2 = (lonQ - lonP) * (Real.pi / 360) by ring,
      abs_mul, abs_of_pos hk]
    calc |lonQ - lonP| * (Real.pi / 360) ≤ 180 * (Real.pi / 360) :=
          mul_le_mul_of_nonneg_right hlon hk.le
      _ = Real.pi / 2 := by ring
  have h2sin := abs_le_two_mul_abs_sin _ hθ
  generalize Real.sin ((latQ - latP) * Real.pi / 180 / 2) = s at ha h2sin
  generalize Real.sin ((lonQ - lonP) * Real.pi / 180 / 2) = m at ha
  generalize Real.cos (latP * Real.pi / 180) = cP at ha hcP
  generalize Real.cos (latQ * Real.pi / 180) = cQ at ha hcQ
  have hterm : 0 ≤ cP * cQ * (m * m) := mul_nonneg (mul_nonneg hcP hcQ) (mul_self_nonneg m)
  have hassoc : cP * cQ * m * m = cP * cQ * (m * m) := by ring
  rw [hassoc, sq] at ha
  have hss : s * s ≤ (5 / 6371000) * (5 / 6371000) := by linarith
  have hsabs : |s| ≤ 5 / 6371000 := abs_le_of_mul_self_le s _ (by norm_num) hss
  exact ⟨by linarith, by linarith [mul_self_nonneg s], hμ⟩

/-- Far from the poles (`8 t < c`), a small haversine term bounds the half angle of
longitude. -/
theorem half_angle_le_of_term (c cQ m x t : ℝ) (ht : 0 < t) (hbig : 8 * t < c)
    (hcQ : |cQ - c| ≤ 4 * t) (hterm : c * cQ * (m * m) ≤ t * t) (hxm : |x| ≤ 2 * |m|) :
    |x| ≤ 3 * t / c := by
  have hcpos : 0 < c := by linarith
  have hcq : c / 2 ≤ cQ := by linarith [(abs_le.mp hcQ).1]
  have hmm0 : 0 ≤ m * m := mul_self_nonneg m
  have h1 : c * (c / 2) * (m * m) ≤ c * cQ * (m * m) :=
    mul_le_mul_of_nonneg_right (mul_le_mul_of_nonneg_left hcq hcpos.le) hmm0
  have hmm : c * c * (m * m) ≤ 2 * (t * t) := by
    have : c * (c / 2) * (m * m) = c * c * (m * m) / 2 := by ring
    linarith
  have habs : |m| * |m| = m * m := abs_mul_abs_self m
  have hxx : |x| * |x| ≤ 4 * (m * m) := by
    have h0 : 0 ≤ |x| := abs_nonneg x
    have : |x| * |x| ≤ (2 * |m|) * (2 * |m|) := mul_le_mul hxm hxm h0 (by positivity)
    calc |x| * |x| ≤ (2 * |m|) * (2 * |m|) := this
      _ = 4 * (|m| * |m|) := by ring
      _ = 4 * (m * m) := by rw [habs]
  have hcx : (c * |x|) * (c * |x|) ≤ (3 * t) * (3 * t) := by
    have h2 : c * c * (|x| * |x|) ≤ c * c * (4 * (m * m)) :=
      mul_le_mul_of_nonneg_left hxx (mul_self_nonneg c)
    have h3 : (c * |x|) * (c * |x|) = c * c * (|x| * |x|) := by ring
    have h4 : c * c * (4 * (m * m)) = 4 * (c * c * (m * m)) := by ring
    have h5 : (3 * t) * (3 * t) = 9 * (t * t) := by ring
    have h6 : 0 ≤ t * t := mul_self_nonneg t
    rw [h3, h5]
    linarith
  have h3 : c * |x| ≤ 3 * t :=
    le_trans (le_abs_self _) (abs_le_of_mul_self_le (c * |x|) (3 * t) (by linarith) hcx)
  rw [le_div_iff₀ hcpos]
  linarith

/-- The haversine towards the centroid, from the bounds on its two half angles. -/
theorem haversine_centroid_bound (c cC sθ sμ t : ℝ) (ht : 0 < t) (hc0 : 0 ≤ c)
    (hcC0 : 0 ≤ cC) (hcdiff : |cC - c| ≤ 4 * t) (hsθ : |sθ| ≤ 2 * t) (hsμ1 : sμ * sμ ≤ 1)
    (hbig : 8 * t < c → |sμ| ≤ 3 * t / c) :
    sθ * sθ + c * cC * sμ * sμ ≤ 100 * (t * t) := by
  have hsμ0 : 0 ≤ sμ * sμ := mul_self_nonneg _
  have htt : 0 ≤ t * t := mul_self_nonneg t
  have hcC_le : cC ≤ c + 4 * t := by linarith [(abs_le.mp hcdiff).2]
  have h1 : sθ * sθ ≤ 4 * (t * t) := by
    have h0 : |sθ| * |sθ| = sθ * sθ := abs_mul_abs_self sθ
    have : |sθ| * |sθ| ≤ (2 * t) * (2 * t) :=
      mul_le_mul hsθ hsθ (abs_nonneg _) (by linarith)
    calc sθ * sθ = |sθ| * |sθ| := h0.symm
      _ ≤ (2 * t) * (2 * t) := this
      _ = 4 * (t * t) := by ring
  have hassoc : c * cC * sμ * sμ = c * cC * (sμ * sμ) := by ring
  rw [hassoc]
  have h2 : c * cC * (sμ * sμ) ≤ 96 * (t * t) := by
    rcases le_or_lt c (8 * t) with hsmall | hb
    · have h3 : c * cC ≤ (8 * t) * (12 * t) :=
        mul_le_mul hsmall (by linarith) hcC0 (by linarith)
      have h4 : c * cC * (sμ * sμ) ≤ c * cC * 1 :=
        mul_le_mul_of_nonneg_left hsμ1 (mul_nonneg hc0 hcC0)
      have h5 : (8 * t) * (12 * t) = 96 * (t * t) := by ring
      linarith
    · have hcpos : 0 < c := by linarith
      have hs := hbig hb
      have hcs : c * |sμ| ≤ 3 * t := by
        have := (le_div_iff₀ hcpos).mp hs
        linarith
      have h0 : |sμ| * |sμ| = sμ * sμ := abs_mul_abs_self sμ
      have hcs2 : c * c * (sμ * sμ) ≤ 9 * (t * t) := by
        have : (c * |sμ|) * (c * |sμ|) ≤ (3 * t) * (3 * t) :=
          mul_le_mul hcs hcs (mul_nonneg hc0 (abs_nonneg _)) (by linarith)
        calc c * c * (sμ * sμ) = (c * |sμ|) * (c * |sμ|) := by rw [← h0]; ring
          _ ≤ (3 * t) * (3 * t) := this
          _ = 9 * (t * t) := by ring
      have hcC2 : cC ≤ 2 * c := by linarith
      have h3 : c * cC * (sμ * sμ) ≤ c * (2 * c) * (sμ * sμ) :=
        mul_le_mul_of_nonneg_right (mul_le_mul_of_nonneg_left hcC2 hc0) hsμ0
      have h4 : c * (2 * c) * (sμ * sμ) = 2 * (c * c * (sμ * sμ)) := by ring
      linarith
  linarith

theorem abs_cos_degrees_sub_le (lat1 lat2 : ℝ) :
    |Real.cos (lat2 * Real.pi / 180) - Real.cos (lat1 * Real.pi / 180)|
      ≤ 2 * |(lat2 - lat1) * Real.pi / 180 / 2| := by
  have h1 := abs_cos_sub_cos_le (lat2 * Real.pi / 180) (lat1 * Real.pi / 180)
  have h2 : lat2 * Real.pi / 180 - lat1 * Real.pi / 180
      = 2 * ((lat2 - lat1) * Real.pi / 180 / 2) := by ring
  rw [h2, abs_mul, abs_of_pos (show (0 : ℝ) < 2 by norm_num)] at h1
  exact h1

/-- A point within 10 m of every member of a list of fixes, and within 180 degrees
of longitude of each, is within 150 m of their centroid. -/
theorem calculateDistance_centroid_le (latP lonP : ℝ) (l : List (Fix ℝ)) (hne : l ≠ [])
    (hP : |latP| ≤ 90) (hlat : ∀ q ∈ l, |q.latitude| ≤ 90)
    (hlon : ∀ q ∈ l, |q.longitude - lonP| ≤ 180)
    (hclose : ∀ q ∈ l, calculateDistance latP lonP q.latitude q.longitude ≤ 10) :
    calculateDistance latP lonP (centroidLat l) (centroidLng l) ≤ 150 := by
  have ht0 : (0 : ℝ) < 5 / 6371000 := by norm_num
  have hc0 := cos_degrees_nonneg latP hP
  have hCl : |centroidLat l| ≤ 90 := by
    have := abs_mean_sub_le (fun q : Fix ℝ => q.latitude) 0 90 l hne
      (by intro q hq; simpa using hlat q hq)
    simpa [centroidLat] using this
  have hmem : ∀ q ∈ l,
      |(q.latitude - latP) * Real.pi / 180 / 2| ≤ 2 * (5 / 6371000) ∧
      Real.cos (latP * Real.pi / 180) * Real.cos (q.latitude * Real.pi / 180) *
        (Real.sin ((q.longitude - lonP) * Real.pi / 180 / 2) *
          Real.sin ((q.longitude - lonP) * Real.pi / 180 / 2)) ≤ (5 / 6371000) * (5 / 6371000) ∧
      |(q.longitude - lonP) * Real.pi / 180 / 2| ≤ Real.pi / 2 := fun q hq =>
    close_member_facts latP lonP q.latitude q.longitude hP (hlat q hq) (hlon q hq) (hclose q hq)
  have hθc : |(centroidLat l - latP) * Real.pi / 180 / 2| ≤ 2 * (5 / 6371000) :=
    abs_half_angle_mean (fun q : Fix ℝ => q.latitude) latP _ l hne (fun q hq => (hmem q hq).1)
  have hcdiff := le_trans (abs_cos_degrees_sub_le latP (centroidLat l))
    (by linarith : 2 * |(centroidLat l - latP) * Real.pi / 180 / 2| ≤ 4 * (5 / 6371000))
  have hbig : 8 * (5 / 6371000) < Real.cos (latP * Real.pi / 180) →
      |Real.sin ((centroidLng l - lonP) * Real.pi / 180 / 2)|
        ≤ 3 * (5 / 6371000) / Real.cos (latP * Real.pi / 180) := by
    intro hb
    have hμq : ∀ q ∈ l, |(q.longitude - lonP) * Real.pi / 180 / 2|
        ≤ 3 * (5 / 6371000) / Real.cos (latP * Real.pi / 180) := by
      intro q hq
      obtain ⟨hq1, hq2, hq3⟩ := hmem q hq
      have hcq := le_trans (abs_cos_degrees_sub_le latP q.latitude)
        (by linarith : 2 * |(q.latitude - latP) * Real.pi / 180 / 2| ≤ 4 * (5 / 6371000))
      exact half_angle_le_of_term _ _ _ _ _ ht0 hb hcq hq2 (abs_le_two_mul_abs_sin _ hq3)
    exact le_trans (abs_sin_le_abs _)
      (abs_half_angle_mean (fun q : Fix ℝ => q.longitude) lonP _ l hne hμq)
  apply calculateDistance_le_of_haversineA _ _ _ _ hP hCl
  unfold haversineA
  have hsμ1 : Real.sin ((centroidLng l - lonP) * Real.pi / 180 / 2)
      * Real.sin ((centroidLng l - lonP) * Real.pi / 180 / 2) ≤ 1 := by
    have := Real.sin_sq_le_one ((centroidLng l - lonP) * Real.pi / 180 / 2)
    rwa [sq] at this
  have := haversine_centroid_bound _ _ _ _ _ ht0 hc0 (cos_degrees_nonneg _ hCl) hcdiff
    (le_trans (abs_sin_le_abs _) hθc) hsμ1 hbig
  calc _ ≤ 100 * ((5 / 6371000 : ℝ) * (5 / 6371000)) := this
    _ = (50 / 6371000) ^ 2 := by norm_num

/-- Fixes that are pairwise within 10 m and within 180 degrees of longitude of each
other each lie within 150 m of the centroid of the fixes before them. -/
theorem joinsRunningCentroid_of_close (rest : List (Fix ℝ)) :
    ∀ (done : List (Fix ℝ)), done ≠ [] →
      (∀ p ∈ done ++ rest, |p.latitude| ≤ 90) →
      (∀ p ∈ done ++ rest, ∀ q ∈ done ++ rest, |q.longitude - p.longitude| ≤ 180) →
      (∀ p ∈ done ++ rest, ∀ q ∈ done ++ rest,
        calculateDistance p.latitude p.longitude q.latitude q.longitude ≤ 10) →
      JoinsRunningCentroid calculateDistance 150 done rest := by
  induction rest with
  | nil => intro _ _ _ _ _; trivial
  | cons p rest ih =>
    intro done hne hlat hlon hclose
    have hp : p ∈ done ++ p :: rest := List.mem_append_right _ (List.mem_cons_self _ _)
    have hdone : ∀ q ∈ done, q ∈ done ++ p :: rest := fun q hq => List.mem_append_left _ hq
    refine ⟨?_, ?_⟩
    · exact calculateDistance_centroid_le p.latitude p.longitude done hne (hlat p hp)
        (fun q hq => hlat q (hdone q hq)) (fun q hq => hlon p hp q (hdone q hq))
        (fun q hq => hclose p hp q (hdone q hq))
    · have happ : (done ++ [p]) ++ rest = done ++ p :: rest := by simp
      apply ih (done ++ [p]) (by simp)
      · rw [happ]; exact hlat
      · rw [happ]; exact hlon
      · rw [happ]; exact hclose

/-- C8 (amended): five fixes with latitudes in `[-90, 90]` that are pairwise within
10 m of each other, no two of which differ by more than 180 degrees of longitude,
and whose first and last fix are `minDurationMinutes` or more apart, all go into
one cluster and give exactly one stoppage under `clusterRadiusMeters = 150` and
`minPointsInCluster = 3`. -/
theorem detectClusteringStoppages_five_close_fixes (params : ClusteringParams ℝ)
    (trip : Trip ℝ) (p1 p2 p3 p4 p5 : Fix ℝ)
    (hpts : trip.points = [p1, p2, p3, p4, p5])
    (hradius : params.clusterRadiusMeters = 150) (hminPts : params.minPointsInCluster = 3)
    (hlat : ∀ p ∈ trip.points, |p.latitude| ≤ 90)
    (hlon : ∀ p ∈ trip.points, ∀ q ∈ trip.points, |q.longitude - p.longitude| ≤ 180)
    (hclose : ∀ p ∈ trip.points, ∀ q ∈ trip.points,
      calculateDistance p.latitude p.longitude q.latitude q.longitude ≤ 10)
    (hspan : params.minDurationMinutes ≤ minutesBetween p1 p5) :
    buildClusters calculateDistance params trip.points = [clusterOf trip.points] ∧
      ∃ s, detectClusteringStoppages calculateDistance params trip = [s] := by
  have hjoin : JoinsRunningCentroid calculateDistance params.clusterRadiusMeters [p1]
      [p2, p3, p4, p5] := by
    rw [hradius]
    apply joinsRunningCentroid_of_close [p2, p3, p4, p5] [p1] (by simp)
    · intro p hp; exact hlat p (by rw [hpts]; exact hp)
    · intro p hp q hq; exact hlon p (by rw [hpts]; exact hp) q (by rw [hpts]; exact hq)
    · intro p hp q hq; exact hclose p (by rw [hpts]; exact hp) q (by rw [hpts]; exact hq)
  obtain ⟨h1, s, h2, _⟩ := detectClusteringStoppages_running_centroid calculateDistance params
    trip p1 [p2, p3, p4, p5] hpts hjoin (by rw [hminPts, hpts]; norm_num) p1 p5
    (by rw [hpts]; simp) (by rw [hpts]; simp) hspan
  exact ⟨h1, s, h2⟩

theorem calculateDistance_closeTrip :
    calculateDistance 60 10 60 (1000001 / 100000) ≤ 10 ∧
      calculateDistance 60 (1000001 / 100000) 60 10 ≤ 10 := by
  have hpos : 0 < Real.pi := Real.pi_pos
  constructor
  · apply calculateDistance_lat60_near
    refine le_trans (abs_sin_le_abs _) ?_
    rw [show ((1000001 / 100000 : ℝ) - 10) * Real.pi / 180 / 2 = Real.pi / 36000000 by ring,
      abs_of_pos (by positivity)]
    linarith
  · apply calculateDistance_lat60_near
    refine le_trans (abs_sin_le_abs _) ?_
    rw [show ((10 : ℝ) - 1000001 / 100000) * Real.pi / 180 / 2 = -(Real.pi / 36000000) by ring,
      abs_neg, abs_of_pos (by positivity)]
    linarith

theorem detectClusteringStoppages_five_close_fixes_witness :
    buildClusters calculateDistance clusteringParamsReal closeTrip.points
        = [clusterOf closeTrip.points] ∧
      ∃ s, detectClusteringStoppages calculateDistance clusteringParamsReal closeTrip = [s] := by
  obtain ⟨h1, h2⟩ := calculateDistance_closeTrip
  exact detectClusteringStoppages_five_close_fixes clusteringParamsReal closeTrip
    (fixAt60 0 10) (fixAt60 1 (1000001 / 100000)) (fixAt60 2 10)
    (fixAt60 3 (1000001 / 100000)) (fixAt60 4 10) rfl rfl rfl
    (by
      have hpts : closeTrip.points = [fixAt60 0 10, fixAt60 1 (1000001 / 100000),
        fixAt60 2 10, fixAt60 3 (1000001 / 100000), fixAt60 4 10] := rfl
      rw [hpts]
      simp only [List.mem_cons, List.mem_singleton, List.not_mem_nil, or_false,
        forall_eq_or_imp, forall_eq, fixAt60]
      norm_num)
    (by
      have hpts : closeTrip.points = [fixAt60 0 10, fixAt60 1 (1000001 / 100000),
        fixAt60 2 10, fixAt60 3 (1000001 / 100000), fixAt60 4 10] := rfl
      rw [hpts]
      simp only [List.mem_cons, List.mem_singleton, List.not_mem_nil, or_false,
        forall_eq_or_imp, forall_eq, fixAt60]
      norm_num [abs_le])
    (by
      have hpts : closeTrip.points = [fixAt60 0 10, fixAt60 1 (1000001 / 100000),
        fixAt60 2 10, fixAt60 3 (1000001 / 100000), fixAt60 4 10] := rfl
      rw [hpts]
      simp only [List.mem_cons, List.mem_singleton, List.not_mem_nil, or_false,
        forall_eq_or_imp, forall_eq, fixAt60, calculateDistance_lat60_self]
      norm_num [h1, h2])
    (by norm_num [clusteringParamsReal, minutesBetween, fixAt60])

/-! ## The haversine distance: symmetry, sign and scale -/

/-- For all coordinates the haversine lies in `[0, 1]`: it is a mean of
`sin² (Δlat / 2)` and `cos² ((lat1 + lat2) / 2)` weighted by `sin² (Δlon / 2)`. -/
theorem haversineA_mem_unit (lat1 lon1 lat2 lon2 : ℝ) :
    0 ≤ haversineA lat1 lon1 lat2 lon2 ∧ haversineA lat1 lon1 lat2 lon2 ≤ 1 := by
  set x := lat1 * Real.pi / 180 with hx
  set y := lat2 * Real.pi / 180 with hy
  have hd : (lat2 - lat1) * Real.pi / 180 / 2 = (y - x) / 2 := by rw [hx, hy]; ring
  unfold haversineA
  rw [hd]
  have hprod : Real.cos x * Real.cos y
      = Real.cos ((y + x) / 2) ^ 2 - Real.sin ((y - x) / 2) ^ 2 := by
    have h1 := Real.cos_sub y x
    have h2 := Real.cos_add y x
    have h3 := Real.cos_two_mul ((y - x) / 2)
    have h4 := Real.cos_two_mul ((y + x) / 2)
    have h5 := Real.sin_sq_add_cos_sq ((y - x) / 2)
    rw [show 2 * ((y - x) / 2) = y - x by ring] at h3
    rw [show 2 * ((y + x) / 2) = y + x by ring] at h4
    nlinarith
  have hS0 := sq_nonneg (Real.sin ((y - x) / 2))
  have hS1 := Real.sin_sq_le_one ((y - x) / 2)
  have hC0 := sq_nonneg (Real.cos ((y + x) / 2))
  have hC1 := Real.cos_sq_le_one ((y + x) / 2)
  have hm0 := sq_nonneg (Real.sin ((lon2 - lon1) * Real.pi / 180 / 2))
  have hm1 := Real.sin_sq_le_one ((lon2 - lon1) * Real.pi / 180 / 2)
  generalize Real.sin ((lon2 - lon1) * Real.pi / 180 / 2) = m at hm0 hm1 ⊢
  generalize Real.sin ((y - x) / 2) = s at hprod hS0 hS1 ⊢
  generalize Real.cos ((y + x) / 2) = c at hprod hC0 hC1
  rw [show s * s + Real.cos x * Real.cos y * m * m = s ^ 2 + (Real.cos x * Real.cos y) * m ^ 2 by ring,
    hprod]
  constructor <;> nlinarith [mul_nonneg hS0 (sub_nonneg.mpr hm1), mul_nonneg hC0 hm0,
    mul_nonneg (sub_nonneg.mpr hS1) (sub_nonneg.mpr hm1), mul_nonneg (sub_nonneg.mpr hC1) hm0]

/-- For all coordinates the distance is `2 R arcsin (√a)`. -/
theorem calculateDistance_eq_two_arcsin (lat1 lon1 lat2 lon2 : ℝ) :
    calculateDistance lat1 lon1 lat2 lon2
      = 6371000 * (2 * Real.arcsin (Real.sqrt (haversineA lat1 lon1 lat2 lon2))) := by
  obtain ⟨h0, h1⟩ := haversineA_mem_unit lat1 lon1 lat2 lon2
  rw [calculateDistance_eq_atan2, atan2_sqrt _ h0 h1]

theorem haversineA_comm (lat1 lon1 lat2 lon2 : ℝ) :
    haversineA lat1 lon1 lat2 lon2 = haversineA lat2 lon2 lat1 lon1 := by
  unfold haversineA
  rw [show (lat1 - lat2) * Real.pi / 180 / 2 = -((lat2 - lat1) * Real.pi / 180 / 2) by ring,
    show (lon1 - lon2) * Real.pi / 180 / 2 = -((lon2 - lon1) * Real.pi / 180 / 2) by ring,
    Real.sin_neg, Real.sin_neg]
  ring

/-- C14: `calculateDistance(lat1, lon1, lat2, lon2) = calculateDistance(lat2, lon2, lat1, lon1)`
for all coordinates. -/
theorem calculateDistance_comm (lat1 lon1 lat2 lon2 : ℝ) :
    calculateDistance lat1 lon1 lat2 lon2 = calculateDistance lat2 lon2 lat1 lon1 := by
  rw [calculateDistance_eq_atan2, calculateDistance_eq_atan2, haversineA_comm]

theorem atan2_nonneg (y x : ℝ) (hy : 0 ≤ y) : 0 ≤ atan2 y x := by
  unfold atan2
  rw [Complex.arg_nonneg_iff]
  exact hy

/-- C15: `calculateDistance` is never negative, and it is 0 from a point to itself. -/
theorem calculateDistance_nonneg_and_self (lat1 lon1 lat2 lon2 : ℝ) :
    0 ≤ calculateDistance lat1 lon1 lat2 lon2 ∧ calculateDistance lat1 lon1 lat1 lon1 = 0 := by
  constructor
  · rw [calculateDistance_eq_atan2]
    have := atan2_nonneg (Real.sqrt (haversineA lat1 lon1 lat2 lon2))
      (Real.sqrt (1 - haversineA lat1 lon1 lat2 lon2)) (Real.sqrt_nonneg _)
    positivity
  · have ha : haversineA lat1 lon1 lat1 lon1 = 0 := by simp [haversineA]
    rw [calculateDistance_eq_atan2, ha, atan2_sqrt 0 le_rfl zero_le_one]
    simp

/-- C16: from any point to the point 0.001 degrees of latitude further north the
distance is `6371000 * 0.001 * π / 180` metres, which is within 5% of 111 m. -/
theorem calculateDistance_one_thousandth_degree (lat lon : ℝ) :
    calculateDistance lat lon (lat + 0.001) lon = 6371000 * 0.001 * Real.pi / 180 ∧
      |calculateDistance lat lon (lat + 0.001) lon - 111| ≤ 0.05 * 111 := by
  have hpi3 : 3.14 < Real.pi := Real.pi_gt_d2
  have hpi4 : Real.pi < 3.15 := Real.pi_lt_d2
  have hθ0 : 0 ≤ 0.001 * Real.pi / 180 / 2 := by positivity
  have hθ1 : 0.001 * Real.pi / 180 / 2 ≤ Real.pi / 2 := by linarith
  have hsin0 : 0 ≤ Real.sin (0.001 * Real.pi / 180 / 2) :=
    Real.sin_nonneg_of_nonneg_of_le_pi hθ0 (by linarith)
  have ha : haversineA lat lon (lat + 0.001) lon = Real.sin (0.001 * Real.pi / 180 / 2) ^ 2 := by
    unfold haversineA
    rw [show (lat + 0.001 - lat) * Real.pi / 180 / 2 = 0.001 * Real.pi / 180 / 2 by ring]
    simp
    ring
  have hd : calculateDistance lat lon (lat + 0.001) lon = 6371000 * 0.001 * Real.pi / 180 := by
    rw [calculateDistance_eq_atan2, ha,
      atan2_sqrt _ (sq_nonneg _) (Real.sin_sq_le_one _), Real.sqrt_sq hsin0,
      Real.arcsin_sin (by linarith) hθ1]
    ring
  refine ⟨hd, ?_⟩
  rw [hd, abs_le]
  constructor <;> norm_num <;> linarith

/-! ## Concrete runs of the merge -/

theorem mergeSimilarStoppages_mergeInput :
    mergeSimilarStoppages flatDistance mergeInput = mergeOutput := by
  simp [mergeSimilarStoppages, mergeLoop, findSimilar, similarLoop, isSimilar, mergeGroup,
    mergeInput, mergeOutput, candidateAt, flatDistance, mathMin, mathMax, mathMaxNum, setToArray]
  norm_num
  decide

theorem mergeSimilarStoppages_idempotent_witness :
    mergeSimilarStoppages flatDistance (mergeSimilarStoppages flatDistance mergeInput)
      = mergeSimilarStoppages flatDistance mergeInput :=
  mergeSimilarStoppages_idempotent flatDistance mergeInput (by
    rw [mergeSimilarStoppages_mergeInput]
    simp only [mergeOutput, List.pairwise_cons, List.mem_singleton, forall_eq,
      List.not_mem_nil, List.Pairwise.nil]
    norm_num [isSimilar, candidateAt, flatDistance])

/-! ## Concrete runs: durations and confidences -/

theorem speedTrip_sorted :
    speedTrip.points.Pairwise (fun a b => a.eventGeneratedTime ≤ b.eventGeneratedTime) := by
  simp only [speedTrip, mkTrip, List.pairwise_cons, List.mem_cons, List.mem_singleton,
    forall_eq_or_imp, forall_eq, List.not_mem_nil, List.Pairwise.nil]
  norm_num [fixAt]

theorem speedTrip_dates : ∀ p ∈ speedTrip.points, p.timestamp = p.eventGeneratedTime := by
  intro p hp
  simp only [speedTrip, mkTrip, List.mem_cons, List.mem_singleton, List.not_mem_nil,
    or_false] at hp
  rcases hp with rfl | rfl | rfl | rfl <;> rfl

theorem detectTimeGapStoppages_haltTrip :
    detectTimeGapStoppages flatDistance defaultParameters.timeGap haltTrip
      = [mkTimeGapStoppage "EQPT-1_Trip1" 1 (fixAt "EQPT-1" 0 10 20 0)
          (fixAt "EQPT-1" 20 10 20 0)] := by
  have hid : haltTrip.id = "EQPT-1_Trip1" := by decide
  have hpts : haltTrip.points = [fixAt "EQPT-1" 0 10 20 0, fixAt "EQPT-1" 20 10 20 0] := rfl
  unfold detectTimeGapStoppages
  rw [hpts, hid]
  simp only [timeGapLoop, defaultParameters]
  rw [if_pos (by norm_num [minutesBetween, fixAt, flatDistance])]
  rfl

theorem detectSpeedBasedStoppages_haltTrip :
    detectSpeedBasedStoppages defaultParameters.speed haltTrip = [] := by
  have hpts : haltTrip.points = [fixAt "EQPT-1" 0 10 20 0, fixAt "EQPT-1" 20 10 20 0] := rfl
  unfold detectSpeedBasedStoppages
  rw [hpts]
  simp [speedStep, fixAt, defaultParameters]

theorem detectClusteringStoppages_haltTrip :
    detectClusteringStoppages flatDistance defaultParameters.clustering haltTrip = [] := by
  have hpts : haltTrip.points = [fixAt "EQPT-1" 0 10 20 0, fixAt "EQPT-1" 20 10 20 0] := rfl
  unfold detectClusteringStoppages
  rw [hpts]
  simp [buildClusters, clusterStep, assignToCluster, addToCluster, clustersToStoppages,
    clusterToStoppage, fixAt, flatDistance, defaultParameters]
  norm_num

theorem detectHybridStoppages_haltTrip :
    (detectHybridStoppages flatDistance defaultParameters haltTrip).map
      (fun s => s.confidence) = [41 / 50] := by
  have hpts : haltTrip.points = [fixAt "EQPT-1" 0 10 20 0, fixAt "EQPT-1" 20 10 20 0] := rfl
  unfold detectHybridStoppages potentialStops
  rw [detectTimeGapStoppages_haltTrip, detectSpeedBasedStoppages_haltTrip,
    detectClusteringStoppages_haltTrip]
  simp [hybridStep, hybridScore, getAverageSpeedNearLocation, getLocationSignificanceScore,
    hpts, mkTimeGapStoppage, minutesBetween, fixAt, flatDistance, defaultParameters]
  norm_num

theorem haltTrip_sorted :
    haltTrip.points.Pairwise (fun a b => a.eventGeneratedTime ≤ b.eventGeneratedTime) := by
  simp only [haltTrip, mkTrip, List.pairwise_cons, List.mem_cons, List.mem_singleton,
    forall_eq_or_imp, forall_eq, List.not_mem_nil, List.Pairwise.nil]
  norm_num [fixAt]

theorem haltTrip_speeds : ∀ p ∈ haltTrip.points, 0 ≤ p.speed := by
  intro p hp
  simp only [haltTrip, mkTrip, List.mem_cons, List.mem_singleton, List.not_mem_nil,
    or_false] at hp
  rcases hp with rfl | rfl <;> norm_num [fixAt]

theorem detectHybridStoppages_confidence_in_unit_witness :
    (∀ p ∈ haltTrip.points, 0 ≤ p.speed) ∧
      haltTrip.points.Pairwise (fun a b => a.eventGeneratedTime ≤ b.eventGeneratedTime) ∧
      (detectHybridStoppages flatDistance defaultParameters haltTrip).map
        (fun s => s.confidence) = [41 / 50] ∧
      ∀ s ∈ detectHybridStoppages flatDistance defaultParameters haltTrip,
        0 ≤ s.confidence ∧ s.confidence ≤ 1 :=
  ⟨haltTrip_speeds, haltTrip_sorted, detectHybridStoppages_haltTrip,
    detectHybridStoppages_confidence_in_unit flatDistance defaultParameters haltTrip
      haltTrip_speeds haltTrip_sorted (by norm_num [defaultParameters])
      (by norm_num [defaultParameters]) (by norm_num [defaultParameters])
      (by norm_num [defaultParameters])⟩

theorem stoppage_duration_is_span_witness :
    (∀ p ∈ speedTrip.points, p.timestamp = p.eventGeneratedTime) ∧
      (∀ s ∈ detectTimeGapStoppages flatDistance defaultParameters.timeGap speedTrip,
        DurationIsSpan s) ∧
      (∀ s ∈ detectSpeedBasedStoppages defaultParameters.speed speedTrip, DurationIsSpan s) ∧
      (∀ s ∈ detectClusteringStoppages flatDistance defaultParameters.clustering speedTrip,
        DurationIsSpan s) ∧
      (∀ s ∈ detectHybridStoppages flatDistance defaultParameters speedTrip,
        DurationIsSpan s) ∧
      ∀ candidates : List (Stoppage ℚ),
        (∀ c ∈ candidates,
          c ∈ detectTimeGapStoppages flatDistance defaultParameters.timeGap speedTrip
            ++ detectSpeedBasedStoppages defaultParameters.speed speedTrip
            ++ detectClusteringStoppages flatDistance defaultParameters.clustering speedTrip
            ++ detectHybridStoppages flatDistance defaultParameters speedTrip) →
        ∀ m ∈ mergeSimilarStoppages flatDistance candidates, DurationIsSpan m :=
  ⟨speedTrip_dates,
    stoppage_duration_is_span flatDistance defaultParameters speedTrip speedTrip_dates⟩

theorem candidate_confidence_in_unit_witness :
    speedTrip.points.Pairwise (fun a b => a.eventGeneratedTime ≤ b.eventGeneratedTime) ∧
      (∀ s ∈ detectTimeGapStoppages flatDistance defaultParameters.timeGap speedTrip,
        ConfidenceInUnit s) ∧
      (∀ s ∈ detectSpeedBasedStoppages defaultParameters.speed speedTrip,
        ConfidenceInUnit s) ∧
      (∀ s ∈ detectClusteringStoppages flatDistance defaultParameters.clustering speedTrip,
        ConfidenceInUnit s) ∧
      ∀ candidates : List (Stoppage ℚ),
        (∀ c ∈ candidates,
          c ∈ detectTimeGapStoppages flatDistance defaultParameters.timeGap speedTrip
            ++ detectSpeedBasedStoppages defaultParameters.speed speedTrip
            ++ detectClusteringStoppages flatDistance defaultParameters.clustering speedTrip) →
        ∀ m ∈ mergeSimilarStoppages flatDistance candidates, ConfidenceInUnit m :=
  ⟨speedTrip_sorted,
    candidate_confidence_in_unit flatDistance defaultParameters speedTrip speedTrip_sorted⟩

/-! ## The sample data -/

/-- The distance is at most `π R (|Δφ| / 2 + |Δλ| / 2)`, the differences in radians. -/
theorem calculateDistance_le_abs (lat1 lon1 lat2 lon2 : ℝ) :
    calculateDistance lat1 lon1 lat2 lon2
      ≤ 6371000 * Real.pi * (|(lat2 - lat1) * Real.pi / 180 / 2|
          + |(lon2 - lon1) * Real.pi / 180 / 2|) := by
  rw [calculateDistance_eq_two_arcsin]
  obtain ⟨h0, h1⟩ := haversineA_mem_unit lat1 lon1 lat2 lon2
  have hpi : 0 < Real.pi := Real.pi_pos
  have ha : haversineA lat1 lon1 lat2 lon2
      ≤ |(lat2 - lat1) * Real.pi / 180 / 2| ^ 2 + |(lon2 - lon1) * Real.pi / 180 / 2| ^ 2 := by
    unfold haversineA
    set θ := (lat2 - lat1) * Real.pi / 180 / 2
    set μ := (lon2 - lon1) * Real.pi / 180 / 2
    have hθ : |Real.sin θ| ≤ |θ| := abs_sin_le_abs θ
    have hμ : |Real.sin μ| ≤ |μ| := abs_sin_le_abs μ
    have hθ2 : Real.sin θ * Real.sin θ ≤ |θ| ^ 2 := by
      rw [← abs_mul_abs_self (Real.sin θ), sq]
      exact mul_le_mul hθ hθ (abs_nonneg _) (abs_nonneg _)
    have hμ2 : Real.sin μ * Real.sin μ ≤ |μ| ^ 2 := by
      rw [← abs_mul_abs_self (Real.sin μ), sq]
      exact mul_le_mul hμ hμ (abs_nonneg _) (abs_nonneg _)
    have hc : Real.cos (lat1 * Real.pi / 180) * Real.cos (lat2 * Real.pi / 180) ≤ 1 := by
      have h1 := Real.cos_le_one (lat1 * Real.pi / 180)
      have h2 := Real.cos_le_one (lat2 * Real.pi / 180)
      have h3 := Real.neg_one_le_cos (lat1 * Real.pi / 180)
      have h4 := Real.neg_one_le_cos (lat2 * Real.pi / 180)
      nlinarith [mul_nonneg (sub_nonneg.mpr h1) (sub_nonneg.mpr h2),
        mul_nonneg (sub_nonneg.mpr h1) (by linarith : (0 : ℝ) ≤ Real.cos (lat2 * Real.pi / 180) + 1),
        mul_nonneg (by linarith : (0 : ℝ) ≤ Real.cos (lat1 * Real.pi / 180) + 1)
          (sub_nonneg.mpr h2)]
    have hss : 0 ≤ Real.sin μ * Real.sin μ := mul_self_nonneg _
    have : Real.cos (lat1 * Real.pi / 180) * Real.cos (lat2 * Real.pi / 180) * Real.sin μ
        * Real.sin μ ≤ Real.sin μ * Real.sin μ := by
      rw [mul_assoc]
      exact mul_le_of_le_one_left hss hc
    linarith
  have hs : Real.sqrt (haversineA lat1 lon1 lat2 lon2)
      ≤ |(lat2 - lat1) * Real.pi / 180 / 2| + |(lon2 - lon1) * Real.pi / 180 / 2| := by
    apply Real.sqrt_le_iff.mpr
    refine ⟨by positivity, ?_⟩
    nlinarith [abs_nonneg ((lat2 - lat1) * Real.pi / 180 / 2),
      abs_nonneg ((lon2 - lon1) * Real.pi / 180 / 2),
      mul_nonneg (abs_nonneg ((lat2 - lat1) * Real.pi / 180 / 2))
        (abs_nonneg ((lon2 - lon1) * Real.pi / 180 / 2))]
  have hy : Real.arcsin (Real.sqrt (haversineA lat1 lon1 lat2 lon2))
      ≤ Real.pi / 2 * Real.sqrt (haversineA lat1 lon1 lat2 lon2) := by
    have hy0 : 0 ≤ Real.arcsin (Real.sqrt (haversineA lat1 lon1 lat2 lon2)) :=
      Real.arcsin_nonneg.mpr (Real.sqrt_nonneg _)
    have hy1 : Real.arcsin (Real.sqrt (haversineA lat1 lon1 lat2 lon2)) ≤ Real.pi / 2 :=
      Real.arcsin_le_pi_div_two _
    have hsin := Real.mul_le_sin hy0 hy1
    rw [Real.sin_arcsin (by linarith [Real.sqrt_nonneg (haversineA lat1 lon1 lat2 lon2)])
      (Real.sqrt_le_one.mpr h1)] at hsin
    have h2 : 2 / Real.pi * Real.arcsin (Real.sqrt (haversineA lat1 lon1 lat2 lon2))
        = Real.arcsin (Real.sqrt (haversineA lat1 lon1 lat2 lon2)) * 2 / Real.pi := by ring
    rw [h2, div_le_iff₀ hpi] at hsin
    linarith
  have hmul : Real.pi / 2 * Real.sqrt (haversineA lat1 lon1 lat2 lon2)
      ≤ Real.pi / 2 * (|(lat2 - lat1) * Real.pi / 180 / 2|
          + |(lon2 - lon1) * Real.pi / 180 / 2|) :=
    mul_le_mul_of_nonneg_left hs (by positivity)
  linarith

/-- The last two fixes of `EQPT-4` in the sample data lie less than 5 m apart. -/
theorem calculateDistance_sampleRows4_last :
    calculateDistance (sampleRow "EQPT-4" 12.928745 74.9176766 0 1716230240000).latitude
        (sampleRow "EQPT-4" 12.928745 74.9176766 0 1716230240000).longitude
        (sampleRow "EQPT-4" 12.9287266 74.9176866 0 1716230900000).latitude
        (sampleRow "EQPT-4" 12.9287266 74.9176866 0 1716230900000).longitude ≤ 5 := by
  refine le_trans (calculateDistance_le_abs _ _ _ _) ?_
  have hpi : 0 < Real.pi := Real.pi_pos
  have hpi2 : Real.pi < 3.15 := Real.pi_lt_d2
  simp only [sampleRow]
  rw [show ((12.9287266 : ℝ) - 12.928745) * Real.pi / 180 / 2
      = -(Real.pi * (184 / 3600000000)) by ring,
    show ((74.9176866 : ℝ) - 74.9176766) * Real.pi / 180 / 2
      = Real.pi * (100 / 3600000000) by ring,
    abs_neg, abs_of_pos (by positivity), abs_of_pos (by positivity)]
  nlinarith

theorem segmentTrips_sampleData :
    segmentTrips calculateDistance 60 sampleData
      = some [sampleTrip4, sampleTrip5, sampleTrip6] := by
  simp [segmentTrips, segmentGroups, segmentGroup, segmentWalk, segmentStep, equipmentGroup,
    sampleData, sampleRows4, sampleRows5, sampleRows6, sampleTrip4, sampleTrip5, sampleTrip6,
    sampleRow, equipIdOf, objectPrototypeKeys, insertionKeys, sortByTime, timeLE,
    minutesBetween]
  norm_num

theorem detectTimeGapStoppages_sampleTrip4 :
    detectTimeGapStoppages calculateDistance sampleTimeGapParams sampleTrip4
      = [mkTimeGapStoppage "EQPT-4_Trip1" 5
          (sampleRow "EQPT-4" 12.928745 74.9176766 0 1716230240000)
          (sampleRow "EQPT-4" 12.9287266 74.9176866 0 1716230900000)] := by
  have hd : calculateDistance
      (sampleRow "EQPT-4" 12.928745 74.9176766 0 1716230240000).latitude
      (sampleRow "EQPT-4" 12.928745 74.9176766 0 1716230240000).longitude
      (sampleRow "EQPT-4" 12.9287266 74.9176866 0 1716230900000).latitude
      (sampleRow "EQPT-4" 12.9287266 74.9176866 0 1716230900000).longitude ≤ 500 :=
    le_trans calculateDistance_sampleRows4_last (by norm_num)
  have h12 : ¬ (5 : ℝ) ≤ minutesBetween
      (sampleRow "EQPT-4" 12.9294916 74.9173533 0 1716229815000)
      (sampleRow "EQPT-4" 12.92936 74.91744 0 1716230000000) := by
    norm_num [minutesBetween, sampleRow]
  have h23 : ¬ (5 : ℝ) ≤ minutesBetween
      (sampleRow "EQPT-4" 12.92936 74.91744 0 1716230000000)
      (sampleRow "EQPT-4" 12.9292766 74.9175266 8 1716230120000) := by
    norm_num [minutesBetween, sampleRow]
  have h34 : ¬ (5 : ℝ) ≤ minutesBetween
      (sampleRow "EQPT-4" 12.9292766 74.9175266 8 1716230120000)
      (sampleRow "EQPT-4" 12.9290049 74.9177016 7 1716230180000) := by
    norm_num [minutesBetween, sampleRow]
  have h45 : ¬ (5 : ℝ) ≤ minutesBetween
      (sampleRow "EQPT-4" 12.9290049 74.9177016 7 1716230180000)
      (sampleRow "EQPT-4" 12.928745 74.9176766 0 1716230240000) := by
    norm_num [minutesBetween, sampleRow]
  have h56 : (5 : ℝ) ≤ minutesBetween
      (sampleRow "EQPT-4" 12.928745 74.9176766 0 1716230240000)
      (sampleRow "EQPT-4" 12.9287266 74.9176866 0 1716230900000) := by
    norm_num [minutesBetween, sampleRow]
  have hid : sampleTrip4.id = "EQPT-4_Trip1" := by decide
  have hpts : sampleTrip4.points = sampleRows4 := rfl
  unfold detectTimeGapStoppages
  rw [hpts, hid]
  simp only [sampleRows4, timeGapLoop, sampleTimeGapParams, h12, h23, h34, h45, h56, hd,
    false_and, and_self, if_false, if_true, List.nil_append]

/-- C18 (counterexample): the one Time-Gap candidate of the `EQPT-4` trip of the
sample data spans 660000 ms and has a duration of 11 minutes, not 685 seconds and
about 11.4 minutes. -/
theorem detectTimeGapStoppages_sample_gap_is_660_seconds :
    (detectTimeGapStoppages calculateDistance sampleTimeGapParams sampleTrip4).map
        (fun s => (s.endTime - s.startTime, s.duration))
      = [((660000 : Int), (11 : ℝ))] ∧ (660000 : Int) ≠ 685 * 1000 := by
  rw [detectTimeGapStoppages_sampleTrip4]
  refine ⟨?_, by decide⟩
  simp only [List.map_cons, List.map_nil, mkTimeGapStoppage, minutesBetween, sampleRow]
  norm_num

/-- C18 (amended): segmented with threshold 60, the sample data give the trip of
`EQPT-4` first; its last two fixes lie less than 5 m apart, and under
`minGapMinutes = 5` and `maxDistanceMeters = 500` the Time-Gap detection of that
trip returns exactly one candidate, the one between these two fixes, whose gap is
660 seconds, whose duration is 11 minutes and whose confidence is 1. -/
theorem detectTimeGapStoppages_sample_one_candidate :
    (segmentTrips calculateDistance 60 sampleData).map
        (List.map (fun t => t.equipmentId)) = some ["EQPT-4", "EQPT-5", "EQPT-6"] ∧
      (segmentTrips calculateDistance 60 sampleData).bind List.head? = some sampleTrip4 ∧
      calculateDistance 12.928745 74.9176766 12.9287266 74.9176866 ≤ 5 ∧
      ∃ s, detectTimeGapStoppages calculateDistance sampleTimeGapParams sampleTrip4 = [s] ∧
        s.startTime = 1716230240000 ∧ s.endTime = 1716230900000 ∧
        s.endTime - s.startTime = 660 * 1000 ∧ s.duration = 11 ∧ s.confidence = 1 := by
  rw [segmentTrips_sampleData, detectTimeGapStoppages_sampleTrip4]
  refine ⟨rfl, rfl, calculateDistance_sampleRows4_last, _, rfl, rfl, rfl, by decide, ?_, ?_⟩
  · norm_num [mkTimeGapStoppage, minutesBetween, sampleRow]
  · norm_num [mkTimeGapStoppage, minutesBetween, sampleRow]

/-! ## Concrete runs: Time-Gap detection above the segmentation threshold -/

theorem detectTimeGapStoppages_minGap_above_threshold_witness :
    segmentTrips flatDistance 60 gapsData = some [gapsTrip1, gapsTrip2] ∧
      ((60 : ℚ) < 61) ∧
      detectTimeGapStoppages flatDistance { minGapMinutes := 61, maxDistanceMeters := 500 }
        gapsTrip1 = [] ∧
      detectTimeGapStoppages flatDistance { minGapMinutes := 61, maxDistanceMeters := 500 }
        gapsTrip2 = [] :=
  ⟨segmentTrips_gapsData, by norm_num,
    (detectTimeGapStoppages_minGap_above_threshold flatDistance 60 gapsData
      [gapsTrip1, gapsTrip2] { minGapMinutes := 61, maxDistanceMeters := 500 }
      segmentTrips_gapsData (by norm_num) gapsTrip1 (List.mem_cons_self _ _)).2,
    (detectTimeGapStoppages_minGap_above_threshold flatDistance 60 gapsData
      [gapsTrip1, gapsTrip2] { minGapMinutes := 61, maxDistanceMeters := 500 }
      segmentTrips_gapsData (by norm_num) gapsTrip2
      (List.mem_cons_of_mem _ (List.mem_cons_self _ _))).2⟩

/-! ## Clustering with a radius of zero or less -/

theorem calculateDistance_nonneg (lat1 lon1 lat2 lon2 : ℝ) :
    0 ≤ calculateDistance lat1 lon1 lat2 lon2 := by
  rw [calculateDistance_eq_atan2]
  have := atan2_nonneg (Real.sqrt (haversineA lat1 lon1 lat2 lon2))
    (Real.sqrt (1 - haversineA lat1 lon1 lat2 lon2)) (Real.sqrt_nonneg _)
  positivity

/-- C22 (counterexample): with `clusterRadiusMeters = 0` the second of two fixes at
the same position joins the cluster of the first, and with
`minPointsInCluster = 2` and `minDurationMinutes = 3` the two fixes, five minutes
apart, give a stoppage. -/
theorem detectClusteringStoppages_zero_radius_joins :
    zeroRadiusParams.clusterRadiusMeters ≤ 0 ∧ 2 ≤ zeroRadiusParams.minPointsInCluster ∧
      buildClusters calculateDistance zeroRadiusParams standstillTrip.points
        = [{ centerLat := 60, centerLng := 10, points := [fixAt60 0 10, fixAt60 5 10] }] ∧
      (detectClusteringStoppages calculateDistance zeroRadiusParams standstillTrip).map
        (fun s => (s.startTime, s.endTime, s.duration)) = [(0, 300000, 5)] := by
  have hpts : standstillTrip.points = [fixAt60 0 10, fixAt60 5 10] := rfl
  have hb : buildClusters calculateDistance zeroRadiusParams standstillTrip.points
      = [{ centerLat := 60, centerLng := 10, points := [fixAt60 0 10, fixAt60 5 10] }] := by
    rw [hpts]
    simp [buildClusters, clusterStep, assignToCluster, addToCluster, fixAt60,
      zeroRadiusParams, calculateDistance_lat60_self]
  refine ⟨by norm_num [zeroRadiusParams], by norm_num [zeroRadiusParams], hb, ?_⟩
  unfold detectClusteringStoppages
  rw [hb]
  simp [clustersToStoppages, clusterToStoppage, mkClusterStoppage, sortByTime, timeLE,
    fixAt60, zeroRadiusParams, minutesBetween]
  norm_num

/-- C22 (amended): for every trip, when `clusterRadiusMeters` is negative, or is 0
and no two fixes of the trip are at distance 0 from each other,
`detectClusteringStoppages` places every fix in its own single-member cluster,
and with `minPointsInCluster >= 2` it returns no stoppage. -/
theorem detectClusteringStoppages_nonpositive_radius (params : ClusteringParams ℝ)
    (trip : Trip ℝ)
    (hradius : params.clusterRadiusMeters < 0 ∨
      (params.clusterRadiusMeters = 0 ∧
        trip.points.Pairwise (fun q p =>
          calculateDistance p.latitude p.longitude q.latitude q.longitude ≠ 0)))
    (hmin : 2 ≤ params.minPointsInCluster) :
    buildClusters calculateDistance params trip.points = trip.points.map singletonCluster ∧
      detectClusteringStoppages calculateDistance params trip = [] := by
  have hfar : trip.points.Pairwise (fun q p =>
      params.clusterRadiusMeters
        < calculateDistance p.latitude p.longitude q.latitude q.longitude) := by
    rcases hradius with hneg | ⟨hzero, hpair⟩
    · exact List.pairwise_of_forall
        (fun q p => lt_of_lt_of_le hneg (calculateDistance_nonneg _ _ _ _))
    · refine hpair.imp ?_
      intro q p hne
      rw [hzero]
      exact lt_of_le_of_ne (calculateDistance_nonneg _ _ _ _) (Ne.symm hne)
  have hb : buildClusters calculateDistance params trip.points
      = trip.points.map singletonCluster := by
    have := clusterLoop_far calculateDistance params trip.points []
      (by intro p _ q hq; simp at hq) hfar
    simpa [buildClusters] using this
  refine ⟨hb, ?_⟩
  unfold detectClusteringStoppages
  rw [hb]
  apply clustersToStoppages_small
  intro c hc
  obtain ⟨p, _, rfl⟩ := List.mem_map.mp hc
  simp only [singletonCluster, List.length_singleton, Nat.cast_one]
  exact lt_of_lt_of_le one_lt_two hmin

theorem detectClusteringStoppages_nonpositive_radius_witness :
    negativeRadiusParams.clusterRadiusMeters < 0 ∧
      2 ≤ negativeRadiusParams.minPointsInCluster ∧
      buildClusters calculateDistance negativeRadiusParams standstillTrip.points
        = standstillTrip.points.map singletonCluster ∧
      detectClusteringStoppages calculateDistance negativeRadiusParams standstillTrip = [] :=
  ⟨by norm_num [negativeRadiusParams], by norm_num [negativeRadiusParams],
    detectClusteringStoppages_nonpositive_radius negativeRadiusParams standstillTrip
      (Or.inl (by norm_num [negativeRadiusParams])) (by norm_num [negativeRadiusParams])⟩

/-! ## Concrete runs: segmentation under a growing threshold -/

theorem segmentTrips_gapsData_threshold_one :
    segmentTrips flatDistance 1 gapsData = some [gapsTripShort] := by
  simp [segmentTrips, segmentGroups, segmentGroup, segmentWalk, segmentStep, equipmentGroup,
    gapsData, gapsTripShort, fixAt, equipIdOf, objectPrototypeKeys, insertionKeys,
    sortByTime, timeLE, minutesBetween]
  norm_num

theorem segmentTrips_threshold_mono_witness :
    ((1 : ℚ) ≤ 60) ∧
      segmentTrips flatDistance 1 gapsData = some [gapsTripShort] ∧
      segmentTrips flatDistance 60 gapsData = some [gapsTrip1, gapsTrip2] ∧
      (∀ t1 ∈ [gapsTripShort], ∀ p ∈ t1.points,
        ∃ t2 ∈ [gapsTrip1, gapsTrip2], p ∈ t2.points) ∧
      ([gapsTripShort].map (fun t => t.points.length)).sum
        ≤ ([gapsTrip1, gapsTrip2].map (fun t => t.points.length)).sum :=
  ⟨by norm_num, segmentTrips_gapsData_threshold_one, segmentTrips_gapsData,
    (segmentTrips_threshold_mono flatDistance 1 60 gapsData [gapsTripShort]
      [gapsTrip1, gapsTrip2] (by norm_num) segmentTrips_gapsData_threshold_one
      segmentTrips_gapsData).1,
    (segmentTrips_threshold_mono flatDistance 1 60 gapsData [gapsTripShort]
      [gapsTrip1, gapsTrip2] (by norm_num) segmentTrips_gapsData_threshold_one
      segmentTrips_gapsData).2.1⟩

/-! ## Concrete runs: ingestion of interleaved assets -/

theorem sortByTime_interleavedData : sortByTime interleavedData = interleavedData := by
  simp [sortByTime, interleavedData, fixAt, timeLE]

/-- C21 (counterexample): with fixes of two assets interleaved in time, the third
fix, of asset `EQPT-1`, gets 60 elapsed seconds and a distance of 111000, measured
from the fix of `EQPT-2` before it; the previous fix of `EQPT-1` is 120 seconds
earlier and at distance 0. -/
theorem parseCSVPreprocess_interleaved_assets :
    (parseCSVPreprocess flatDistance interleavedData).map
        (fun r => (equipIdOf r.point, r.timeDiff, r.distance))
      = [("EQPT-1", none, none), ("EQPT-2", some 60, some 111000),
          ("EQPT-1", some 60, some 111000)] ∧
      previousOfSameAsset [fixAt "EQPT-1" 0 10 20 0, fixAt "EQPT-2" 1 11 20 0]
          (fixAt "EQPT-1" 2 10 20 0) = some (fixAt "EQPT-1" 0 10 20 0) ∧
      (((fixAt "EQPT-1" 2 10 20 0).eventGeneratedTime
          - (fixAt "EQPT-1" 0 10 20 0).eventGeneratedTime : Int) : ℚ) / 1000 = 120 ∧
      flatDistance 10 20 10 20 = 0 := by
  refine ⟨?_, ?_, ?_, ?_⟩
  · unfold parseCSVPreprocess
    rw [sortByTime_interleavedData]
    simp [preprocessData, computeMetrics, preprocessWalk, markOutlier, interleavedData,
      fixAt, flatDistance, equipIdOf]
    norm_num
  · simp [previousOfSameAsset, fixAt, equipIdOf]
  · norm_num [fixAt]
  · norm_num [flatDistance]

theorem parseCSVPreprocess_measures_from_previous_row_witness :
    sortByTime interleavedData
        = [fixAt "EQPT-1" 0 10 20 0] ++ fixAt "EQPT-2" 1 11 20 0
            :: fixAt "EQPT-1" 2 10 20 0 :: [] ∧
      (parseCSVPreprocess flatDistance interleavedData).map (fun r => r.point)
        = sortByTime interleavedData ∧
      ((parseCSVPreprocess flatDistance interleavedData)[1 + 1]?).map
          (fun r => (r.point, r.timeDiff, r.distance))
        = some (fixAt "EQPT-1" 2 10 20 0,
            some ((((fixAt "EQPT-1" 2 10 20 0).eventGeneratedTime
              - (fixAt "EQPT-2" 1 11 20 0).eventGeneratedTime : Int) : ℚ) / 1000),
            some (flatDistance 11 20 10 20)) :=
  ⟨sortByTime_interleavedData,
    (parseCSVPreprocess_measures_from_previous_row flatDistance interleavedData
      [fixAt "EQPT-1" 0 10 20 0] [] (fixAt "EQPT-2" 1 11 20 0) (fixAt "EQPT-1" 2 10 20 0)
      sortByTime_interleavedData).1,
    (parseCSVPreprocess_measures_from_previous_row flatDistance interleavedData
      [fixAt "EQPT-1" 0 10 20 0] [] (fixAt "EQPT-2" 1 11 20 0) (fixAt "EQPT-1" 2 10 20 0)
      sortByTime_interleavedData).2.1⟩

end StoppageDetector
